import Mathlib

/-!
# github-star (omg): the sync-and-cache engine of `core/omg.c`

A shallow embedding of the functions of `core/omg.c` and theorems about them.

Conventions of the embedding

* A C string (`char *`) is a Lean `String` whose characters stand for the bytes of
  the C string; a pointer that may be `NULL` is an `Option`.
* `size_t` values are natural numbers reduced modulo `2 ^ 64` where the source
  computes with them; `int` values are integers reduced to the 32-bit range where a
  wider value is narrowed.
* The row store, the transport and the JSON decoder are external collaborators.
  What they answer is a parameter of the embedding (`omg_context`); what the SQL
  statements written in `omg.c` do to the tables is embedded statement by statement.
* Undefined behaviour of the C program (a `NULL` handed to `strdup`, a store through
  a `NULL` pointer, a `sprintf` that stores past its destination) is a `Fault`; a
  function that can reach one returns `Except Fault`.
* A `sprintf` whose destination is also one of its arguments is undefined in ISO C;
  what the C library of the build makes of it is a parameter of the embedding
  (`sprintf_overlap`), with the undefined case among its values.
-/

namespace Omg

/-! ## Machine integers -/

/-- The range of `size_t` on the 64-bit targets the program is built for. -/
def SIZE_MAX_PLUS_ONE : Nat := 2 ^ 64

/-- Arithmetic on `size_t` wraps. -/
def size_t_wrap (n : Nat) : Nat := n % SIZE_MAX_PLUS_ONE

/-- Narrowing of a wider integer to a C `int` (32 bits, two's complement). -/
def int_wrap (i : Int) : Int := (i + 2147483648) % 4294967296 - 2147483648

/-! ## Response buffer (`response`, `mem_cb`) -/

/-- One byte of memory; a character of a C string. -/
abbrev Byte := Char

/-- The terminating byte of a C string. -/
def NUL : Byte := Char.ofNat 0

/-- The `response` struct: `memory` is the allocated block (`none` is `NULL`), listed
byte by byte over its whole allocated length, and `size` the number of body bytes. -/
structure response where
  memory : Option (List Byte)
  size : Nat

/-- The libc `realloc` when it succeeds: a block of `n` bytes that starts with the
bytes of the old block (as many as fit); the byte at an index beyond the old block is
whatever the allocator left there, `junk` of that index. -/
def realloc (old : Option (List Byte)) (n : Nat) (junk : Nat → Byte) : List Byte :=
  (old.getD []).take n ++ (List.range (n - (old.getD []).length)).map junk

/-- The libc `memcpy(&dst[off], src, n)` on a block listed byte by byte. -/
def memcpy (dst : List Byte) (off : Nat) (src : List Byte) (n : Nat) : List Byte :=
  dst.take off ++ src.take n ++ dst.drop (off + n)

/-- The store `dst[i] = b`. -/
def poke (dst : List Byte) (i : Nat) (b : Byte) : List Byte := dst.set i b

/-- What the allocator does at one `realloc` call: `none` when it returns `NULL`,
otherwise the previous content of the fresh part of the block. -/
abbrev Alloc := Option (Nat → Byte)

/-- The write callback `mem_cb(contents, size, nmemb, userp)`; `a` is the answer of
`realloc` at this call. Returns the callback's return value and the buffer after it. -/
def mem_cb (contents : List Byte) (size nmemb : Nat) (mem : response) (a : Alloc) :
    Nat × response :=
  let realsize := size_t_wrap (size * nmemb)
  match a with
  | none => (0, mem)
  | some junk =>
    let ptr := realloc mem.memory (size_t_wrap (mem.size + realsize + 1)) junk
    let m1 := memcpy ptr mem.size contents realsize
    let size1 := size_t_wrap (mem.size + realsize)
    (realsize, { memory := some (poke m1 size1 NUL), size := size1 })

/-- A chunk as the transport hands it to the write callback (`size * nmemb` bytes at
`contents`), with the answer the allocator gives during that call. -/
structure Chunk where
  contents : List Byte
  size : Nat
  nmemb : Nat
  alloc : Alloc

/-- The transport's calls of the write callback on the chunks of one body, in arrival
order. The transfer goes on while the callback returns the number of bytes it was
given and is aborted at the first call that returns another number. Returns the
return values of the calls made, whether the transfer was aborted, and the buffer. -/
def deliver : List Chunk → response → List Nat × Bool × response
  | [], mem => ([], false, mem)
  | c :: rest, mem =>
    let r := mem_cb c.contents c.size c.nmemb mem c.alloc
    if r.1 = c.size * c.nmemb then
      let rs := deliver rest r.2
      (r.1 :: rs.1, rs.2.1, rs.2.2)
    else ([r.1], true, r.2)

/-- The C string that starts at the beginning of a block: the bytes before the first
NUL; `none` when the block holds no NUL (the read runs off the block). -/
def c_string (block : List Byte) : Option String :=
  if NUL ∈ block then some (String.mk (block.takeWhile (fun b => b != NUL))) else none

/-! ## Errors and faults -/

/-- The error codes of `omg.h`, as `omg.c` uses them. -/
inductive omg_code
  | OMG_CODE_OK
  | OMG_CODE_CURL
  | OMG_CODE_JSON
  | OMG_CODE_DB
  | OMG_CODE_GITHUB
  | OMG_CODE_INTERNAL
  deriving DecidableEq, Repr

/-- The `omg_error` struct: a code and a message (`none` is `NULL`). A message is a
pointer; `message_expired` tells that it points into a stack frame that has ended when
the caller receives the value (the `error.text` of `omg_request`), so that the text
`message` held there must not be read any more. -/
structure omg_error where
  code : omg_code
  message : Option String
  message_expired : Bool := false
  deriving DecidableEq, Repr

def NO_ERROR : omg_error := { code := omg_code.OMG_CODE_OK, message := none }

def is_ok (err : omg_error) : Bool := decide (err.code = omg_code.OMG_CODE_OK)

/-- Undefined behaviour the C program can reach, and the exhaustion of the fuel that
bounds the unrolling of a `while (true)` loop in this embedding. -/
inductive Fault
  | strdup_null
  | store_through_null
  | unterminated_read
  | write_past_array
  | write_past_block
  | overlapping_copy
  | strcmp_null
  | out_of_fuel
  deriving DecidableEq, Repr

/-! ## JSON documents (the accessors of the decoder that `omg.c` calls) -/

/-- A decoded JSON document. A `json_t *` is an `Option Json`, `none` being `NULL`. -/
inductive Json
  | null
  | bool (b : Bool)
  | integer (i : Int)
  | real (text : String)
  | string (s : String)
  | array (elems : List Json)
  | object (members : List (String × Json))

/-- The accessor `json_object_get`: `NULL` when `json` is not an object or has no
such key. -/
def json_object_get (json : Option Json) (key : String) : Option Json :=
  match json with
  | some (Json.object members) => members.lookup key
  | _ => none

/-- The accessor `json_is_null`, `json && json_typeof(json) == JSON_NULL`. -/
def json_is_null (json : Option Json) : Bool :=
  match json with
  | some Json.null => true
  | _ => false

/-- The accessor `json_string_value`: `NULL` when `json` is not a string. -/
def json_string_value (json : Option Json) : Option String :=
  match json with
  | some (Json.string s) => some s
  | _ => none

/-- The accessor `json_integer_value`: `0` when `json` is not an integer. -/
def json_integer_value (json : Option Json) : Int :=
  match json with
  | some (Json.integer i) => i
  | _ => 0

/-- The accessor `json_boolean_value`, that is `json_is_true`. -/
def json_boolean_value (json : Option Json) : Bool :=
  match json with
  | some (Json.bool true) => true
  | _ => false

/-- The accessor `json_array_size`: `0` when `json` is not an array. -/
def json_array_size (json : Option Json) : Nat :=
  match json with
  | some (Json.array elems) => elems.length
  | _ => 0

/-- The accessor `json_array_get`: `NULL` when `json` is not an array or the index is
out of range. -/
def json_array_get (json : Option Json) (i : Nat) : Option Json :=
  match json with
  | some (Json.array elems) => elems.get? i
  | _ => none

/-! ## Records and entity mappers -/

/-- The libc `strdup`; its argument must not be `NULL`. -/
def strdup (s : Option String) : Except Fault String :=
  match s with
  | some str => Except.ok str
  | none => Except.error Fault.strdup_null

def strdup_when_not_null (input : Option String) : Option String :=
  match input with
  | some s => some s
  | none => none

/-- The `omg_repo` struct of `omg.h`. Its integer fields are C `int`s, the type that
`sqlite3_bind_int` and `sqlite3_column_int` move in and out of them. -/
structure omg_repo where
  id : Int
  full_name : Option String
  description : Option String
  «private» : Bool
  created_at : Option String
  license : Option String
  pushed_at : Option String
  stargazers_count : Int
  watchers_count : Int
  forks_count : Int
  lang : Option String
  homepage : Option String
  size : Int
  deriving DecidableEq, Repr

/-- The initialiser of `omg_new_repo`: the fields it does not name are zero. -/
def omg_new_repo : omg_repo :=
  { id := 0, full_name := none, description := none, «private» := false,
    created_at := none, license := none, pushed_at := none, stargazers_count := 0,
    watchers_count := 0, forks_count := 0, lang := none, homepage := none, size := 0 }

/-- The `omg_star` struct of `omg.h`. -/
structure omg_star where
  starred_at : Option String
  repo : omg_repo
  deriving DecidableEq, Repr

def dup_json_string (root : Option Json) (key : String) : Except Fault (Option String) :=
  let v := json_object_get root key
  if json_is_null v then Except.ok none
  else (strdup (json_string_value v)).map some

def repo_from_json (root : Option Json) : Except Fault omg_repo := do
  let license := json_object_get root "license"
  let license_key ←
    if !json_is_null license then dup_json_string license "key" else Except.ok none
  let full_name ← dup_json_string root "full_name"
  let description ← dup_json_string root "description"
  let created_at ← dup_json_string root "created_at"
  let pushed_at ← dup_json_string root "pushed_at"
  let lang ← dup_json_string root "language"
  let homepage ← dup_json_string root "homepage"
  return {
    id := int_wrap (json_integer_value (json_object_get root "id")),
    full_name := full_name,
    description := description,
    «private» := json_boolean_value (json_object_get root "private"),
    created_at := created_at,
    license := license_key,
    pushed_at := pushed_at,
    stargazers_count := int_wrap (json_integer_value (json_object_get root "stargazers_count")),
    watchers_count := int_wrap (json_integer_value (json_object_get root "watchers_count")),
    forks_count := int_wrap (json_integer_value (json_object_get root "forks_count")),
    lang := lang,
    homepage := homepage,
    size := int_wrap (json_integer_value (json_object_get root "size")) }

/-! ## The row store

The tables are those the statements of `omg.c` name. `create_table.h`, which declares
them, is not among the sources; the columns are those the statements list. -/

/-- A value held by the row store or bound to a statement parameter. -/
inductive SqlValue
  | null
  | integer (i : Int)
  | text (s : String)
  deriving DecidableEq, Repr

/-- A row of table `omg_repo`, column by column. -/
structure repo_row where
  id : SqlValue
  full_name : SqlValue
  description : SqlValue
  «private» : SqlValue
  created_at : SqlValue
  license : SqlValue
  pushed_at : SqlValue
  stargazers_count : SqlValue
  watchers_count : SqlValue
  forks_count : SqlValue
  lang : SqlValue
  homepage : SqlValue
  size : SqlValue
  deriving DecidableEq, Repr

/-- A row of table `omg_my_repo`. -/
structure my_repo_row where
  repo_id : SqlValue
  deriving DecidableEq, Repr

/-- A row of table `omg_my_star`. -/
structure my_star_row where
  starred_at : SqlValue
  repo_id : SqlValue
  deriving DecidableEq, Repr

/-- The content of the database behind `ctx->db`. -/
structure sqlite3 where
  omg_repo : List repo_row
  omg_my_repo : List my_repo_row
  omg_my_star : List my_star_row
  deriving DecidableEq, Repr

/-- The database right after `init_db` on a fresh file: the tables exist and are empty. -/
def empty_db : sqlite3 := { omg_repo := [], omg_my_repo := [], omg_my_star := [] }

/-- The parameters bound to a prepared statement, by parameter number; a parameter
that was not bound is `NULL`. -/
abbrev Bindings := Nat → SqlValue

/-- A statement with no parameter bound (after `sqlite3_clear_bindings`). -/
def no_bindings : Bindings := fun _ => SqlValue.null

def sqlite3_bind_int (b : Bindings) (k : Nat) (v : Int) : Bindings :=
  fun j => if j = k then SqlValue.integer v else b j

/-- The call `sqlite3_bind_int64`: the `size_t` argument is read as a signed 64-bit
integer. -/
def sqlite3_bind_int64 (b : Bindings) (k : Nat) (v : Nat) : Bindings :=
  fun j => if j = k then
    SqlValue.integer (((v : Int) + 9223372036854775808) % 18446744073709551616
      - 9223372036854775808)
  else b j

/-- The call `sqlite3_bind_text(stmt, k, s, -1, SQLITE_STATIC)`: a `NULL` pointer binds
`NULL`. -/
def sqlite3_bind_text (b : Bindings) (k : Nat) (s : Option String) : Bindings :=
  fun j => if j = k then (match s with
    | some str => SqlValue.text str
    | none => SqlValue.null) else b j

/-- The statement text of `save_repos`. -/
def SQL_SAVE_REPOS : String :=
  "INSERT INTO omg_repo (id, full_name, description, private, " ++
  "created_at, license, pushed_at, stargazers_count, watchers_count, " ++
  "forks_count, lang, homepage, `size`) " ++
  "   VALUES (?1, ?2, ?3, ?4, ?5, ?6, ?7, ?8, ?9, ?10, ?11, ?12, ?13)    " ++
  "ON CONFLICT (id)                                                      " ++
  "   DO UPDATE SET " ++
  "   full_name=?2, description=?3, private =?4,             " ++
  "   created_at=?5, license=?6, pushed_at=?7, " ++
  "   stargazers_count=?8, watchers_count=?9,forks_count=?10, " ++
  "   lang=?11, homepage=?12, `size`=?13 "

/-- The statement text of `save_my_repos`. -/
def SQL_SAVE_MY_REPOS : String :=
  "insert or ignore into omg_my_repo(repo_id) values (?1)"

/-- The statement text of `save_my_stars`. -/
def SQL_SAVE_MY_STARS : String :=
  "insert into omg_my_star(starred_at, repo_id) values (?1, ?2)" ++
  "on conflict(repo_id)" ++
  "do update set starred_at = ?1"

/-- The first statement text of `omg_unstar`. -/
def SQL_UNSTAR_SELECT : String := "select full_name from omg_repo where id = ?"

/-- The second statement text of `omg_unstar`. -/
def SQL_UNSTAR_DELETE : String := "delete from omg_my_star where repo_id = ?"

/-- What statement `SQL_SAVE_REPOS` does to table `omg_repo` when its step completes:
a row with the bound id gets every other column overwritten, in place; when there is
none, the bound row is added. -/
def exec_save_repos (b : Bindings) (t : List repo_row) : List repo_row :=
  if t.any (fun r => decide (r.id = b 1)) then
    t.map (fun r => if r.id = b 1 then
      { r with full_name := b 2, description := b 3, «private» := b 4,
               created_at := b 5, license := b 6, pushed_at := b 7,
               stargazers_count := b 8, watchers_count := b 9, forks_count := b 10,
               lang := b 11, homepage := b 12, size := b 13 }
      else r)
  else
    t ++ [{ id := b 1, full_name := b 2, description := b 3, «private» := b 4,
            created_at := b 5, license := b 6, pushed_at := b 7,
            stargazers_count := b 8, watchers_count := b 9, forks_count := b 10,
            lang := b 11, homepage := b 12, size := b 13 }]

/-- What statement `SQL_SAVE_MY_REPOS` does to table `omg_my_repo` when its step
completes: nothing when a row with the bound repo id exists, otherwise that row is
added. -/
def exec_save_my_repos (b : Bindings) (t : List my_repo_row) : List my_repo_row :=
  if t.any (fun r => decide (r.repo_id = b 1)) then t
  else t ++ [{ repo_id := b 1 }]

/-- What statement `SQL_SAVE_MY_STARS` does to table `omg_my_star` when its step
completes: a row with the bound repo id gets its `starred_at` overwritten, in place;
when there is none, the bound row is added. -/
def exec_save_my_stars (b : Bindings) (t : List my_star_row) : List my_star_row :=
  if t.any (fun r => decide (r.repo_id = b 2)) then
    t.map (fun r => if r.repo_id = b 2 then { r with starred_at := b 1 } else r)
  else t ++ [{ starred_at := b 1, repo_id := b 2 }]

/-- What statement `SQL_UNSTAR_DELETE` does to table `omg_my_star` when its step
completes. -/
def exec_unstar_delete (b : Bindings) (t : List my_star_row) : List my_star_row :=
  t.filter (fun r => !decide (r.repo_id = b 1))

/-- The rows statement `SQL_UNSTAR_SELECT` yields, one column each. -/
def exec_unstar_select (b : Bindings) (t : List repo_row) : List SqlValue :=
  (t.filter (fun r => decide (r.id = b 1))).map (fun r => r.full_name)

/-! ## The world outside the functions -/

/-- A call that leaves the program, in the order the calls are made. -/
inductive Event
  | prepare (sql : String) (ok : Bool)
  | step (sql : String) (params : List SqlValue) (ok : Bool)
  | select (sql : String)
  | request (method : String) (url : String)
  deriving DecidableEq, Repr

/-- The mutable state the functions work on: the database content and the calls made
so far (latest last). -/
structure World where
  db : sqlite3
  log : List Event

/-- A `regmatch_t`: the offsets of the start and of the end of a match. -/
structure regmatch_t where
  rm_so : Nat
  rm_eo : Nat
  deriving DecidableEq, Repr

/-- What the transport does with one request: the chunks of the body it hands to the
write callback, the result of `curl_easy_perform` when no write is refused (`none` is
`CURLE_OK`, otherwise the text of `curl_easy_strerror`), the response code, and the
byte that `malloc(1)` left in the fresh buffer. -/
structure Transfer where
  chunks : List Chunk
  res : Option String
  response_code : Int
  malloc1 : Byte

/-- What a C library makes of `sprintf(dst, "%s...", dst, ...)`, a call in which the
destination is also the first `%s` argument. ISO C leaves a copy between overlapping
objects undefined (`undefined`). Two libraries are known by what they do: one stores
the output from the start of the destination while it reads the arguments, so that the
old text stays in place and the rest of the output follows it (`in_place`, a plain
build against glibc); one empties the destination before it reads the arguments, so
that the old text is lost and only the rest is stored (`erased`, a build against glibc
with `_FORTIFY_SOURCE`). -/
inductive sprintf_overlap
  | in_place
  | erased
  | undefined
  deriving DecidableEq, Repr

/-- The context `omg_context`, that is what the collaborators behind its handles
answer. Each answer may depend on the calls made so far.

* `curl`: the transfer for a request with a method and a URL;
* `json_loads`: the decoder, on the text of a body (`Except.error` carries
  `error.text`);
* `prepare_fails`: whether the next `sqlite3_prepare_v2` fails;
* `step_fails`: whether the next `sqlite3_step` of a write statement, or of the
  select of `omg_unstar`, fails; a failed step changes no table;
* `sqlite3_errmsg`: the message of the row store;
* `select_cut`: for one pass of steps over the rows of a select, `none` when the pass
  reaches `SQLITE_DONE`, `some k` when a step fails after at most `k` rows;
* `select_other`: the rows of a select text other than the two unfiltered ones;
* `datetime_localtime`: the SQL function `datetime(x, 'localtime')`;
* `trending_re`: `pcre2_regexec` of the compiled pattern `RE` on a text, `none` when
  there is no match, otherwise `pmatch`;
* `libc_sprintf_overlap`: what the C library of the build makes of a `sprintf` whose
  destination is one of its `%s` arguments. -/
structure omg_context where
  libc_sprintf_overlap : sprintf_overlap
  curl : List Event → String → String → Transfer
  json_loads : String → Except String Json
  prepare_fails : List Event → Bool
  step_fails : List Event → Bool
  sqlite3_errmsg : List Event → String
  select_cut : List Event → Option Nat
  select_other : String → sqlite3 → List (List SqlValue)
  datetime_localtime : SqlValue → SqlValue
  trending_re : String → Option (Nat → regmatch_t)

/-! ## Upsert store (`save_repos`, `save_my_repos`, `save_my_stars`) -/

/-- The call `sqlite3_prepare_v2`: whether it succeeded (returned 0), and the world
after it. -/
def sqlite3_prepare_v2 (ctx : omg_context) (w : World) (sql : String) : Bool × World :=
  let ok := !ctx.prepare_fails w.log
  (ok, { db := w.db, log := w.log ++ [Event.prepare sql ok] })

/-- The parameters `?1 .. ?n` of a statement, listed. -/
def params (b : Bindings) (n : Nat) : List SqlValue :=
  (List.range n).map (fun k => b (k + 1))

/-- The call `sqlite3_step` on a write statement: when the row store completes it
(`SQLITE_DONE`) the statement has taken effect, otherwise nothing has changed. Returns
whether the result was `SQLITE_DONE`, and the world after the call. -/
def sqlite3_step_write (ctx : omg_context) (w : World) (sql : String)
    (ps : List SqlValue) (effect : sqlite3 → sqlite3) : Bool × World :=
  if ctx.step_fails w.log then
    (false, { db := w.db, log := w.log ++ [Event.step sql ps false] })
  else
    (true, { db := effect w.db, log := w.log ++ [Event.step sql ps true] })

/-- The thirteen binds of the loop body of `save_repos`, in the order of
`column++`. -/
def bind_repo (repo : omg_repo) : Bindings :=
  let b := no_bindings
  let b := sqlite3_bind_int b 1 repo.id
  let b := sqlite3_bind_text b 2 repo.full_name
  let b := sqlite3_bind_text b 3 repo.description
  let b := sqlite3_bind_int b 4 (if repo.«private» then 1 else 0)
  let b := sqlite3_bind_text b 5 repo.created_at
  let b := sqlite3_bind_text b 6 repo.license
  let b := sqlite3_bind_text b 7 repo.pushed_at
  let b := sqlite3_bind_int b 8 repo.stargazers_count
  let b := sqlite3_bind_int b 9 repo.watchers_count
  let b := sqlite3_bind_int b 10 repo.forks_count
  let b := sqlite3_bind_text b 11 repo.lang
  let b := sqlite3_bind_text b 12 repo.homepage
  sqlite3_bind_int b 13 repo.size

/-- The row loop of `save_repos`: bind, step, report a step that is not
`SQLITE_DONE` on `stderr` (not part of the world), reset, go on. -/
def save_repos_loop (ctx : omg_context) : List omg_repo → World → World
  | [], w => w
  | repo :: rest, w =>
    let b := bind_repo repo
    let r := sqlite3_step_write ctx w SQL_SAVE_REPOS (params b 13)
      (fun db => { db with omg_repo := exec_save_repos b db.omg_repo })
    save_repos_loop ctx rest r.2

def save_repos (ctx : omg_context) (w : World) (repo_lst : List omg_repo) :
    omg_error × World :=
  let p := sqlite3_prepare_v2 ctx w SQL_SAVE_REPOS
  if !p.1 then
    ({ code := omg_code.OMG_CODE_DB, message := some (ctx.sqlite3_errmsg p.2.log) }, p.2)
  else
    (NO_ERROR, save_repos_loop ctx repo_lst p.2)

/-- The row loop of `save_my_repos`. -/
def save_my_repos_loop (ctx : omg_context) : List omg_repo → World → World
  | [], w => w
  | repo :: rest, w =>
    let b := sqlite3_bind_int no_bindings 1 repo.id
    let r := sqlite3_step_write ctx w SQL_SAVE_MY_REPOS (params b 1)
      (fun db => { db with omg_my_repo := exec_save_my_repos b db.omg_my_repo })
    save_my_repos_loop ctx rest r.2

def save_my_repos (ctx : omg_context) (w : World) (repo_lst : List omg_repo) :
    omg_error × World :=
  let s := save_repos ctx w repo_lst
  if !is_ok s.1 then s
  else
    let p := sqlite3_prepare_v2 ctx s.2 SQL_SAVE_MY_REPOS
    if !p.1 then
      ({ code := omg_code.OMG_CODE_DB, message := some (ctx.sqlite3_errmsg p.2.log) }, p.2)
    else
      (NO_ERROR, save_my_repos_loop ctx repo_lst p.2)

/-- The row loop of `save_my_stars`. -/
def save_my_stars_loop (ctx : omg_context) : List omg_star → World → World
  | [], w => w
  | star :: rest, w =>
    let b := sqlite3_bind_text no_bindings 1 star.starred_at
    let b := sqlite3_bind_int b 2 star.repo.id
    let r := sqlite3_step_write ctx w SQL_SAVE_MY_STARS (params b 2)
      (fun db => { db with omg_my_star := exec_save_my_stars b db.omg_my_star })
    save_my_stars_loop ctx rest r.2

def save_my_stars (ctx : omg_context) (w : World) (star_lst : List omg_star) :
    omg_error × World :=
  let repo_lst := star_lst.map (fun star => star.repo)
  let s := save_repos ctx w repo_lst
  if !is_ok s.1 then s
  else
    let p := sqlite3_prepare_v2 ctx s.2 SQL_SAVE_MY_STARS
    if !p.1 then
      ({ code := omg_code.OMG_CODE_DB, message := some (ctx.sqlite3_errmsg p.2.log) }, p.2)
    else
      (NO_ERROR, save_my_stars_loop ctx star_lst p.2)

/-! ## Requests (`omg_request`) and the pagination driver -/

def API_ROOT : String := "https://api.github.com"
def GET_METHOD : String := "GET"
def DELETE_METHOD : String := "DELETE"

/-- The page size: `PER_PAGE` is 10 in a build with `OMG_TEST` and 100 otherwise. -/
def PER_PAGE (OMG_TEST : Bool) : Nat := if OMG_TEST then 10 else 100

/-- The size of the array `char url[128]` into which the functions format a URL. -/
def URL_LEN : Nat := 128

/-- A `sprintf` into the array `url`: the text and its terminating NUL are stored with
no bound; a store past the array is undefined. -/
def sprintf_url (text : String) : Except Fault String :=
  if text.length + 1 ≤ URL_LEN then Except.ok text else Except.error Fault.write_past_array

/-- The call `curl_easy_perform` with `mem_cb` as write callback: the chunks are
delivered to the buffer; a refused write aborts the transfer with the write error. -/
def curl_easy_perform (t : Transfer) (chunk : response) : Option String × response :=
  let d := deliver t.chunks chunk
  if d.2.1 then (some "Failed writing received data to disk/application", d.2.2)
  else (t.res, d.2.2)

/-- The function `omg_request` as every caller in `omg.c` uses it, with a `NULL`
payload; `out_given` tells whether `out` is a non-`NULL` pointer. Returns the error
value, the document stored through `out` (if any), and the world. The message of the
JSON error is `error.text`, an array in the frame of `omg_request` itself: the pointer
is returned after that frame has ended. -/
def omg_request (ctx : omg_context) (w : World) (method url : String) (out_given : Bool) :
    Except Fault (omg_error × Option Json × World) :=
  let t := ctx.curl w.log method url
  let w1 : World := { db := w.db, log := w.log ++ [Event.request method url] }
  let chunk : response := { memory := some [t.malloc1], size := 0 }
  let r := curl_easy_perform t chunk
  match r.1 with
  | some msg => Except.ok ({ code := omg_code.OMG_CODE_CURL, message := some msg }, none, w1)
  | none =>
    if t.response_code = 204 ∨ t.response_code = 304 then Except.ok (NO_ERROR, none, w1)
    else
      match c_string (r.2.memory.getD []) with
      | none => Except.error Fault.unterminated_read
      | some body =>
        match ctx.json_loads body with
        | Except.error text =>
          Except.ok ({ code := omg_code.OMG_CODE_JSON, message := some text,
                       message_expired := true }, none, w1)
        | Except.ok resp =>
          if out_given then Except.ok (NO_ERROR, some resp, w1)
          else Except.error Fault.store_through_null

/-- The elements `json_array_get(resp, i)` for `i < json_array_size(resp)`. -/
def json_array_elems (resp : Option Json) : List (Option Json) :=
  (List.range (json_array_size resp)).map (fun i => json_array_get resp i)

/-- The URL that `fetch_repos_by_page` formats into `url`. A page number is a `size_t`,
of at most 20 digits: the text has at most 94 characters and fits the array. -/
def repos_page_url (OMG_TEST : Bool) (page_num : Nat) : String :=
  API_ROOT ++ "/user/repos?type=all&per_page=" ++ toString (PER_PAGE OMG_TEST) ++
    "&page=" ++ toString page_num ++ "&sort=created"

def fetch_repos_by_page (OMG_TEST : Bool) (ctx : omg_context) (w : World) (page_num : Nat) :
    Except Fault (omg_error × List omg_repo × World) := do
  let url := repos_page_url OMG_TEST page_num
  let r ← omg_request ctx w GET_METHOD url true
  if !is_ok r.1 then return (r.1, [], r.2.2)
  let repos ← (json_array_elems r.2.1).mapM repo_from_json
  return (NO_ERROR, repos, r.2.2)

/-- The loop of `omg_sync_repos`, unrolled at most `fuel` times, from page
`page_num`; `page_num++` is `size_t` arithmetic. -/
def omg_sync_repos_loop (OMG_TEST : Bool) (ctx : omg_context) :
    Nat → Nat → World → Except Fault (omg_error × World)
  | 0, _, _ => Except.error Fault.out_of_fuel
  | fuel + 1, page_num, w =>
    if OMG_TEST && decide (page_num > 2) then Except.ok (NO_ERROR, w)
    else
      match fetch_repos_by_page OMG_TEST ctx w page_num with
      | Except.error f => Except.error f
      | Except.ok (err, repo_lst, w1) =>
        if !is_ok err then Except.ok (err, w1)
        else
          let s := save_my_repos ctx w1 repo_lst
          if !is_ok s.1 then Except.ok s
          else if repo_lst.length < PER_PAGE OMG_TEST then Except.ok (NO_ERROR, s.2)
          else omg_sync_repos_loop OMG_TEST ctx fuel (size_t_wrap (page_num + 1)) s.2

def omg_sync_repos (OMG_TEST : Bool) (ctx : omg_context) (fuel : Nat) (w : World) :
    Except Fault (omg_error × World) :=
  omg_sync_repos_loop OMG_TEST ctx fuel 1 w

/-- The URL that `fetch_stars_by_page` formats into `url`. A page number is a `size_t`,
of at most 20 digits: the text has at most 83 characters and fits the array. -/
def stars_page_url (OMG_TEST : Bool) (page_num : Nat) : String :=
  API_ROOT ++ "/user/starred?type=all&per_page=" ++ toString (PER_PAGE OMG_TEST) ++
    "&page=" ++ toString page_num

/-- The element mapping in the loop of `fetch_stars_by_page`. -/
def star_from_json (one_star : Option Json) : Except Fault omg_star := do
  let repo ← repo_from_json (json_object_get one_star "repo")
  let starred_at ← dup_json_string one_star "starred_at"
  return { starred_at := starred_at, repo := repo }

def fetch_stars_by_page (OMG_TEST : Bool) (ctx : omg_context) (w : World) (page_num : Nat) :
    Except Fault (omg_error × List omg_star × World) := do
  let url := stars_page_url OMG_TEST page_num
  let r ← omg_request ctx w GET_METHOD url true
  if !is_ok r.1 then return (r.1, [], r.2.2)
  let stars ← (json_array_elems r.2.1).mapM star_from_json
  return (NO_ERROR, stars, r.2.2)

/-- The loop of `omg_sync_stars`, unrolled at most `fuel` times, from page
`page_num`. -/
def omg_sync_stars_loop (OMG_TEST : Bool) (ctx : omg_context) :
    Nat → Nat → World → Except Fault (omg_error × World)
  | 0, _, _ => Except.error Fault.out_of_fuel
  | fuel + 1, page_num, w =>
    if OMG_TEST && decide (page_num > 2) then Except.ok (NO_ERROR, w)
    else
      match fetch_stars_by_page OMG_TEST ctx w page_num with
      | Except.error f => Except.error f
      | Except.ok (err, star_lst, w1) =>
        if !is_ok err then Except.ok (err, w1)
        else
          let s := save_my_stars ctx w1 star_lst
          if !is_ok s.1 then Except.ok s
          else if star_lst.length < PER_PAGE OMG_TEST then Except.ok (NO_ERROR, s.2)
          else omg_sync_stars_loop OMG_TEST ctx fuel (size_t_wrap (page_num + 1)) s.2

def omg_sync_stars (OMG_TEST : Bool) (ctx : omg_context) (fuel : Nat) (w : World) :
    Except Fault (omg_error × World) :=
  omg_sync_stars_loop OMG_TEST ctx fuel 1 w

/-! ## Query builder and queries -/

/-- The capacity of the buffer that `prepare_query_sql` allocates. -/
def SQL_DEFAULT_LEN : Nat := 512

def empty_string (s : Option String) : Bool :=
  match s with
  | some str => decide (0 = str.length)
  | none => true

/-- The value `sprintf` returns for a formatted text: its length, or a negative value
when the length is not representable in an `int`. -/
def sprintf_ret (text : String) : Int :=
  if text.length ≤ 2147483647 then (text.length : Int) else -1

/-- The conversion of an `int` to `size_t` that the comparison
`current_len > SQL_DEFAULT_LEN` applies to its left operand. -/
def size_t_of_int (i : Int) : Nat := (i % (SIZE_MAX_PLUS_ONE : Int)).toNat

/-- The text of the first `sprintf` of `prepare_query_sql`. -/
def query_select_text (is_star : Bool) : String :=
  let first_column :=
    if is_star then "datetime(starred_at, 'localtime') as starred_at" else "1"
  let table_name := if is_star then "omg_my_star_view" else "omg_my_repo_view"
  "select " ++ first_column ++ "," ++
  "id,full_name,description,private," ++
  "datetime(created_at, 'localtime')," ++
  "license," ++
  "datetime(pushed_at, 'localtime')," ++
  "stargazers_count,watchers_count,forks_count,lang,homepage,`size` " ++
  "from " ++ table_name ++ " where 1"

/-- The output of the `sprintf` that appends the keyword filter, after its leading
`%s`. -/
def keyword_clause (keyword : String) : String :=
  " and (full_name like '%" ++ keyword ++ "%' COLLATE NOCASE " ++
  "or description like '%" ++ keyword ++ "%' COLLATE NOCASE)"

/-- The output of the `sprintf` that appends the language filter, after its leading
`%s`. -/
def language_clause (language : String) : String :=
  " and lang='" ++ language ++ "' COLLATE NOCASE"

/-- The output of the `sprintf` that appends the sort order, after its leading `%s`. -/
def order_by_clause (is_star : Bool) : String :=
  let sort_column := if is_star then "starred_at" else "created_at"
  " order by " ++ sort_column ++ " desc"

/-- A `sprintf` into `sql`, the block of `SQL_DEFAULT_LEN` bytes from `malloc`: the
text and its terminating NUL are stored, with no bound, before the call returns; a
store past the block is undefined. Returns the text that `sql` holds afterwards. -/
def sprintf_sql (text : String) : Except Fault String :=
  if text.length + 1 ≤ SQL_DEFAULT_LEN then Except.ok text
  else Except.error Fault.write_past_block

/-- A `sprintf(sql, "%s<rest>", sql, ...)`, in which the destination `sql` is also the
first argument: what is stored depends on the C library of the build. -/
def sprintf_sql_self (ctx : omg_context) (sql rest : String) : Except Fault String :=
  match ctx.libc_sprintf_overlap with
  | sprintf_overlap.in_place => sprintf_sql (sql ++ rest)
  | sprintf_overlap.erased => sprintf_sql rest
  | sprintf_overlap.undefined => Except.error Fault.overlapping_copy

/-- The statements of `prepare_query_sql` after its last `sprintf`, `sql` being the
text in the block: the comparison of `current_len` with the capacity, and the
preparation of the text. -/
def prepare_query_sql_tail (ctx : omg_context) (w : World) (sql : String) :
    omg_error × Option String × World :=
  if size_t_of_int (sprintf_ret sql) > SQL_DEFAULT_LEN then
    ({ code := omg_code.OMG_CODE_INTERNAL,
       message := some "buffer not enough when append order_by" }, none, w)
  else
    let p := sqlite3_prepare_v2 ctx w sql
    if !p.1 then
      ({ code := omg_code.OMG_CODE_DB, message := some (ctx.sqlite3_errmsg p.2.log) },
        none, p.2)
    else (NO_ERROR, some sql, p.2)

/-- The function `prepare_query_sql`. Each `sprintf` stores its text in the block
before the comparison of its return value is made. Returns the error value, the text
of the statement stored through `out` (if any), and the world. -/
def prepare_query_sql (ctx : omg_context) (w : World) (is_star : Bool)
    (keyword language : Option String) : Except Fault (omg_error × Option String × World) :=
  match sprintf_sql (query_select_text is_star) with
  | Except.error f => Except.error f
  | Except.ok sql =>
    match (if !empty_string keyword then
        sprintf_sql_self ctx sql (keyword_clause (keyword.getD "")) else Except.ok sql) with
    | Except.error f => Except.error f
    | Except.ok sql =>
      if !empty_string keyword &&
          decide (size_t_of_int (sprintf_ret sql) > SQL_DEFAULT_LEN) then
        Except.ok ({ code := omg_code.OMG_CODE_INTERNAL,
                     message := some "buffer not enough when append keyword" }, none, w)
      else
        match (if !empty_string language then
            sprintf_sql_self ctx sql (language_clause (language.getD "")) else Except.ok sql) with
        | Except.error f => Except.error f
        | Except.ok sql =>
          if !empty_string language &&
              decide (size_t_of_int (sprintf_ret sql) > SQL_DEFAULT_LEN) then
            Except.ok ({ code := omg_code.OMG_CODE_INTERNAL,
                         message := some "buffer not enough when append language" }, none, w)
          else
            match sprintf_sql_self ctx sql (order_by_clause is_star) with
            | Except.error f => Except.error f
            | Except.ok sql => Except.ok (prepare_query_sql_tail ctx w sql)

/-- Modelled from the spec: the view `omg_my_repo_view` of `create_table.h`, which is
not among the sources ("views joining stars/repos and my-repos/repos respectively"):
the join of the markers with the repository rows on the repo id. -/
def omg_my_repo_view (db : sqlite3) : List repo_row :=
  db.omg_my_repo.flatMap (fun m => db.omg_repo.filter (fun r => decide (r.id = m.repo_id)))

/-- Modelled from the spec: the view `omg_my_star_view` of `create_table.h`, which is
not among the sources: the join of the stars with the repository rows on the repo id,
the `starred_at` of the star first. -/
def omg_my_star_view (db : sqlite3) : List (SqlValue × repo_row) :=
  db.omg_my_star.flatMap (fun s =>
    (db.omg_repo.filter (fun r => decide (r.id = s.repo_id))).map (fun r => (s.starred_at, r)))

/-- The order of the row store on values: `NULL` first, then integers, then texts. -/
def sql_lt : SqlValue → SqlValue → Bool
  | SqlValue.null, SqlValue.null => false
  | SqlValue.null, _ => true
  | SqlValue.integer a, SqlValue.integer b => decide (a < b)
  | SqlValue.integer _, SqlValue.text _ => true
  | SqlValue.text a, SqlValue.text b => decide (a < b)
  | _, _ => false

/-- Insertion into a list sorted by descending `key`, after the entries that are not
smaller. -/
def insert_desc {α : Type} (key : α → SqlValue) (x : α) : List α → List α
  | [] => [x]
  | y :: ys => if sql_lt (key y) (key x) then x :: y :: ys else y :: insert_desc key x ys

/-- The clause `order by key desc`; rows with equal keys keep their order. -/
def order_by_desc {α : Type} (key : α → SqlValue) (rows : List α) : List α :=
  rows.foldl (fun acc x => insert_desc key x acc) []

/-- The fourteen result columns of the select of `prepare_query_sql` for one row of
the view, `first` being the first column. -/
def select_columns (ctx : omg_context) (first : SqlValue) (r : repo_row) : List SqlValue :=
  [first, r.id, r.full_name, r.description, r.«private»,
   ctx.datetime_localtime r.created_at, r.license, ctx.datetime_localtime r.pushed_at,
   r.stargazers_count, r.watchers_count, r.forks_count, r.lang, r.homepage, r.size]

/-- The rows a prepared select yields. For the two texts without filter it is the
view, ordered (by the column `created_at` for repos, by the result column
`starred_at` for stars); for a text with a filter it is what the row store makes of
that text. -/
def sqlite_select (ctx : omg_context) (sql : String) (db : sqlite3) : List (List SqlValue) :=
  if sql = query_select_text false ++ order_by_clause false then
    (order_by_desc (fun r => r.created_at) (omg_my_repo_view db)).map
      (fun r => select_columns ctx (SqlValue.integer 1) r)
  else if sql = query_select_text true ++ order_by_clause true then
    (order_by_desc (fun x => ctx.datetime_localtime x.1) (omg_my_star_view db)).map
      (fun x => select_columns ctx (ctx.datetime_localtime x.1) x.2)
  else ctx.select_other sql db

/-- One pass of `sqlite3_step` calls over the rows of a select, until a step returns
something else than `SQLITE_ROW`: the rows seen, whether the last step returned
`SQLITE_DONE`, and the world. -/
def select_pass (ctx : omg_context) (w : World) (sql : String) (rows : List (List SqlValue)) :
    List (List SqlValue) × Bool × World :=
  let w1 : World := { db := w.db, log := w.log ++ [Event.select sql] }
  match ctx.select_cut w.log with
  | none => (rows, true, w1)
  | some k => (rows.take k, false, w1)

/-- The white space of the row store (`sqlite3Isspace`): the space and the bytes 9 to
13. -/
def sqlite3Isspace (c : Char) : Bool :=
  decide (c.toNat = 32) || (decide (9 ≤ c.toNat) && decide (c.toNat ≤ 13))

/-- The 64-bit integer a text of the row store stands for (`sqlite3Atoi64`): after
white space, its longest prefix that reads as a decimal integer, `0` when there is
none; a value out of the 64-bit range becomes the nearest bound. -/
def sqlite_text_to_int (s : String) : Int :=
  let cs := s.toList.dropWhile sqlite3Isspace
  let neg := decide (cs.head? = some (Char.ofNat 45))
  let ds := (if neg ∨ cs.head? = some (Char.ofNat 43) then cs.drop 1 else cs).takeWhile
    Char.isDigit
  let n : Nat := ds.foldl (fun acc c => 10 * acc + (c.toNat - 48)) 0
  if neg then max (-(n : Int)) (-9223372036854775808) else min (n : Int) 9223372036854775807

/-- The call `sqlite3_column_int` on a value of the current row: the 64-bit value of
the column, narrowed to `int`. -/
def sqlite3_column_int (row : List SqlValue) (k : Nat) : Int :=
  match row.getD k SqlValue.null with
  | SqlValue.null => 0
  | SqlValue.integer i => int_wrap i
  | SqlValue.text s => int_wrap (sqlite_text_to_int s)

/-- The call `sqlite3_column_text` on a value of the current row. -/
def sqlite3_column_text (row : List SqlValue) (k : Nat) : Option String :=
  match row.getD k SqlValue.null with
  | SqlValue.null => none
  | SqlValue.integer i => some (toString i)
  | SqlValue.text s => some s

def repo_from_db (stmt : List SqlValue) : omg_repo :=
  { id := sqlite3_column_int stmt 1,
    full_name := strdup_when_not_null (sqlite3_column_text stmt 2),
    description := strdup_when_not_null (sqlite3_column_text stmt 3),
    «private» := decide (sqlite3_column_int stmt 4 ≠ 0),
    created_at := strdup_when_not_null (sqlite3_column_text stmt 5),
    license := strdup_when_not_null (sqlite3_column_text stmt 6),
    pushed_at := strdup_when_not_null (sqlite3_column_text stmt 7),
    stargazers_count := sqlite3_column_int stmt 8,
    watchers_count := sqlite3_column_int stmt 9,
    forks_count := sqlite3_column_int stmt 10,
    lang := strdup_when_not_null (sqlite3_column_text stmt 11),
    homepage := strdup_when_not_null (sqlite3_column_text stmt 12),
    size := sqlite3_column_int stmt 13 }

/-- The two passes over the rows that `omg_query_repos` and `omg_query_stars` make
after the statement is prepared: the first counts the rows and sizes the array, the
second fills it with `from_db` of each row. -/
def query_rows {α : Type} (ctx : omg_context) (w : World) (sql : String)
    (from_db : List SqlValue → α) : Except Fault (omg_error × List α × World) :=
  let rows := sqlite_select ctx sql w.db
  let p1 := select_pass ctx w sql rows
  let rows_count := p1.1.length
  let p2 := select_pass ctx p1.2.2 sql rows
  if p2.1.length > rows_count then Except.error Fault.write_past_array
  else if !p2.2.1 then
    Except.ok ({ code := omg_code.OMG_CODE_DB,
                 message := some (ctx.sqlite3_errmsg p2.2.2.log) }, [], p2.2.2)
  else Except.ok (NO_ERROR, p2.1.map from_db, p2.2.2)

def omg_query_repos (ctx : omg_context) (w : World) (keyword language : Option String) :
    Except Fault (omg_error × List omg_repo × World) :=
  match prepare_query_sql ctx w false keyword language with
  | Except.error f => Except.error f
  | Except.ok p =>
    match p.2.1 with
    | none => Except.ok (p.1, [], p.2.2)
    | some stmt => query_rows ctx p.2.2 stmt repo_from_db

def omg_query_stars (ctx : omg_context) (w : World) (keyword language : Option String) :
    Except Fault (omg_error × List omg_star × World) :=
  match prepare_query_sql ctx w true keyword language with
  | Except.error f => Except.error f
  | Except.ok p =>
    match p.2.1 with
    | none => Except.ok (p.1, [], p.2.2)
    | some stmt => query_rows ctx p.2.2 stmt
        (fun row => { starred_at := strdup_when_not_null (sqlite3_column_text row 0),
                      repo := repo_from_db row })

/-! ## Unstar -/

/-- The call `sqlite3_step` on the select of `omg_unstar` when `seen` rows have been
returned before: `some true` is `SQLITE_ROW`, `some false` is `SQLITE_DONE`, `none` is
a failure. -/
def sqlite3_step_select (ctx : omg_context) (w : World) (sql : String) (ps : List SqlValue)
    (rows : List SqlValue) (seen : Nat) : Option Bool × World :=
  if ctx.step_fails w.log then
    (none, { db := w.db, log := w.log ++ [Event.step sql ps false] })
  else
    (some (decide (seen < rows.length)),
      { db := w.db, log := w.log ++ [Event.step sql ps true] })

/-- The URL that `omg_unstar` formats; the C library prints a `NULL` string argument of
`%s` as `(null)`. -/
def unstar_url (full_name : Option String) : String :=
  API_ROOT ++ "/user/starred/" ++ full_name.getD "(null)"

def omg_unstar (ctx : omg_context) (w : World) (repo_id : Nat) :
    Except Fault (omg_error × World) :=
  let p := sqlite3_prepare_v2 ctx w SQL_UNSTAR_SELECT
  if !p.1 then
    Except.ok ({ code := omg_code.OMG_CODE_DB,
                 message := some (ctx.sqlite3_errmsg p.2.log) }, p.2)
  else
    let b := sqlite3_bind_int64 no_bindings 1 repo_id
    let rows := exec_unstar_select b p.2.db.omg_repo
    let s1 := sqlite3_step_select ctx p.2 SQL_UNSTAR_SELECT (params b 1) rows 0
    if s1.1 ≠ some true then
      Except.ok ({ code := omg_code.OMG_CODE_DB,
                   message := some (ctx.sqlite3_errmsg s1.2.log) }, s1.2)
    else
      let full_name := strdup_when_not_null
        (sqlite3_column_text [rows.getD 0 SqlValue.null] 0)
      let s2 := sqlite3_step_select ctx s1.2 SQL_UNSTAR_SELECT (params b 1) rows 1
      if s2.1 ≠ some false then
        Except.ok ({ code := omg_code.OMG_CODE_DB,
                     message := some (ctx.sqlite3_errmsg s2.2.log) }, s2.2)
      else
        let p2 := sqlite3_prepare_v2 ctx s2.2 SQL_UNSTAR_DELETE
        if !p2.1 then
          Except.ok ({ code := omg_code.OMG_CODE_DB,
                       message := some (ctx.sqlite3_errmsg p2.2.log) }, p2.2)
        else
          let d := sqlite3_step_write ctx p2.2 SQL_UNSTAR_DELETE (params b 1)
            (fun db => { db with omg_my_star := exec_unstar_delete b db.omg_my_star })
          if !d.1 then
            Except.ok ({ code := omg_code.OMG_CODE_DB,
                         message := some (ctx.sqlite3_errmsg d.2.log) }, d.2)
          else
            match sprintf_url (unstar_url full_name) with
            | Except.error f => Except.error f
            | Except.ok url =>
              match omg_request ctx d.2 DELETE_METHOD url false with
              | Except.error f => Except.error f
              | Except.ok r => Except.ok (r.1, r.2.2)

/-! ## Trending scraper -/

def TRENDING_LIST_LENGTH : Nat := 25
def TRENDING_TUPLE_LENGTH : Nat := 4

/-- The pattern `RE` that `omg_setup_context` compiles into `ctx->trending_re`. -/
def RE : String :=
  "<span itemprop=\"programmingLanguage\">(\\S+)</span>" ++
  ".*?<a href=\"/(\\S+/\\S+)/stargazers.*?(\\d+) stars this"

/-- The libc `isspace` in the C locale. -/
def isspace (c : Char) : Bool :=
  decide (c.toNat = 32) || (decide (9 ≤ c.toNat) && decide (c.toNat ≤ 13))

/-- The libc `strtol(s, NULL, 10)`: spaces, a sign, the decimal digits that follow;
the value is clamped to the range of `long`. -/
def strtol (s : String) : Int :=
  let cs := s.toList.dropWhile isspace
  let neg := decide (cs.head? = some (Char.ofNat 45))
  let ds := (if neg ∨ cs.head? = some (Char.ofNat 43) then cs.drop 1 else cs).takeWhile
    Char.isDigit
  let n : Nat := ds.foldl (fun acc c => 10 * acc + (c.toNat - 48)) 0
  if neg then max (-(n : Int)) (-9223372036854775808) else min (n : Int) 9223372036854775807

/-- The libc `atoi`, that is `(int) strtol(s, NULL, 10)`. -/
def atoi (s : String) : Int := int_wrap (strtol s)

/-- The pointer `head + n` into a C string. -/
def advance (head : String) (n : Nat) : String := String.mk (head.toList.drop n)

/-- The copy of capture group `j` that the inner loop of `omg_parse_trending` makes:
`rm_eo - rm_so` bytes from `head + rm_so`. -/
def matched (head : String) (pmatch : Nat → regmatch_t) (j : Nat) : String :=
  String.mk ((advance head (pmatch j).rm_so).toList.take ((pmatch j).rm_eo - (pmatch j).rm_so))

/-- The `for` loop of `omg_parse_trending` with `n` iterations left
(`n = TRENDING_LIST_LENGTH - i`) and the cursor at `head`: the entries it stores from
here on. -/
def omg_parse_trending_loop (ctx : omg_context) : Nat → String → List omg_repo
  | 0, _ => []
  | n + 1, head =>
    match ctx.trending_re head with
    | none => []
    | some pmatch =>
      let repo := { omg_new_repo with
        lang := some (matched head pmatch 1),
        full_name := some (matched head pmatch 2),
        stargazers_count := atoi (matched head pmatch 3) }
      repo :: omg_parse_trending_loop ctx n (advance head (pmatch 3).rm_eo)

def omg_parse_trending (ctx : omg_context) (html : String) : omg_error × List omg_repo :=
  (NO_ERROR, omg_parse_trending_loop ctx TRENDING_LIST_LENGTH html)

/-- The URL that `omg_query_trending` formats; the C library prints a `NULL` string
argument of `%s` as `(null)`. -/
def trending_url (lang since : Option String) : String :=
  "https://github.com/trending/" ++ lang.getD "(null)" ++ "?since=" ++ since.getD "(null)"

/-- The function `omg_query_trending`: the request goes through a transport handle of
its own, with the same write callback on a fresh buffer. -/
def omg_query_trending (ctx : omg_context) (w : World) (lang since : Option String) :
    Except Fault (omg_error × List omg_repo × World) :=
  match sprintf_url (trending_url lang since) with
  | Except.error f => Except.error f
  | Except.ok url =>
    let t := ctx.curl w.log GET_METHOD url
    let w1 : World := { db := w.db, log := w.log ++ [Event.request GET_METHOD url] }
    let chunk : response := { memory := some [t.malloc1], size := 0 }
    let r := curl_easy_perform t chunk
    match r.1 with
    | some msg => Except.ok ({ code := omg_code.OMG_CODE_CURL, message := some msg }, [], w1)
    | none =>
      if t.response_code ≠ 200 then
        Except.ok ({ code := omg_code.OMG_CODE_CURL,
                     message := some "get trending url not OK" }, [], w1)
      else
        match c_string (r.2.memory.getD []) with
        | none => Except.error Fault.unterminated_read
        | some html =>
          let p := omg_parse_trending ctx html
          if !is_ok p.1 then Except.ok (p.1, p.2, w1) else Except.ok (NO_ERROR, p.2, w1)

/-! ## Users, commits and releases -/

/-- The `omg_user` struct of `omg.h`; its integer fields are C `int`s. -/
structure omg_user where
  login : Option String
  id : Int
  name : Option String
  company : Option String
  blog : Option String
  location : Option String
  email : Option String
  hireable : Bool
  bio : Option String
  twitter_username : Option String
  public_repos : Int
  public_gists : Int
  private_repos : Int
  private_gists : Int
  followers : Int
  following : Int
  created_at : Option String
  disk_usage : Int
  deriving DecidableEq, Repr

def integer_or_default (obj : Option Json) (key : String) : Int :=
  match json_object_get obj key with
  | some tmp => int_wrap (json_integer_value (some tmp))
  | none => -1

/-- The URL that `omg_whoami` formats. -/
def whoami_url (username : Option String) : String :=
  if empty_string username then API_ROOT ++ "/user"
  else API_ROOT ++ "/users/" ++ username.getD ""

/-- The test `0 == strcmp(a, b)`; the first argument must not be `NULL`. -/
def strcmp_is_zero (a : Option String) (b : String) : Except Fault Bool :=
  match a with
  | some s => Except.ok (decide (s = b))
  | none => Except.error Fault.strcmp_null

/-- The initialiser that `omg_whoami` stores through `out`. -/
def user_from_json (resp : Option Json) : Except Fault omg_user := do
  let private_repos := integer_or_default resp "total_private_repos"
  let private_gists := integer_or_default resp "private_gists"
  let disk_usage := integer_or_default resp "disk_usage"
  let login ← dup_json_string resp "login"
  let name ← dup_json_string resp "name"
  let company ← dup_json_string resp "company"
  let blog ← dup_json_string resp "blog"
  let location ← dup_json_string resp "location"
  let email ← dup_json_string resp "email"
  let bio ← dup_json_string resp "bio"
  let twitter_username ← dup_json_string resp "twitter_username"
  let created_at ← dup_json_string resp "created_at"
  return {
    login := login,
    id := int_wrap (json_integer_value (json_object_get resp "id")),
    name := name,
    company := company,
    blog := blog,
    location := location,
    email := email,
    hireable := json_boolean_value (json_object_get resp "hireable"),
    bio := bio,
    twitter_username := twitter_username,
    public_repos := int_wrap (json_integer_value (json_object_get resp "public_repos")),
    public_gists := int_wrap (json_integer_value (json_object_get resp "public_gists")),
    private_repos := private_repos,
    private_gists := private_gists,
    followers := int_wrap (json_integer_value (json_object_get resp "followers")),
    following := int_wrap (json_integer_value (json_object_get resp "following")),
    created_at := created_at,
    disk_usage := disk_usage }

def omg_whoami (ctx : omg_context) (w : World) (username : Option String) :
    Except Fault (omg_error × Option omg_user × World) := do
  let url ← sprintf_url (whoami_url username)
  let r ← omg_request ctx w GET_METHOD url true
  if !is_ok r.1 then return (r.1, none, r.2.2)
  let resp := r.2.1
  match json_object_get resp "message" with
  | some msg =>
    let not_found ← strcmp_is_zero (json_string_value (some msg)) "Not Found"
    if not_found then
      return ({ code := omg_code.OMG_CODE_GITHUB, message := some "User Not Found" },
        none, r.2.2)
    else
      return ({ code := omg_code.OMG_CODE_GITHUB,
                message := some "GitHub PAT authentication failed" }, none, r.2.2)
  | none =>
    let user ← user_from_json resp
    return (NO_ERROR, some user, r.2.2)

/-- The `omg_commit` struct of `omg.h`. -/
structure omg_commit where
  sha : Option String
  message : Option String
  author : Option String
  email : Option String
  date : Option String
  deriving DecidableEq, Repr

/-- The element mapping in the loop of `omg_query_commits`. -/
def commit_from_json (one_commit : Option Json) : Except Fault omg_commit := do
  let commit_info := json_object_get one_commit "commit"
  let author_info := json_object_get commit_info "author"
  let sha ← dup_json_string one_commit "sha"
  let message ← dup_json_string commit_info "message"
  let author ← dup_json_string author_info "name"
  let email ← dup_json_string author_info "email"
  let date ← dup_json_string author_info "date"
  return { sha := sha, message := message, author := author, email := email, date := date }

/-- The URL that `omg_query_commits` formats. -/
def commits_url (full_name : Option String) (limit : Int) : String :=
  API_ROOT ++ "/repos/" ++ full_name.getD "(null)" ++ "/commits?per_page=" ++ toString limit

def omg_query_commits (ctx : omg_context) (w : World) (full_name : Option String)
    (limit : Int) : Except Fault (omg_error × List omg_commit × World) := do
  let url ← sprintf_url (commits_url full_name limit)
  let r ← omg_request ctx w GET_METHOD url true
  if !is_ok r.1 then return (r.1, [], r.2.2)
  let commits ← (json_array_elems r.2.1).mapM commit_from_json
  return (NO_ERROR, commits, r.2.2)

/-- The `omg_release_asset` struct of `omg.h`. -/
structure omg_release_asset where
  id : Int
  name : Option String
  size : Int
  download_count : Int
  download_url : Option String
  deriving DecidableEq, Repr

/-- The `omg_release` struct of `omg.h`; `asset_array` with its `asset_length`
entries is a list. -/
structure omg_release where
  id : Int
  login : Option String
  name : Option String
  tag_name : Option String
  body : Option String
  draft : Bool
  prerelease : Bool
  published_at : Option String
  asset_array : List omg_release_asset
  deriving DecidableEq, Repr

/-- The element mapping in the inner loop of `omg_query_releases`. -/
def asset_from_json (one_asset : Option Json) : Except Fault omg_release_asset := do
  let name ← dup_json_string one_asset "name"
  let download_url ← dup_json_string one_asset "browser_download_url"
  return {
    id := int_wrap (json_integer_value (json_object_get one_asset "id")),
    name := name,
    size := int_wrap (json_integer_value (json_object_get one_asset "size")),
    download_count := int_wrap (json_integer_value (json_object_get one_asset "download_count")),
    download_url := download_url }

/-- The element mapping in the outer loop of `omg_query_releases`. -/
def release_from_json (one_release : Option Json) : Except Fault omg_release := do
  let asset_info := json_object_get one_release "assets"
  let author_info := json_object_get one_release "author"
  let asset_array ← (json_array_elems asset_info).mapM asset_from_json
  let login ← dup_json_string author_info "login"
  let name ← dup_json_string one_release "name"
  let tag_name ← dup_json_string one_release "tag_name"
  let body ← dup_json_string one_release "body"
  let published_at ← dup_json_string one_release "published_at"
  return {
    id := int_wrap (json_integer_value (json_object_get one_release "id")),
    login := login,
    name := name,
    tag_name := tag_name,
    body := body,
    draft := json_boolean_value (json_object_get one_release "draft"),
    prerelease := json_boolean_value (json_object_get one_release "prerelease"),
    published_at := published_at,
    asset_array := asset_array }

/-- The URL that `omg_query_releases` formats. -/
def releases_url (full_name : Option String) (limit : Int) : String :=
  API_ROOT ++ "/repos/" ++ full_name.getD "(null)" ++ "/releases?per_page=" ++ toString limit

def omg_query_releases (ctx : omg_context) (w : World) (full_name : Option String)
    (limit : Int) : Except Fault (omg_error × List omg_release × World) := do
  let url ← sprintf_url (releases_url full_name limit)
  let r ← omg_request ctx w GET_METHOD url true
  if !is_ok r.1 then return (r.1, [], r.2.2)
  let releases ← (json_array_elems r.2.1).mapM release_from_json
  return (NO_ERROR, releases, r.2.2)

/-! ## Reference definitions

What the claims speak of, stated apart from the functions above. -/

/-- The requests among the calls of a log, as method and URL, in order. -/
def requests (log : List Event) : List (String × String) :=
  log.filterMap (fun e => match e with
    | Event.request m u => some (m, u)
    | _ => none)

/-- The write steps among the calls of a log, in order. -/
def write_steps (log : List Event) : List Event :=
  log.filter (fun e => match e with
    | Event.step _ _ _ => true
    | _ => false)

/-- The row that `SQL_SAVE_REPOS` writes for a record. -/
def row_of_repo (repo : omg_repo) : repo_row :=
  { id := SqlValue.integer repo.id,
    full_name := (match repo.full_name with
      | some s => SqlValue.text s
      | none => SqlValue.null),
    description := (match repo.description with
      | some s => SqlValue.text s
      | none => SqlValue.null),
    «private» := SqlValue.integer (if repo.«private» then 1 else 0),
    created_at := (match repo.created_at with
      | some s => SqlValue.text s
      | none => SqlValue.null),
    license := (match repo.license with
      | some s => SqlValue.text s
      | none => SqlValue.null),
    pushed_at := (match repo.pushed_at with
      | some s => SqlValue.text s
      | none => SqlValue.null),
    stargazers_count := SqlValue.integer repo.stargazers_count,
    watchers_count := SqlValue.integer repo.watchers_count,
    forks_count := SqlValue.integer repo.forks_count,
    lang := (match repo.lang with
      | some s => SqlValue.text s
      | none => SqlValue.null),
    homepage := (match repo.homepage with
      | some s => SqlValue.text s
      | none => SqlValue.null),
    size := SqlValue.integer repo.size }

/-- The reference upsert of one record into the repository table, keyed on the id:
insert when the id is absent, otherwise replace the row of that id. -/
def upsert_repo (t : List repo_row) (repo : omg_repo) : List repo_row :=
  if t.any (fun r => decide (r.id = SqlValue.integer repo.id)) then
    t.map (fun r => if r.id = SqlValue.integer repo.id then row_of_repo repo else r)
  else t ++ [row_of_repo repo]

/-- The reference upsert of a page, record by record. -/
def upsert_page (t : List repo_row) (page : List omg_repo) : List repo_row :=
  page.foldl upsert_repo t

/-- The reference pagination: the world after the pages of `pages`, numbered from
`p`, have each been requested and handed to `save_my_repos`, one after the other. -/
def after_pages (ctx : omg_context) : Nat → List (List omg_repo) → World → World
  | _, [], w => w
  | p, page :: rest, w =>
    after_pages ctx (p + 1) rest
      (save_my_repos ctx
        { db := w.db, log := w.log ++ [Event.request GET_METHOD (repos_page_url false p)] }
        page).2

/-- The last record of a page that has the id `id`. -/
def last_with_id (page : List omg_repo) (id : Int) : Option omg_repo :=
  page.reverse.find? (fun r => decide (r.id = id))

/-- Whether a row has the id of none of the records of a page. -/
def not_in_page (page : List omg_repo) (row : repo_row) : Bool :=
  page.all (fun r => !decide (row.id = SqlValue.integer r.id))

/-- The row a second run of a page leaves in place of `row`: that of the last record
with the id of `row`, and `row` itself when the page has none. -/
def patch (page : List omg_repo) (row : repo_row) : repo_row :=
  match page.reverse.find? (fun r => decide (SqlValue.integer r.id = row.id)) with
  | some rec => row_of_repo rec
  | none => row

/-- The databases the program can leave behind: the fresh database, and what any of
its four write statements makes of a reachable database, with any parameters. -/
inductive Reachable : sqlite3 → Prop
  | fresh : Reachable empty_db
  | save_repos (db : sqlite3) (b : Bindings) :
      Reachable db → Reachable { db with omg_repo := exec_save_repos b db.omg_repo }
  | save_my_repos (db : sqlite3) (b : Bindings) :
      Reachable db → Reachable { db with omg_my_repo := exec_save_my_repos b db.omg_my_repo }
  | save_my_stars (db : sqlite3) (b : Bindings) :
      Reachable db → Reachable { db with omg_my_star := exec_save_my_stars b db.omg_my_star }
  | unstar (db : sqlite3) (b : Bindings) :
      Reachable db → Reachable { db with omg_my_star := exec_unstar_delete b db.omg_my_star }

/-- The keys of the three tables are unique: the id of `omg_repo` and the repo id of
`omg_my_repo` and of `omg_my_star`. -/
def unique_keys (db : sqlite3) : Prop :=
  (db.omg_repo.map (fun r => r.id)).Nodup ∧
  (db.omg_my_repo.map (fun r => r.repo_id)).Nodup ∧
  (db.omg_my_star.map (fun r => r.repo_id)).Nodup

/-- The star row that `SQL_SAVE_MY_STARS` writes for a star. -/
def row_of_star (star : omg_star) : my_star_row :=
  { starred_at := (match star.starred_at with
      | some s => SqlValue.text s
      | none => SqlValue.null),
    repo_id := SqlValue.integer star.repo.id }

/-- The text of the query as the three appending steps are meant to compose it: the
select, the clause of each filter that is not empty, and the sort order. -/
def composed_sql (is_star : Bool) (keyword language : Option String) : String :=
  query_select_text is_star ++
  (if !empty_string keyword then keyword_clause (keyword.getD "") else "") ++
  (if !empty_string language then language_clause (language.getD "") else "") ++
  order_by_clause is_star

/-- The three error values with which `prepare_query_sql` reports that the buffer is
too small. -/
def buffer_errors : List omg_error :=
  [{ code := omg_code.OMG_CODE_INTERNAL,
     message := some "buffer not enough when append keyword" },
   { code := omg_code.OMG_CODE_INTERNAL,
     message := some "buffer not enough when append language" },
   { code := omg_code.OMG_CODE_INTERNAL,
     message := some "buffer not enough when append order_by" }]

/-- Whether `k` successive matches of the pattern are found when scanning from the
cursor `head`, each scan starting at the end of the star count of the match before. -/
def successive_matches (ctx : omg_context) : Nat → String → Bool
  | 0, _ => true
  | k + 1, head =>
    match ctx.trending_re head with
    | none => false
    | some pmatch => successive_matches ctx k (advance head (pmatch 3).rm_eo)

/-! ### The pattern `RE` as a backtracking matcher

The matcher follows the pattern piece by piece: a literal, a greedy `\S+` or `\d+`, a
lazy `.*?` (any byte, the pattern being compiled with `REG_DOTALL`), and the three
capture groups. A continuation is the match of the rest of the pattern. -/

/-- The match of the rest of a pattern on the rest of the text, at an offset, with
the offsets captured so far. -/
abbrev Cont := List Char → Nat → (Nat → regmatch_t) → Option (Nat → regmatch_t)

/-- The rest of `cs` after the literal `lit`, when `cs` starts with it. -/
def starts_with : List Char → List Char → Option (List Char)
  | [], cs => some cs
  | _ :: _, [] => none
  | l :: ls, c :: cs => if l = c then starts_with ls cs else none

/-- A literal piece. -/
def re_lit (lit : String) (k : Cont) : Cont := fun cs pos caps =>
  match starts_with lit.toList cs with
  | some rest => k rest (pos + lit.length) caps
  | none => none

/-- As many bytes of a class as possible, then fewer. -/
def re_greedy (p : Char → Bool) (k : Cont) : Cont
  | [], pos, caps => k [] pos caps
  | c :: cs, pos, caps =>
    if p c then
      match re_greedy p k cs (pos + 1) caps with
      | some r => some r
      | none => k (c :: cs) pos caps
    else k (c :: cs) pos caps

/-- A greedy piece `x+` on a class of bytes. -/
def re_plus (p : Char → Bool) (k : Cont) : Cont
  | [], _, _ => none
  | c :: cs, pos, caps => if p c then re_greedy p k cs (pos + 1) caps else none

/-- The lazy piece `.*?`: as few bytes as possible, then more. -/
def re_lazy_any (k : Cont) : Cont
  | [], pos, caps => k [] pos caps
  | c :: cs, pos, caps =>
    match k (c :: cs) pos caps with
    | some r => some r
    | none => re_lazy_any k cs (pos + 1) caps

/-- The start of capture group `j`. -/
def re_open (j : Nat) (k : Cont) : Cont := fun cs pos caps =>
  k cs pos (fun i => if i = j then { rm_so := pos, rm_eo := (caps i).rm_eo } else caps i)

/-- The end of capture group `j`. -/
def re_close (j : Nat) (k : Cont) : Cont := fun cs pos caps =>
  k cs pos (fun i => if i = j then { rm_so := (caps i).rm_so, rm_eo := pos } else caps i)

/-- The class `\S`. -/
def re_nonspace (c : Char) : Bool := !isspace c

/-- The pattern `RE`, matched at the current offset. -/
def re_trending : Cont :=
  re_open 0 <|
  re_lit "<span itemprop=\"programmingLanguage\">" <|
  re_open 1 <| re_plus re_nonspace <| re_close 1 <|
  re_lit "</span>" <|
  re_lazy_any <|
  re_lit "<a href=\"/" <|
  re_open 2 <| re_plus re_nonspace <| re_lit "/" <| re_plus re_nonspace <| re_close 2 <|
  re_lit "/stargazers" <|
  re_lazy_any <|
  re_open 3 <| re_plus Char.isDigit <| re_close 3 <|
  re_lit " stars this" <|
  re_close 0 (fun _ _ caps => some caps)

/-- The leftmost match: the pattern is tried at each offset in turn. -/
def re_search : List Char → Nat → Option (Nat → regmatch_t)
  | [], pos => re_trending [] pos (fun _ => { rm_so := 0, rm_eo := 0 })
  | c :: cs, pos =>
    match re_trending (c :: cs) pos (fun _ => { rm_so := 0, rm_eo := 0 }) with
    | some r => some r
    | none => re_search cs (pos + 1)

/-- The call `pcre2_regexec` of the compiled `RE` on a text. -/
def pcre2_regexec_RE (text : String) : Option (Nat → regmatch_t) :=
  re_search text.toList 0

/-- The pagination driver of the normal build with the fetch and the save of a page
as parameters: the common shape of the loops of `omg_sync_repos` and
`omg_sync_stars`. -/
def sync_loop {α : Type} (fetch : World → Nat → Except Fault (omg_error × List α × World))
    (save : World → List α → omg_error × World) :
    Nat → Nat → World → Except Fault (omg_error × World)
  | 0, _, _ => Except.error Fault.out_of_fuel
  | fuel + 1, page_num, w =>
    match fetch w page_num with
    | Except.error f => Except.error f
    | Except.ok (err, lst, w1) =>
      if !is_ok err then Except.ok (err, w1)
      else
        let s := save w1 lst
        if !is_ok s.1 then Except.ok s
        else if lst.length < 100 then Except.ok (NO_ERROR, s.2)
        else sync_loop fetch save fuel (size_t_wrap (page_num + 1)) s.2

/-- The pages of `pages`, numbered from `p`, are each fetched with OK, full, and
saved with OK, one after the other from the world `w`. -/
def pages_done {α : Type} (fetch : World → Nat → Except Fault (omg_error × List α × World))
    (save : World → List α → omg_error × World) : Nat → List (List α) → World → Prop
  | _, [], _ => True
  | p, page :: rest, w =>
    ∃ w1 : World, fetch w p = Except.ok (NO_ERROR, page, w1) ∧ page.length = 100 ∧
      (save w1 page).1 = NO_ERROR ∧ pages_done fetch save (p + 1) rest (save w1 page).2

/-- The world after the pages of `pages_done`: that of the last save. -/
def world_after {α : Type} (fetch : World → Nat → Except Fault (omg_error × List α × World))
    (save : World → List α → omg_error × World) : Nat → List (List α) → World → World
  | _, [], w => w
  | p, page :: rest, w =>
    match fetch w p with
    | Except.ok (_, _, w1) => world_after fetch save (p + 1) rest (save w1 page).2
    | Except.error _ => w

/-- Whether a row has the id of none of the stars of a page. -/
def not_in_star_page (page : List omg_star) (row : repo_row) : Bool :=
  page.all (fun s => !decide (row.id = SqlValue.integer s.repo.id))

/-! ## Concrete inputs

A mocked remote and row store on which the theorems are instantiated. -/

/-- A JSON repository object with id `i`, every key present. -/
def mock_repo_json (i : Nat) : Json :=
  Json.object [("id", Json.integer i), ("full_name", Json.null),
    ("description", Json.null), ("private", Json.bool false), ("created_at", Json.null),
    ("license", Json.null), ("pushed_at", Json.null), ("stargazers_count", Json.integer 0),
    ("watchers_count", Json.integer 0), ("forks_count", Json.integer 0),
    ("language", Json.null), ("homepage", Json.null), ("size", Json.integer 0)]

/-- The record that `mock_repo_json i` maps to. -/
def mock_repo (i : Nat) : omg_repo := { omg_new_repo with id := i }

/-- A page of `n` repository records with the ids `start, start + 1, ...`. -/
def mock_page (start n : Nat) : List omg_repo :=
  (List.range n).map (fun i => mock_repo (start + i))

/-- The transfer of a body in one chunk with status 200. -/
def mock_transfer (body : String) : Transfer :=
  { chunks := [{ contents := body.toList, size := 1, nmemb := body.length,
                 alloc := some (fun _ => 'x') }],
    res := none, response_code := 200, malloc1 := 'x' }

/-- A remote that serves three pages of repositories, of lengths 100, 100 and 37, and
a row store in which every call succeeds. The body of page `n` is the digit `n`, which
the decoder reads as the array of that page. -/
def mock_ctx : omg_context :=
  { libc_sprintf_overlap := sprintf_overlap.in_place,
    curl := fun _ _ url =>
      if url = repos_page_url false 1 then mock_transfer "1"
      else if url = repos_page_url false 2 then mock_transfer "2"
      else mock_transfer "3",
    json_loads := fun body =>
      if body = "1" then
        Except.ok (Json.array ((List.range 100).map (fun i => mock_repo_json i)))
      else if body = "2" then
        Except.ok (Json.array ((List.range 100).map (fun i => mock_repo_json (100 + i))))
      else if body = "3" then
        Except.ok (Json.array ((List.range 37).map (fun i => mock_repo_json (200 + i))))
      else Except.error "unexpected body",
    prepare_fails := fun _ => false,
    step_fails := fun _ => false,
    sqlite3_errmsg := fun _ => "",
    select_cut := fun _ => none,
    select_other := fun _ _ => [],
    datetime_localtime := fun v => v,
    trending_re := pcre2_regexec_RE }

/-- A well-formed block of the trending page. -/
def trending_block : String :=
  "<span itemprop=\"programmingLanguage\">Rust</span>\n" ++
  "<a href=\"/rust-lang/rust/stargazers\">star</a> 42 stars this week\n"

/-- A page of `n` well-formed blocks. -/
def trending_page (n : Nat) : String := String.join (List.replicate n trending_block)

/-- Markup that starts like a block and breaks off. -/
def trending_malformed : String :=
  "<span itemprop=\"programmingLanguage\">Go</span>\n<a href=\"/golang/go/stargaz"

/-- A JSON repository object with `"license": null` and no `"homepage"` key; every
other key is present. -/
def json_without_homepage : Json :=
  Json.object [("id", Json.integer 1296269), ("full_name", Json.string "octocat/Hello-World"),
    ("description", Json.string "My first repository"), ("private", Json.bool false),
    ("created_at", Json.string "2011-01-26T19:01:12Z"), ("license", Json.null),
    ("pushed_at", Json.string "2011-01-26T19:06:43Z"), ("stargazers_count", Json.integer 80),
    ("watchers_count", Json.integer 80), ("forks_count", Json.integer 9),
    ("language", Json.null), ("size", Json.integer 108)]

/-- The same object with `"homepage": null` added. -/
def json_with_null_homepage : Json :=
  Json.object [("id", Json.integer 1296269), ("full_name", Json.string "octocat/Hello-World"),
    ("description", Json.string "My first repository"), ("private", Json.bool false),
    ("created_at", Json.string "2011-01-26T19:01:12Z"), ("license", Json.null),
    ("pushed_at", Json.string "2011-01-26T19:06:43Z"), ("stargazers_count", Json.integer 80),
    ("watchers_count", Json.integer 80), ("forks_count", Json.integer 9),
    ("language", Json.null), ("homepage", Json.null), ("size", Json.integer 108)]

/-- The repository record of id 0 with 5 stars. -/
def mock_repo_5_stars : omg_repo := { mock_repo 0 with stargazers_count := 5 }

/-- The JSON object of `mock_repo_5_stars`. -/
def mock_repo_5_stars_json : Json :=
  Json.object [("id", Json.integer 0), ("full_name", Json.null),
    ("description", Json.null), ("private", Json.bool false), ("created_at", Json.null),
    ("license", Json.null), ("pushed_at", Json.null), ("stargazers_count", Json.integer 5),
    ("watchers_count", Json.integer 0), ("forks_count", Json.integer 0),
    ("language", Json.null), ("homepage", Json.null), ("size", Json.integer 0)]

/-- The `sqlite3_prepare_v2` calls of a log. -/
def prepares (log : List Event) : List Event :=
  log.filter (fun e => match e with
    | Event.prepare _ _ => true
    | _ => false)

/-- A remote whose first page holds the repositories 0 to 99 and whose second page
holds repository 0 again, now with 5 stars, and a row store whose fourth
`sqlite3_prepare_v2` fails: that of the marker statement of the second page. -/
def recurring_ctx : omg_context :=
  { libc_sprintf_overlap := sprintf_overlap.in_place,
    curl := fun _ _ url =>
      if url = repos_page_url false 1 then mock_transfer "1" else mock_transfer "4",
    json_loads := fun body =>
      if body = "1" then
        Except.ok (Json.array ((List.range 100).map (fun i => mock_repo_json i)))
      else if body = "4" then Except.ok (Json.array [mock_repo_5_stars_json])
      else Except.error "unexpected body",
    prepare_fails := fun log => decide ((prepares log).length = 3),
    step_fails := fun _ => false,
    sqlite3_errmsg := fun _ => "disk I/O error",
    select_cut := fun _ => none,
    select_other := fun _ _ => [],
    datetime_localtime := fun v => v,
    trending_re := pcre2_regexec_RE }

/-- The world of a fresh database before any call. -/
def fresh_world : World := { db := empty_db, log := [] }

/-- A remote that answers every request with status 200 and an empty body (no chunk
reaches the write callback), on a heap where `malloc(1)` returns a block that holds
the byte `x`. -/
def empty_body_ctx : omg_context :=
  { mock_ctx with
    curl := fun _ _ _ => { chunks := [], res := none, response_code := 200, malloc1 := 'x' } }

/-- The JSON object of a public user profile: no `"message"` key and none of the keys
`"total_private_repos"`, `"private_gists"` and `"disk_usage"`, which the remote sends
for the authenticated user only. -/
def public_user_json : Json :=
  Json.object [("login", Json.string "octocat"), ("id", Json.integer 583231),
    ("name", Json.string "The Octocat"), ("company", Json.string "@github"),
    ("blog", Json.string "https://github.blog"), ("location", Json.string "San Francisco"),
    ("email", Json.null), ("hireable", Json.null), ("bio", Json.null),
    ("twitter_username", Json.null), ("public_repos", Json.integer 8),
    ("public_gists", Json.integer 8), ("followers", Json.integer 9999),
    ("following", Json.integer 9), ("created_at", Json.string "2011-01-25T18:44:36Z")]

/-- A remote that answers every request with the profile `public_user_json`. -/
def public_user_ctx : omg_context :=
  { mock_ctx with
    curl := fun _ _ _ => mock_transfer "u",
    json_loads := fun _ => Except.ok public_user_json }

/-- A commit element whose `"commit"` value is JSON `null`. -/
def commit_null_json : Json :=
  Json.object [("sha", Json.string "6dcb09b5b57875f334f61aebed695e2e4193db5e"),
    ("commit", Json.null)]

/-- A commit element whose `"author"` value, inside `"commit"`, is JSON `null`. -/
def commit_author_null_json : Json :=
  Json.object [("sha", Json.string "6dcb09b5b57875f334f61aebed695e2e4193db5e"),
    ("commit", Json.object [("message", Json.string "Fix all the bugs"),
      ("author", Json.null)])]

/-- A release element whose `"author"` value is JSON `null`; every other key that the
mapping reads is present. -/
def release_author_null_json : Json :=
  Json.object [("id", Json.integer 1), ("author", Json.null), ("name", Json.string "v1.0.0"),
    ("tag_name", Json.string "v1.0.0"), ("body", Json.null), ("draft", Json.bool false),
    ("prerelease", Json.bool false), ("published_at", Json.string "2013-02-27T19:35:32Z"),
    ("assets", Json.array [])]

/-- The query text as the specification words it, for a keyword `K` and a language
`L`, the empty string standing for an absent filter: the fixed select over the view of
the kind, the keyword clause if `K` is not empty, the language clause if `L` is not
empty, and the sort order of the kind. -/
def query_text (is_star : Bool) (K L : String) : String :=
  (if is_star then
    "select datetime(starred_at, 'localtime') as starred_at,id,full_name,description," ++
    "private,datetime(created_at, 'localtime'),license,datetime(pushed_at, 'localtime')," ++
    "stargazers_count,watchers_count,forks_count,lang,homepage,`size` " ++
    "from omg_my_star_view where 1"
  else
    "select 1,id,full_name,description," ++
    "private,datetime(created_at, 'localtime'),license,datetime(pushed_at, 'localtime')," ++
    "stargazers_count,watchers_count,forks_count,lang,homepage,`size` " ++
    "from omg_my_repo_view where 1") ++
  (if K = "" then ""
   else " and (full_name like '%" ++ K ++ "%' COLLATE NOCASE or description like '%" ++ K ++
     "%' COLLATE NOCASE)") ++
  (if L = "" then "" else " and lang='" ++ L ++ "' COLLATE NOCASE") ++
  (if is_star then " order by starred_at desc" else " order by created_at desc")

/-- The value that `omg_unstar` binds for a repository id: the `size_t` read as a
signed 64-bit integer. -/
def unstar_key (repo_id : Nat) : SqlValue := sqlite3_bind_int64 no_bindings 1 repo_id 1

/-- The calls on the row store of a run of `omg_unstar` that reaches its remote
request, in order: the select is prepared and stepped twice (one row, then the end),
the delete is prepared and stepped. -/
def unstar_events (repo_id : Nat) : List Event :=
  [Event.prepare SQL_UNSTAR_SELECT true,
   Event.step SQL_UNSTAR_SELECT [unstar_key repo_id] true,
   Event.step SQL_UNSTAR_SELECT [unstar_key repo_id] true,
   Event.prepare SQL_UNSTAR_DELETE true,
   Event.step SQL_UNSTAR_DELETE [unstar_key repo_id] true]

/-- The row store fails none of the five calls of `unstar_events` when they are made
from the world `w`. -/
def unstar_store_ok (ctx : omg_context) (w : World) (repo_id : Nat) : Prop :=
  ctx.prepare_fails w.log = false ∧
  ctx.step_fails (w.log ++ (unstar_events repo_id).take 1) = false ∧
  ctx.step_fails (w.log ++ (unstar_events repo_id).take 2) = false ∧
  ctx.prepare_fails (w.log ++ (unstar_events repo_id).take 3) = false ∧
  ctx.step_fails (w.log ++ (unstar_events repo_id).take 4) = false

/-- A repository row of id `i` and full name `name`, the other columns null. -/
def mock_repo_row (i : Int) (name : String) : repo_row :=
  { id := SqlValue.integer i, full_name := SqlValue.text name, description := SqlValue.null,
    «private» := SqlValue.null, created_at := SqlValue.null, license := SqlValue.null,
    pushed_at := SqlValue.null, stargazers_count := SqlValue.null,
    watchers_count := SqlValue.null, forks_count := SqlValue.null, lang := SqlValue.null,
    homepage := SqlValue.null, size := SqlValue.null }

/-- A store with the repositories 7 and 8, both starred. -/
def starred_world : World :=
  { db := { omg_repo := [mock_repo_row 7 "octocat/Hello-World", mock_repo_row 8 "rust-lang/rust"],
            omg_my_repo := [],
            omg_my_star := [{ starred_at := SqlValue.text "2020-01-01T00:00:00Z",
                              repo_id := SqlValue.integer 7 },
                            { starred_at := SqlValue.text "2021-01-01T00:00:00Z",
                              repo_id := SqlValue.integer 8 }] },
    log := [] }

/-- A remote that answers every request with status 204 and no body. -/
def no_content_ctx : omg_context :=
  { mock_ctx with
    curl := fun _ _ _ => { chunks := [], res := none, response_code := 204, malloc1 := 'x' } }

/-- Whether an event is a `sqlite3_step` that the row store completed. -/
def step_done (e : Event) : Bool :=
  match e with
  | Event.step _ _ ok => ok
  | _ => false

/-- The rows of a batch whose write, the event at the same position, succeeded. -/
def stored_rows {α : Type} (l : List α) (ev : List Event) : List α :=
  ((l.zip ev).filter (fun p => step_done p.2)).map (fun p => p.1)

/-- The events `ev` are one attempt per row of the batch `l`, in the order of the
batch, made after the log `pre`: the `i`-th event is the `sqlite3_step` of statement
`sql` with the parameters of row `i`, and its outcome is the answer of the row store
at that moment, whatever the outcomes before it. -/
def attempts_every_row {α : Type} (ctx : omg_context) (sql : String)
    (ps : α → List SqlValue) (pre : List Event) (l : List α) (ev : List Event) : Prop :=
  ev.length = l.length ∧
  ∀ (i : Nat) (x : α), l.get? i = some x →
    ev.get? i = some (Event.step sql (ps x) (!ctx.step_fails (pre ++ ev.take i)))

/-- The parameters of the repository statement for a record. -/
def repo_params (repo : omg_repo) : List SqlValue := params (bind_repo repo) 13

/-- The parameter of the marker statement for a record. -/
def my_repo_params (repo : omg_repo) : List SqlValue :=
  params (sqlite3_bind_int no_bindings 1 repo.id) 1

/-- The parameters of the star statement for a star. -/
def my_star_params (star : omg_star) : List SqlValue :=
  params (sqlite3_bind_int (sqlite3_bind_text no_bindings 1 star.starred_at) 2 star.repo.id) 2

/-- The effect of the repository statement for a record on the database. -/
def store_repo (db : sqlite3) (repo : omg_repo) : sqlite3 :=
  { db with omg_repo := exec_save_repos (bind_repo repo) db.omg_repo }

/-- The effect of the marker statement for a record on the database. -/
def store_my_repo (db : sqlite3) (repo : omg_repo) : sqlite3 :=
  { db with omg_my_repo :=
      exec_save_my_repos (sqlite3_bind_int no_bindings 1 repo.id) db.omg_my_repo }

/-- The effect of the star statement for a star on the database. -/
def store_my_star (db : sqlite3) (star : omg_star) : sqlite3 :=
  let b := sqlite3_bind_int (sqlite3_bind_text no_bindings 1 star.starred_at) 2 star.repo.id
  { db with omg_my_star := exec_save_my_stars b db.omg_my_star }

/-- A row store that prepares every statement and fails every second write: the
write fails when the number of writes made before it is even. -/
def flaky_ctx : omg_context :=
  { mock_ctx with step_fails := fun log => decide ((write_steps log).length % 2 = 0) }

/-- The JSON object of the remote's answer for a repository it does not know. -/
def not_found_json : Json :=
  Json.object [("message", Json.string "Not Found")]

/-- A remote that answers every request with status 404 and the body of
`not_found_json`, over the row store of `mock_ctx`. -/
def not_found_ctx : omg_context :=
  { mock_ctx with
    curl := fun _ _ _ =>
      { chunks := [{ contents := "\x7b\"message\":\"Not Found\"\x7d".toList, size := 1, nmemb := 23,
                     alloc := some (fun _ => 'x') }],
        res := none, response_code := 404, malloc1 := 'x' },
    json_loads := fun _ => Except.ok not_found_json }

/-- A language name of 249 characters: with it the text of the repository query has
exactly 512 characters. -/
def language_249 : String := String.mk (List.replicate 249 'a')

/-- The non-negative integer that a string of decimal digits denotes. -/
def decimal_value (s : String) : Nat :=
  s.toList.foldl (fun acc c => 10 * acc + (c.toNat - 48)) 0

/-- The text of capture group `j` of a match in `text`: the bytes from the start
offset of the group to its end offset. -/
def capture_group (text : String) (pmatch : Nat → regmatch_t) (j : Nat) : String :=
  String.mk ((text.toList.drop (pmatch j).rm_so).take ((pmatch j).rm_eo - (pmatch j).rm_so))

/-- The reference iteration over a page, as the specification words it: with `n`
entries left and the cursor at offset `cursor` of `html`, the pattern is matched in the
text that starts at the cursor; on a match the entry takes the capture groups 1, 2 and
3 as language, full name and star count, the star count being the integer value of the
digit string, and the cursor advances to the end of group 3. -/
def trending_reference (ctx : omg_context) (html : String) : Nat → Nat → List omg_repo
  | 0, _ => []
  | n + 1, cursor =>
    match ctx.trending_re (advance html cursor) with
    | none => []
    | some pmatch =>
      { omg_new_repo with
        lang := some (capture_group (advance html cursor) pmatch 1),
        full_name := some (capture_group (advance html cursor) pmatch 2),
        stargazers_count := (decimal_value (capture_group (advance html cursor) pmatch 3) : Int) }
      :: trending_reference ctx html n (cursor + (pmatch 3).rm_eo)

/-- The cursors of the reference iteration at which the pattern matched, in order. -/
def trending_cursors (ctx : omg_context) (html : String) : Nat → Nat → List Nat
  | 0, _ => []
  | n + 1, cursor =>
    match ctx.trending_re (advance html cursor) with
    | none => []
    | some pmatch => cursor :: trending_cursors ctx html n (cursor + (pmatch 3).rm_eo)

/-- The star count texts (capture group 3) of the reference iteration, in order. -/
def trending_star_texts (ctx : omg_context) (html : String) : Nat → Nat → List String
  | 0, _ => []
  | n + 1, cursor =>
    match ctx.trending_re (advance html cursor) with
    | none => []
    | some pmatch =>
      capture_group (advance html cursor) pmatch 3
        :: trending_star_texts ctx html n (cursor + (pmatch 3).rm_eo)

/-- A block of the trending page with a star count of 3000000000. -/
def trending_big_block : String :=
  "<span itemprop=\"programmingLanguage\">Rust</span>\n" ++
  "<a href=\"/rust-lang/rust/stargazers\">star</a> 3000000000 stars this week\n"

/-- A repository full name of 140 characters: an owner of 39 characters and a name of
100 characters, the longest the remote accepts. -/
def long_full_name : String :=
  String.mk (List.replicate 39 'o') ++ "/" ++ String.mk (List.replicate 100 'r')

/-- A store with the repository 7, whose full name is `long_full_name`, starred. -/
def long_name_world : World :=
  { db := { omg_repo := [mock_repo_row 7 long_full_name],
            omg_my_repo := [],
            omg_my_star := [{ starred_at := SqlValue.text "2020-01-01T00:00:00Z",
                              repo_id := SqlValue.integer 7 }] },
    log := [] }

/-- A value that a text key of a repository object holds: a string or `null`. -/
def json_text_or_null (v : Option Json) : Bool :=
  match v with
  | some (Json.string _) => true
  | some Json.null => true
  | _ => false

/-- The thirteen keys of a repository object that `repo_from_json` reads. -/
def repository_keys : List String :=
  ["id", "full_name", "description", "private", "created_at", "license", "pushed_at",
   "stargazers_count", "watchers_count", "forks_count", "language", "homepage", "size"]

/-- A JSON repository object with all keys present, as the remote sends it: each of
the thirteen keys is there, the six text keys hold a string or `null`, and `license`
holds `null` or an object whose `key` is a string or `null`. -/
def repository_object (j : Json) : Bool :=
  repository_keys.all (fun key => (json_object_get (some j) key).isSome) &&
  json_text_or_null (json_object_get (some j) "full_name") &&
  json_text_or_null (json_object_get (some j) "description") &&
  json_text_or_null (json_object_get (some j) "created_at") &&
  json_text_or_null (json_object_get (some j) "pushed_at") &&
  json_text_or_null (json_object_get (some j) "language") &&
  json_text_or_null (json_object_get (some j) "homepage") &&
  (json_is_null (json_object_get (some j) "license") ||
    json_text_or_null (json_object_get (json_object_get (some j) "license") "key"))

/-- A repository object with every key present and no `null`. -/
def full_repo_json : Json :=
  Json.object [("id", Json.integer 1296269), ("full_name", Json.string "octocat/Hello-World"),
    ("description", Json.string "My first repository"), ("private", Json.bool true),
    ("created_at", Json.string "2011-01-26T19:01:12Z"),
    ("license", Json.object [("key", Json.string "mit"), ("name", Json.string "MIT License")]),
    ("pushed_at", Json.string "2011-01-26T19:06:43Z"), ("stargazers_count", Json.integer 80),
    ("watchers_count", Json.integer 81), ("forks_count", Json.integer 9),
    ("language", Json.string "C"), ("homepage", Json.string "https://github.com"),
    ("size", Json.integer 108)]

/-- The record of `full_repo_json`. -/
def full_repo : omg_repo :=
  { id := 1296269, full_name := some "octocat/Hello-World",
    description := some "My first repository", «private» := true,
    created_at := some "2011-01-26T19:01:12Z", license := some "mit",
    pushed_at := some "2011-01-26T19:06:43Z", stargazers_count := 80,
    watchers_count := 81, forks_count := 9, lang := some "C",
    homepage := some "https://github.com", size := 108 }

/-- A repository object with every key present in which `description` holds a
number. -/
def ill_typed_repo_json : Json :=
  Json.object [("id", Json.integer 1296269), ("full_name", Json.string "octocat/Hello-World"),
    ("description", Json.integer 5), ("private", Json.bool true),
    ("created_at", Json.string "2011-01-26T19:01:12Z"), ("license", Json.null),
    ("pushed_at", Json.string "2011-01-26T19:06:43Z"), ("stargazers_count", Json.integer 80),
    ("watchers_count", Json.integer 81), ("forks_count", Json.integer 9),
    ("language", Json.string "C"), ("homepage", Json.string "https://github.com"),
    ("size", Json.integer 108)]

/-- A build against the C library that empties the destination of a `sprintf` first,
with a row store that prepares the two statements of a save and refuses what it is
given after them. -/
def fortified_ctx : omg_context :=
  { mock_ctx with
    libc_sprintf_overlap := sprintf_overlap.erased,
    prepare_fails := fun log => decide (2 ≤ (prepares log).length),
    sqlite3_errmsg := fun _ => "near \"order\": syntax error" }

/-- A build against a C library of which only ISO C is known. -/
def iso_c_ctx : omg_context :=
  { mock_ctx with libc_sprintf_overlap := sprintf_overlap.undefined }

/-- The build of `fortified_ctx` with a row store that refuses every text it is
given. -/
def fortified_query_ctx : omg_context :=
  { fortified_ctx with prepare_fails := fun _ => true }

/-! ## Theorems -/

theorem realloc_length (old : Option (List Byte)) (n : Nat) (junk : Nat → Byte) :
    (realloc old n junk).length = n := by
  simp only [realloc, List.length_append, List.length_take, List.length_map,
    List.length_range]
  omega

theorem realloc_take (old : Option (List Byte)) (n k : Nat) (junk : Nat → Byte)
    (hk : k ≤ n) (hlen : k ≤ (old.getD []).length) :
    (realloc old n junk).take k = (old.getD []).take k := by
  simp only [realloc]
  rw [List.take_append_of_le_length (by simp; omega), List.take_take]
  congr 1
  omega

/-- One call of `mem_cb` whose reallocation succeeds, on a buffer whose block holds at
least `size` bytes: the body grows by the chunk, and a NUL follows it. -/
theorem mem_cb_step (contents : List Byte) (size nmemb : Nat) (mem : response)
    (junk : Nat → Byte) (hc : contents.length = size * nmemb)
    (hfit : mem.size + contents.length + 1 < SIZE_MAX_PLUS_ONE)
    (hblk : mem.size ≤ (mem.memory.getD []).length) :
    mem_cb contents size nmemb mem (some junk) =
      (contents.length,
        { memory := some ((mem.memory.getD []).take mem.size ++ contents ++ [NUL]),
          size := mem.size + contents.length }) := by
  have h1 : size_t_wrap (size * nmemb) = contents.length := by
    rw [← hc]; exact Nat.mod_eq_of_lt (by omega)
  have h2 : size_t_wrap (mem.size + contents.length + 1) = mem.size + contents.length + 1 :=
    Nat.mod_eq_of_lt hfit
  have h3 : size_t_wrap (mem.size + contents.length) = mem.size + contents.length :=
    Nat.mod_eq_of_lt (by omega)
  simp only [mem_cb, h1, h2, h3, memcpy, poke]
  have hl := realloc_length mem.memory (mem.size + contents.length + 1) junk
  have ht := realloc_take mem.memory (mem.size + contents.length + 1) mem.size junk
    (by omega) hblk
  rw [ht, List.take_of_length_le (le_refl _)]
  have hd : ((realloc mem.memory (mem.size + contents.length + 1) junk).drop
      (mem.size + contents.length)).length = 1 := by
    rw [List.length_drop, hl]; omega
  obtain ⟨b, hb⟩ := List.length_eq_one.mp hd
  rw [hb]
  have hidx : mem.size + contents.length =
      (List.take mem.size (mem.memory.getD []) ++ contents).length := by
    simp [List.length_take]; omega
  congr 2
  · congr 1
    conv_lhs => rw [hidx]
    rw [List.set_append_right _ _ (le_refl _)]
    simp

theorem deliver_nil (mem : response) : deliver [] mem = ([], false, mem) := rfl

/-- A run of the write callback over chunks whose reallocations succeed, from a
buffer whose block holds at least `size` bytes. -/
theorem deliver_all (cs : List Chunk) :
    ∀ (mem : response),
      (∀ c ∈ cs, c.alloc ≠ none) →
      (∀ c ∈ cs, c.contents.length = c.size * c.nmemb) →
      mem.size + (cs.map (fun c => c.contents.length)).sum + 1 < SIZE_MAX_PLUS_ONE →
      mem.size ≤ (mem.memory.getD []).length →
      (deliver cs mem).1 = cs.map (fun c => c.contents.length) ∧
      (deliver cs mem).2.1 = false ∧
      (deliver cs mem).2.2.size = mem.size + (cs.map (fun c => c.contents.length)).sum ∧
      ((deliver cs mem).2.2.memory.getD []).take (deliver cs mem).2.2.size =
        (mem.memory.getD []).take mem.size ++ (cs.map (fun c => c.contents)).flatten ∧
      (deliver cs mem).2.2.size ≤ ((deliver cs mem).2.2.memory.getD []).length := by
  induction cs with
  | nil =>
    intro mem _ _ _ hblk
    simp [deliver, hblk]
  | cons c rest ih =>
    intro mem halloc hlen hfit hblk
    have hc := hlen c (List.mem_cons_self _ _)
    have ha := halloc c (List.mem_cons_self _ _)
    obtain ⟨junk, hj⟩ := Option.ne_none_iff_exists'.mp ha
    simp only [List.map_cons, List.sum_cons] at hfit
    have hstep := mem_cb_step c.contents c.size c.nmemb mem junk hc (by omega) hblk
    have hrest := ih
      { memory := some ((mem.memory.getD []).take mem.size ++ c.contents ++ [NUL]),
        size := mem.size + c.contents.length }
      (fun d hd => halloc d (List.mem_cons_of_mem _ hd))
      (fun d hd => hlen d (List.mem_cons_of_mem _ hd))
      (by simp only; omega)
      (by simp [List.length_take]; omega)
    have htk : List.take (mem.size + c.contents.length)
        (List.take mem.size (mem.memory.getD []) ++ c.contents ++ [NUL]) =
        List.take mem.size (mem.memory.getD []) ++ c.contents := by
      rw [List.take_append_of_le_length (by simp [List.length_take]; omega)]
      apply List.take_of_length_le
      simp [List.length_take]
    simp only [deliver, hj, hstep, if_pos hc, List.map_cons, List.sum_cons,
      List.flatten_cons]
    obtain ⟨h1, h2, h3, h4, h5⟩ := hrest
    simp only [Option.getD_some] at h4 h5
    refine ⟨by rw [h1], h2, by rw [h3]; simp only; omega, ?_, h5⟩
    rw [h4, htk, List.append_assoc]

theorem deliver_snoc (pre : List Chunk) (c : Chunk) :
    ∀ (mem : response), (deliver pre mem).2.1 = false →
      (deliver (pre ++ [c]) mem).2.2 =
        (mem_cb c.contents c.size c.nmemb (deliver pre mem).2.2 c.alloc).2 := by
  induction pre with
  | nil =>
    intro mem _
    simp only [List.nil_append, deliver]
    split <;> rfl
  | cons d rest ih =>
    intro mem h
    simp only [List.cons_append, deliver] at h ⊢
    split
    · rename_i hd
      rw [if_pos hd] at h
      exact ih _ h
    · rename_i hd
      rw [if_neg hd] at h
      simp at h

/-- C10. For every sequence of chunks delivered to `mem_cb` on a response buffer that
starts with size 0, when every reallocation succeeds: every call returns the length
of its chunk and the transfer is not aborted; the size after a call is the size
before it plus the length of its chunk; at the end the size is the total length and
the first `size` bytes of the buffer are the chunks concatenated in arrival order. -/
theorem mem_cb_appends_in_order (cs : List Chunk) (m0 : Option (List Byte))
    (halloc : ∀ c ∈ cs, c.alloc ≠ none)
    (hlen : ∀ c ∈ cs, c.contents.length = c.size * c.nmemb)
    (hfit : (cs.map (fun c => c.contents.length)).sum + 1 < SIZE_MAX_PLUS_ONE) :
    (deliver cs { memory := m0, size := 0 }).1 = cs.map (fun c => c.contents.length) ∧
    (deliver cs { memory := m0, size := 0 }).2.1 = false ∧
    (∀ pre c post, cs = pre ++ c :: post →
      (mem_cb c.contents c.size c.nmemb (deliver pre { memory := m0, size := 0 }).2.2
        c.alloc).1 = c.contents.length ∧
      (mem_cb c.contents c.size c.nmemb (deliver pre { memory := m0, size := 0 }).2.2
        c.alloc).2.size =
          (deliver pre { memory := m0, size := 0 }).2.2.size + c.contents.length ∧
      (deliver (pre ++ [c]) { memory := m0, size := 0 }).2.2 =
        (mem_cb c.contents c.size c.nmemb (deliver pre { memory := m0, size := 0 }).2.2
          c.alloc).2) ∧
    (deliver cs { memory := m0, size := 0 }).2.2.size =
      (cs.map (fun c => c.contents.length)).sum ∧
    ((deliver cs { memory := m0, size := 0 }).2.2.memory.getD []).take
      (deliver cs { memory := m0, size := 0 }).2.2.size =
        (cs.map (fun c => c.contents)).flatten := by
  have hall := deliver_all cs { memory := m0, size := 0 } halloc hlen
    (by simpa using hfit) (by simp)
  obtain ⟨h1, h2, h3, h4, _⟩ := hall
  refine ⟨h1, h2, ?_, by simpa using h3, by simpa using h4⟩
  intro pre c post hcs
  subst hcs
  have hpre := deliver_all pre { memory := m0, size := 0 }
    (fun d hd => halloc d (List.mem_append_left _ hd))
    (fun d hd => hlen d (List.mem_append_left _ hd))
    (by
      simp only [List.map_append, List.sum_append, List.map_cons, List.sum_cons] at hfit
      simp only; omega)
    (by simp)
  obtain ⟨_, p2, p3, _, p5⟩ := hpre
  have hc := hlen c (by simp)
  have ha := halloc c (by simp)
  obtain ⟨junk, hj⟩ := Option.ne_none_iff_exists'.mp ha
  have hstep := mem_cb_step c.contents c.size c.nmemb
    (deliver pre { memory := m0, size := 0 }).2.2 junk hc
    (by
      simp only [List.map_append, List.sum_append, List.map_cons, List.sum_cons] at hfit
      rw [p3]; simp only; omega)
    p5
  rw [hj, hstep]
  refine ⟨rfl, rfl, ?_⟩
  rw [deliver_snoc pre c _ p2, hj, hstep]

/-- C10, at a concrete input: the chunks `ab` and `c` on a fresh one-byte buffer. -/
theorem mem_cb_appends_in_order_witness :
    (deliver [⟨['a', 'b'], 1, 2, some (fun _ => 'x')⟩, ⟨['c'], 1, 1, some (fun _ => 'y')⟩]
        { memory := some ['z'], size := 0 }).2.2.size = 3 ∧
    ((deliver [⟨['a', 'b'], 1, 2, some (fun _ => 'x')⟩, ⟨['c'], 1, 1, some (fun _ => 'y')⟩]
        { memory := some ['z'], size := 0 }).2.2.memory.getD []).take 3 = ['a', 'b', 'c'] := by
  have h := mem_cb_appends_in_order
    [⟨['a', 'b'], 1, 2, some (fun _ => 'x')⟩, ⟨['c'], 1, 1, some (fun _ => 'y')⟩]
    (some ['z']) (by simp) (by simp) (by simp [SIZE_MAX_PLUS_ONE])
  obtain ⟨_, _, _, h4, h5⟩ := h
  have h4' : (deliver [⟨['a', 'b'], 1, 2, some (fun _ => 'x')⟩,
      ⟨['c'], 1, 1, some (fun _ => 'y')⟩] { memory := some ['z'], size := 0 }).2.2.size = 3 := by
    rw [h4]; rfl
  refine ⟨h4', ?_⟩
  rw [h4'] at h5
  rw [h5]; rfl

/-! ### The statements of the upsert store -/

theorem bind_repo_row (repo : omg_repo) :
    ({ id := bind_repo repo 1, full_name := bind_repo repo 2,
       description := bind_repo repo 3, «private» := bind_repo repo 4,
       created_at := bind_repo repo 5, license := bind_repo repo 6,
       pushed_at := bind_repo repo 7, stargazers_count := bind_repo repo 8,
       watchers_count := bind_repo repo 9, forks_count := bind_repo repo 10,
       lang := bind_repo repo 11, homepage := bind_repo repo 12,
       size := bind_repo repo 13 } : repo_row) = row_of_repo repo := by
  simp [bind_repo, sqlite3_bind_int, sqlite3_bind_text, no_bindings, row_of_repo]

theorem bind_repo_id (repo : omg_repo) : bind_repo repo 1 = SqlValue.integer repo.id := by
  simp [bind_repo, sqlite3_bind_int, sqlite3_bind_text, no_bindings]

/-- The statement of `save_repos`, bound to a record, is the reference upsert. -/
theorem exec_save_repos_eq (repo : omg_repo) (t : List repo_row) :
    exec_save_repos (bind_repo repo) t = upsert_repo t repo := by
  unfold exec_save_repos upsert_repo
  rw [bind_repo_id]
  split
  · apply List.map_congr_left
    intro r _
    split
    · rename_i h
      rw [← bind_repo_row, bind_repo_id, ← h]
    · rfl
  · rw [← bind_repo_row, bind_repo_id]

theorem requests_append (a b : List Event) : requests (a ++ b) = requests a ++ requests b := by
  simp [requests, List.filterMap_append]

theorem sqlite3_step_write_requests (ctx : omg_context) (w : World) (sql : String)
    (ps : List SqlValue) (effect : sqlite3 → sqlite3) :
    requests (sqlite3_step_write ctx w sql ps effect).2.log = requests w.log := by
  unfold sqlite3_step_write
  split <;> simp [requests_append, requests]

theorem sqlite3_prepare_v2_requests (ctx : omg_context) (w : World) (sql : String) :
    requests (sqlite3_prepare_v2 ctx w sql).2.log = requests w.log := by
  simp [sqlite3_prepare_v2, requests_append, requests]

theorem sqlite3_prepare_v2_db (ctx : omg_context) (w : World) (sql : String) :
    (sqlite3_prepare_v2 ctx w sql).2.db = w.db := rfl

theorem save_repos_loop_requests (ctx : omg_context) (l : List omg_repo) :
    ∀ w : World, requests (save_repos_loop ctx l w).log = requests w.log := by
  induction l with
  | nil => intro w; rfl
  | cons r rest ih =>
    intro w
    simp only [save_repos_loop]
    rw [ih, sqlite3_step_write_requests]

theorem save_my_repos_loop_requests (ctx : omg_context) (l : List omg_repo) :
    ∀ w : World, requests (save_my_repos_loop ctx l w).log = requests w.log := by
  induction l with
  | nil => intro w; rfl
  | cons r rest ih =>
    intro w
    simp only [save_my_repos_loop]
    rw [ih, sqlite3_step_write_requests]

theorem save_my_stars_loop_requests (ctx : omg_context) (l : List omg_star) :
    ∀ w : World, requests (save_my_stars_loop ctx l w).log = requests w.log := by
  induction l with
  | nil => intro w; rfl
  | cons r rest ih =>
    intro w
    simp only [save_my_stars_loop]
    rw [ih, sqlite3_step_write_requests]

theorem save_repos_requests (ctx : omg_context) (w : World) (l : List omg_repo) :
    requests (save_repos ctx w l).2.log = requests w.log := by
  unfold save_repos
  simp only
  split
  · exact sqlite3_prepare_v2_requests ctx w _
  · simp only
    rw [save_repos_loop_requests, sqlite3_prepare_v2_requests]

theorem save_my_repos_requests (ctx : omg_context) (w : World) (l : List omg_repo) :
    requests (save_my_repos ctx w l).2.log = requests w.log := by
  unfold save_my_repos
  simp only
  split
  · exact save_repos_requests ctx w l
  · split
    · simp only
      rw [sqlite3_prepare_v2_requests, save_repos_requests]
    · simp only
      rw [save_my_repos_loop_requests, sqlite3_prepare_v2_requests, save_repos_requests]

theorem save_my_stars_requests (ctx : omg_context) (w : World) (l : List omg_star) :
    requests (save_my_stars ctx w l).2.log = requests w.log := by
  unfold save_my_stars
  simp only
  split
  · exact save_repos_requests ctx w _
  · split
    · simp only
      rw [sqlite3_prepare_v2_requests, save_repos_requests]
    · simp only
      rw [save_my_stars_loop_requests, sqlite3_prepare_v2_requests, save_repos_requests]

/-- The upsert functions return `NO_ERROR` when their statements are prepared. -/
theorem save_repos_ok (ctx : omg_context) (hp : ∀ log, ctx.prepare_fails log = false)
    (w : World) (l : List omg_repo) : (save_repos ctx w l).1 = NO_ERROR := by
  simp [save_repos, sqlite3_prepare_v2, hp]

theorem save_my_repos_ok (ctx : omg_context) (hp : ∀ log, ctx.prepare_fails log = false)
    (w : World) (l : List omg_repo) : (save_my_repos ctx w l).1 = NO_ERROR := by
  simp [save_my_repos, save_repos_ok ctx hp, sqlite3_prepare_v2, hp, is_ok, NO_ERROR]

theorem save_my_stars_ok (ctx : omg_context) (hp : ∀ log, ctx.prepare_fails log = false)
    (w : World) (l : List omg_star) : (save_my_stars ctx w l).1 = NO_ERROR := by
  simp [save_my_stars, save_repos_ok ctx hp, sqlite3_prepare_v2, hp, is_ok, NO_ERROR]

/-! ### What a batch does to the tables -/

theorem save_repos_loop_db (ctx : omg_context) (hs : ∀ log, ctx.step_fails log = false)
    (l : List omg_repo) :
    ∀ w : World, (save_repos_loop ctx l w).db =
      { w.db with omg_repo := upsert_page w.db.omg_repo l } := by
  induction l with
  | nil => intro w; rfl
  | cons r rest ih =>
    intro w
    simp only [save_repos_loop, sqlite3_step_write, hs, Bool.false_eq_true, if_false]
    rw [ih]
    simp [upsert_page, exec_save_repos_eq]

theorem save_repos_loop_others (ctx : omg_context) (l : List omg_repo) :
    ∀ w : World, (save_repos_loop ctx l w).db.omg_my_repo = w.db.omg_my_repo ∧
      (save_repos_loop ctx l w).db.omg_my_star = w.db.omg_my_star := by
  induction l with
  | nil => intro w; exact ⟨rfl, rfl⟩
  | cons r rest ih =>
    intro w
    simp only [save_repos_loop]
    rw [(ih _).1, (ih _).2]
    unfold sqlite3_step_write
    split <;> exact ⟨rfl, rfl⟩

theorem save_repos_others (ctx : omg_context) (w : World) (l : List omg_repo) :
    (save_repos ctx w l).2.db.omg_my_repo = w.db.omg_my_repo ∧
    (save_repos ctx w l).2.db.omg_my_star = w.db.omg_my_star := by
  unfold save_repos
  simp only
  split
  · exact ⟨rfl, rfl⟩
  · exact save_repos_loop_others ctx l _

theorem save_repos_db (ctx : omg_context) (hp : ∀ log, ctx.prepare_fails log = false)
    (hs : ∀ log, ctx.step_fails log = false) (w : World) (l : List omg_repo) :
    (save_repos ctx w l).2.db = { w.db with omg_repo := upsert_page w.db.omg_repo l } := by
  simp only [save_repos, sqlite3_prepare_v2, hp, Bool.not_false, Bool.not_true,
    Bool.false_eq_true, if_false]
  rw [save_repos_loop_db ctx hs]

theorem save_my_repos_loop_others (ctx : omg_context) (l : List omg_repo) :
    ∀ w : World, (save_my_repos_loop ctx l w).db.omg_repo = w.db.omg_repo ∧
      (save_my_repos_loop ctx l w).db.omg_my_star = w.db.omg_my_star := by
  induction l with
  | nil => intro w; exact ⟨rfl, rfl⟩
  | cons r rest ih =>
    intro w
    simp only [save_my_repos_loop]
    rw [(ih _).1, (ih _).2]
    unfold sqlite3_step_write
    split <;> exact ⟨rfl, rfl⟩

theorem save_my_stars_loop_others (ctx : omg_context) (l : List omg_star) :
    ∀ w : World, (save_my_stars_loop ctx l w).db.omg_repo = w.db.omg_repo ∧
      (save_my_stars_loop ctx l w).db.omg_my_repo = w.db.omg_my_repo := by
  induction l with
  | nil => intro w; exact ⟨rfl, rfl⟩
  | cons r rest ih =>
    intro w
    simp only [save_my_stars_loop]
    rw [(ih _).1, (ih _).2]
    unfold sqlite3_step_write
    split <;> exact ⟨rfl, rfl⟩

/-- The repository table after `save_my_repos` is the one `save_repos` left. -/
theorem save_my_repos_repo_table (ctx : omg_context) (w : World) (l : List omg_repo) :
    (save_my_repos ctx w l).2.db.omg_repo = (save_repos ctx w l).2.db.omg_repo := by
  unfold save_my_repos
  simp only
  split
  · rfl
  · split
    · rfl
    · simp only
      rw [(save_my_repos_loop_others ctx l _).1]
      rfl

theorem save_my_stars_repo_table (ctx : omg_context) (w : World) (l : List omg_star) :
    (save_my_stars ctx w l).2.db.omg_repo =
      (save_repos ctx w (l.map (fun star => star.repo))).2.db.omg_repo := by
  unfold save_my_stars
  simp only
  split
  · rfl
  · split
    · rfl
    · simp only
      rw [(save_my_stars_loop_others ctx l _).1]
      rfl

theorem upsert_repo_fresh (t : List repo_row) (repo : omg_repo)
    (h : SqlValue.integer repo.id ∉ t.map (fun r => r.id)) :
    upsert_repo t repo = t ++ [row_of_repo repo] := by
  unfold upsert_repo
  rw [if_neg]
  simp only [List.any_eq_true, decide_eq_true_eq, not_exists, not_and]
  intro r hr hid
  exact h (List.mem_map.mpr ⟨r, hr, hid⟩)

theorem upsert_page_fresh (l : List omg_repo) :
    ∀ t : List repo_row, (l.map (fun r => r.id)).Nodup →
      (∀ r ∈ l, SqlValue.integer r.id ∉ t.map (fun r => r.id)) →
      upsert_page t l = t ++ l.map row_of_repo := by
  induction l with
  | nil => intro t _ _; simp [upsert_page]
  | cons r rest ih =>
    intro t hnd hfresh
    simp only [List.map_cons, List.nodup_cons] at hnd
    have h1 := upsert_repo_fresh t r (hfresh r (List.mem_cons_self _ _))
    have h2 := ih (t ++ [row_of_repo r]) hnd.2 (by
      intro x hx hmem
      simp only [List.map_append, List.map_cons, List.map_nil, List.mem_append,
        List.mem_singleton] at hmem
      rcases hmem with hmem | hmem
      · exact hfresh x (List.mem_cons_of_mem _ hx) hmem
      · have : x.id = r.id := by
          simpa [row_of_repo] using hmem
        exact hnd.1 (List.mem_map.mpr ⟨x, hx, this⟩))
    show upsert_page (upsert_repo t r) rest = _
    rw [h1, h2]
    simp

theorem upsert_page_append (a b : List omg_repo) (t : List repo_row) :
    upsert_page (upsert_page t a) b = upsert_page t (a ++ b) := by
  simp [upsert_page, List.foldl_append]

/-! ### Pagination -/

theorem after_pages_requests (ctx : omg_context) (pages : List (List omg_repo)) :
    ∀ (p : Nat) (w : World), requests (after_pages ctx p pages w).log =
      requests w.log ++
        (List.range pages.length).map (fun i => (GET_METHOD, repos_page_url false (p + i))) := by
  induction pages with
  | nil => intro p w; simp [after_pages]
  | cons page rest ih =>
    intro p w
    simp only [after_pages, List.length_cons]
    rw [ih, save_my_repos_requests, requests_append, List.range_succ_eq_map]
    simp only [requests, List.filterMap_cons, List.filterMap_nil, List.map_cons,
      List.map_map, Nat.add_zero, List.append_assoc, List.singleton_append]
    congr 2
    apply List.map_congr_left
    intro i _
    simp only [Function.comp_apply]
    congr 2
    omega

theorem after_pages_repo_table (ctx : omg_context)
    (hp : ∀ log, ctx.prepare_fails log = false) (hs : ∀ log, ctx.step_fails log = false)
    (pages : List (List omg_repo)) :
    ∀ (p : Nat) (w : World), (after_pages ctx p pages w).db.omg_repo =
      upsert_page w.db.omg_repo pages.flatten := by
  induction pages with
  | nil => intro p w; simp [after_pages, upsert_page]
  | cons page rest ih =>
    intro p w
    simp only [after_pages, List.flatten_cons]
    rw [ih, save_my_repos_repo_table, save_repos_db ctx hp hs, ← upsert_page_append]

/-- The loop of `omg_sync_repos` in the normal build, over full pages followed by a
short one. -/
theorem omg_sync_repos_loop_pages (ctx : omg_context)
    (hp : ∀ log, ctx.prepare_fails log = false) (last : List omg_repo)
    (hshort : last.length < 100) (pages : List (List omg_repo)) :
    ∀ (p : Nat) (w : World) (fuel : Nat),
      (∀ page ∈ pages, page.length = 100) →
      p + pages.length < SIZE_MAX_PLUS_ONE →
      (∀ (w' : World) (i : Nat) (page : List omg_repo),
        (pages ++ [last]).get? i = some page →
        fetch_repos_by_page false ctx w' (p + i) = Except.ok (NO_ERROR, page,
          { db := w'.db,
            log := w'.log ++ [Event.request GET_METHOD (repos_page_url false (p + i))] })) →
      pages.length + 1 ≤ fuel →
      omg_sync_repos_loop false ctx fuel p w =
        Except.ok (NO_ERROR, after_pages ctx p (pages ++ [last]) w) := by
  induction pages with
  | nil =>
    intro p w fuel _ _ hfetch hfuel
    obtain ⟨f, rfl⟩ : ∃ f, fuel = f + 1 := ⟨fuel - 1, by simp at hfuel; omega⟩
    have h0 := hfetch w 0 last (by simp)
    simp only [Nat.add_zero] at h0
    simp only [omg_sync_repos_loop, Bool.false_and, Bool.false_eq_true, if_false, h0,
      List.nil_append, after_pages]
    rw [save_my_repos_ok ctx hp]
    simp [is_ok, NO_ERROR, PER_PAGE, hshort]
  | cons page rest ih =>
    intro p w fuel hfull hbound hfetch hfuel
    simp only [List.length_cons] at hbound hfuel
    obtain ⟨f, rfl⟩ : ∃ f, fuel = f + 1 := ⟨fuel - 1, by omega⟩
    have h0 := hfetch w 0 page (by simp)
    simp only [Nat.add_zero] at h0
    have hlen : page.length = 100 := hfull page (List.mem_cons_self _ _)
    have hwrap : size_t_wrap (p + 1) = p + 1 := Nat.mod_eq_of_lt (by omega)
    simp only [omg_sync_repos_loop, Bool.false_and, Bool.false_eq_true, if_false, h0,
      List.cons_append, after_pages]
    rw [save_my_repos_ok ctx hp]
    simp only [is_ok, NO_ERROR, decide_True, Bool.not_true, Bool.false_eq_true, if_false,
      PER_PAGE, hlen, lt_self_iff_false, hwrap]
    apply ih (p + 1) _ f (fun q hq => hfull q (List.mem_cons_of_mem _ hq)) (by omega)
    · intro w' i q hq
      have := hfetch w' (i + 1) q (by simpa using hq)
      rw [show p + 1 + i = p + (i + 1) by omega]
      exact this
    · omega

/-- C1. In the normal build (page size 100, no page cap), when the remote serves
`k - 1` pages of exactly 100 repositories followed by a page of fewer than 100 and
the statements of the store can be prepared, `omg_sync_repos` returns OK (with any
fuel of at least `k`); it makes exactly `k` requests, for the pages `1, 2, ..., k` in
this order; every fetched page is handed to `save_my_repos`, in order; when no row
write fails the repository table is the upsert of all fetched repositories, and
holds `100 * (k - 1) + |last page|` rows when it was empty and the ids are distinct. -/
theorem omg_sync_repos_fetches_until_short_page (ctx : omg_context) (w : World)
    (pages : List (List omg_repo)) (last : List omg_repo) (fuel : Nat)
    (hp : ∀ log, ctx.prepare_fails log = false)
    (hfull : ∀ page ∈ pages, page.length = 100) (hshort : last.length < 100)
    (hbound : pages.length + 1 < SIZE_MAX_PLUS_ONE)
    (hfetch : ∀ (w' : World) (i : Nat) (page : List omg_repo),
      (pages ++ [last]).get? i = some page →
      fetch_repos_by_page false ctx w' (i + 1) = Except.ok (NO_ERROR, page,
        { db := w'.db,
          log := w'.log ++ [Event.request GET_METHOD (repos_page_url false (i + 1))] }))
    (hfuel : pages.length + 1 ≤ fuel) :
    omg_sync_repos false ctx fuel w =
      Except.ok (NO_ERROR, after_pages ctx 1 (pages ++ [last]) w) ∧
    requests (after_pages ctx 1 (pages ++ [last]) w).log =
      requests w.log ++
        (List.range (pages.length + 1)).map
          (fun i => (GET_METHOD, repos_page_url false (i + 1))) ∧
    ((∀ log, ctx.step_fails log = false) →
      (after_pages ctx 1 (pages ++ [last]) w).db.omg_repo =
        upsert_page w.db.omg_repo (pages ++ [last]).flatten) ∧
    ((∀ log, ctx.step_fails log = false) → w.db.omg_repo = [] →
      ((pages ++ [last]).flatten.map (fun r => r.id)).Nodup →
      (after_pages ctx 1 (pages ++ [last]) w).db.omg_repo.length =
        100 * pages.length + last.length) := by
  refine ⟨?_, ?_, ?_, ?_⟩
  · apply omg_sync_repos_loop_pages ctx hp last hshort pages 1 w fuel hfull (by omega) _ hfuel
    intro w' i page hi
    rw [Nat.add_comm 1 i]
    exact hfetch w' i page hi
  · rw [after_pages_requests]
    congr 1
    simp only [List.length_append, List.length_singleton]
    apply List.map_congr_left
    intro i _
    rw [Nat.add_comm 1 i]
  · intro hs
    exact after_pages_repo_table ctx hp hs _ 1 w
  · intro hs hempty hnd
    rw [after_pages_repo_table ctx hp hs _ 1 w, hempty,
      upsert_page_fresh _ [] hnd (by simp)]
    simp only [List.nil_append, List.length_map, List.length_flatten, List.map_append,
      List.sum_append, List.map_cons, List.map_nil, List.sum_cons, List.sum_nil,
      Nat.add_zero]
    congr 1
    have : List.map List.length pages = List.replicate pages.length 100 := by
      apply List.eq_replicate_iff.mpr
      refine ⟨by simp, ?_⟩
      intro n hn
      obtain ⟨q, hq, rfl⟩ := List.mem_map.mp hn
      exact hfull q hq
    rw [this, List.sum_replicate]
    simp [Nat.mul_comm]


theorem mock_fetch_1 (w : World) :
    fetch_repos_by_page false mock_ctx w 1 = Except.ok (NO_ERROR, mock_page 0 100,
      { db := w.db, log := w.log ++ [Event.request GET_METHOD (repos_page_url false 1)] }) := by
  rfl

theorem mock_fetch_2 (w : World) :
    fetch_repos_by_page false mock_ctx w 2 = Except.ok (NO_ERROR, mock_page 100 100,
      { db := w.db, log := w.log ++ [Event.request GET_METHOD (repos_page_url false 2)] }) := by
  rfl

theorem mock_fetch_3 (w : World) :
    fetch_repos_by_page false mock_ctx w 3 = Except.ok (NO_ERROR, mock_page 200 37,
      { db := w.db, log := w.log ++ [Event.request GET_METHOD (repos_page_url false 3)] }) := by
  rfl

/-- C1 on the mocked remote: pages of lengths 100, 100 and 37 give OK, exactly three
requests (pages 1, 2, 3) and 237 repository rows. -/
theorem omg_sync_repos_fetches_until_short_page_witness :
    omg_sync_repos false mock_ctx 3 fresh_world =
      Except.ok (NO_ERROR,
        after_pages mock_ctx 1 ([mock_page 0 100, mock_page 100 100] ++ [mock_page 200 37])
          fresh_world) ∧
    requests (after_pages mock_ctx 1
        ([mock_page 0 100, mock_page 100 100] ++ [mock_page 200 37]) fresh_world).log =
      [(GET_METHOD, repos_page_url false 1), (GET_METHOD, repos_page_url false 2),
       (GET_METHOD, repos_page_url false 3)] ∧
    (after_pages mock_ctx 1 ([mock_page 0 100, mock_page 100 100] ++ [mock_page 200 37])
        fresh_world).db.omg_repo.length = 237 := by
  have h := omg_sync_repos_fetches_until_short_page mock_ctx fresh_world
    [mock_page 0 100, mock_page 100 100] (mock_page 200 37) 3
    (fun _ => rfl)
    (by intro page hpage
        simp only [List.mem_cons, List.mem_singleton, List.not_mem_nil, or_false] at hpage
        rcases hpage with rfl | rfl <;> simp [mock_page])
    (by simp [mock_page])
    (by simp [SIZE_MAX_PLUS_ONE])
    (by intro w' i page hi
        match i, hi with
        | 0, hi =>
          simp only [List.cons_append, List.nil_append, List.get?_cons_zero,
            Option.some.injEq] at hi
          subst hi; exact mock_fetch_1 w'
        | 1, hi =>
          simp only [List.cons_append, List.nil_append, List.get?_cons_succ,
            List.get?_cons_zero, Option.some.injEq] at hi
          subst hi; exact mock_fetch_2 w'
        | 2, hi =>
          simp only [List.cons_append, List.nil_append, List.get?_cons_succ,
            List.get?_cons_zero, Option.some.injEq] at hi
          subst hi; exact mock_fetch_3 w'
        | n + 3, hi =>
          simp at hi)
    (by simp)
  obtain ⟨h1, h2, _, h4⟩ := h
  refine ⟨h1, ?_, ?_⟩
  · rw [h2]; rfl
  · rw [h4 (fun _ => rfl) rfl (by decide!)]
    simp [mock_page]

/-! ### Repository upsert -/

theorem row_of_repo_id (repo : omg_repo) : (row_of_repo repo).id = SqlValue.integer repo.id :=
  rfl

theorem upsert_page_snoc (t : List repo_row) (page : List omg_repo) (r : omg_repo) :
    upsert_page t (page ++ [r]) = upsert_repo (upsert_page t page) r := by
  simp [upsert_page, List.foldl_append]

theorem upsert_repo_mem_ids (t : List repo_row) (r : omg_repo) (v : SqlValue) :
    v ∈ (upsert_repo t r).map (fun row => row.id) ↔
      v ∈ t.map (fun row => row.id) ∨ v = SqlValue.integer r.id := by
  unfold upsert_repo
  split
  · rename_i h
    simp only [List.any_eq_true, decide_eq_true_eq] at h
    obtain ⟨x, hx, hxid⟩ := h
    simp only [List.map_map, List.mem_map, Function.comp_apply]
    constructor
    · rintro ⟨row, hrow, rfl⟩
      split
      · right; rfl
      · left; exact ⟨row, hrow, rfl⟩
    · rintro (⟨row, hrow, rfl⟩ | rfl)
      · refine ⟨row, hrow, ?_⟩
        split
        · rename_i h; rw [row_of_repo_id, h]
        · rfl
      · refine ⟨x, hx, ?_⟩
        rw [if_pos hxid]; rfl
  · simp [row_of_repo_id]

theorem upsert_page_mem_ids (page : List omg_repo) :
    ∀ (t : List repo_row) (v : SqlValue),
      v ∈ (upsert_page t page).map (fun row => row.id) ↔
        v ∈ t.map (fun row => row.id) ∨ ∃ r ∈ page, v = SqlValue.integer r.id := by
  induction page with
  | nil => intro t v; simp [upsert_page]
  | cons r rest ih =>
    intro t v
    show v ∈ (upsert_page (upsert_repo t r) rest).map _ ↔ _
    rw [ih, upsert_repo_mem_ids]
    simp only [List.mem_cons, exists_eq_or_imp]
    tauto

/-- Rows with the id of a record are, after its upsert, the row of that record. -/
theorem upsert_repo_rows_of_id (t : List repo_row) (r : omg_repo) :
    ∀ row ∈ upsert_repo t r, row.id = SqlValue.integer r.id → row = row_of_repo r := by
  intro row hrow hid
  unfold upsert_repo at hrow
  split at hrow
  · obtain ⟨x, _, hx⟩ := List.mem_map.mp hrow
    split at hx
    · exact hx.symm
    · rename_i hne
      subst hx
      exact absurd hid hne
  · rename_i h
    simp only [List.any_eq_true, decide_eq_true_eq, not_exists, not_and] at h
    rcases List.mem_append.mp hrow with h1 | h1
    · exact absurd hid (h row h1)
    · simpa using h1

/-- Rows with another id are untouched by the upsert of a record. -/
theorem upsert_repo_rows_other (t : List repo_row) (r : omg_repo) (row : repo_row)
    (hne : row.id ≠ SqlValue.integer r.id) : row ∈ upsert_repo t r ↔ row ∈ t := by
  unfold upsert_repo
  split
  · simp only [List.mem_map]
    constructor
    · rintro ⟨x, hx, hxr⟩
      split at hxr
      · subst hxr; exact absurd (row_of_repo_id r) hne
      · subst hxr; exact hx
    · intro h
      exact ⟨row, h, by rw [if_neg hne]⟩
  · simp only [List.mem_append, List.mem_singleton]
    constructor
    · rintro (h | h)
      · exact h
      · subst h; exact absurd (row_of_repo_id r) hne
    · exact Or.inl

theorem last_with_id_snoc (page : List omg_repo) (r : omg_repo) (id : Int) :
    last_with_id (page ++ [r]) id = if r.id = id then some r else last_with_id page id := by
  simp only [last_with_id, List.reverse_append, List.reverse_cons, List.reverse_nil,
    List.nil_append, List.singleton_append, List.find?_cons]
  by_cases h : r.id = id <;> simp [h]

/-- After the upsert of a page, every row with the id of a record of the page is the
row of the last record with that id, and there is such a row. -/
theorem upsert_page_rows_of_id (t : List repo_row) (page : List omg_repo) :
    ∀ (id : Int) (rec : omg_repo), last_with_id page id = some rec →
      (∃ row ∈ upsert_page t page, row.id = SqlValue.integer id) ∧
      ∀ row ∈ upsert_page t page, row.id = SqlValue.integer id → row = row_of_repo rec := by
  induction page using List.reverseRecOn with
  | nil => intro id rec h; simp [last_with_id] at h
  | append_singleton page r ih =>
    intro id rec h
    rw [last_with_id_snoc] at h
    rw [upsert_page_snoc]
    by_cases hid : r.id = id
    · rw [if_pos hid] at h
      cases h
      subst hid
      constructor
      · have := (upsert_repo_mem_ids (upsert_page t page) r (SqlValue.integer r.id)).mpr
          (Or.inr rfl)
        obtain ⟨row, hrow, hr⟩ := List.mem_map.mp this
        exact ⟨row, hrow, hr⟩
      · exact upsert_repo_rows_of_id _ r
    · rw [if_neg hid] at h
      have hne : ∀ row : repo_row, row.id = SqlValue.integer id →
          row.id ≠ SqlValue.integer r.id := by
        intro row h1 h2
        rw [h1] at h2
        exact hid (SqlValue.integer.inj h2).symm
      obtain ⟨⟨row, hrow, hr⟩, hall⟩ := ih id rec h
      constructor
      · exact ⟨row, (upsert_repo_rows_other _ r row (hne row hr)).mpr hrow, hr⟩
      · intro row' hrow' hr'
        exact hall row' ((upsert_repo_rows_other _ r row' (hne row' hr')).mp hrow') hr'

theorem upsert_repo_filter_other (t : List repo_row) (r : omg_repo) (p : repo_row → Bool)
    (hp : ∀ row, p row = true → row.id ≠ SqlValue.integer r.id) :
    (upsert_repo t r).filter p = t.filter p := by
  have h1 : p (row_of_repo r) = false := by
    by_contra hc
    exact hp _ (by simpa using hc) (row_of_repo_id r)
  have hmap : ∀ l : List repo_row,
      (l.map (fun x => if x.id = SqlValue.integer r.id then row_of_repo r else x)).filter p =
        l.filter p := by
    intro l
    induction l with
    | nil => rfl
    | cons x xs ih =>
      simp only [List.map_cons, List.filter_cons]
      by_cases hx : x.id = SqlValue.integer r.id
      · rw [if_pos hx]
        have h2 : p x = false := by
          by_contra hc
          exact hp _ (by simpa using hc) hx
        simp only [h1, h2, Bool.false_eq_true, if_false]
        exact ih
      · rw [if_neg hx, ih]
  unfold upsert_repo
  split
  · exact hmap t
  · simp [List.filter_append, h1]

/-- The rows whose id is not in the page are untouched by the upsert of the page. -/
theorem upsert_page_filter_other (page : List omg_repo) :
    ∀ (t : List repo_row) (full : List omg_repo), (∀ r ∈ page, r ∈ full) →
      (upsert_page t page).filter (not_in_page full) = t.filter (not_in_page full) := by
  induction page with
  | nil => intro t full _; rfl
  | cons r rest ih =>
    intro t full hsub
    show (upsert_page (upsert_repo t r) rest).filter _ = _
    rw [ih _ full (fun x hx => hsub x (List.mem_cons_of_mem _ hx))]
    apply upsert_repo_filter_other
    intro row hrow
    simp only [not_in_page, List.all_eq_true, Bool.not_eq_true', decide_eq_false_iff_not] at hrow
    exact hrow r (hsub r (List.mem_cons_self _ _))

theorem patch_id (page : List omg_repo) (row : repo_row) : (patch page row).id = row.id := by
  unfold patch
  split
  · rename_i rec h
    have := List.find?_some h
    simp only [decide_eq_true_eq] at this
    rw [row_of_repo_id, this]
  · rfl

theorem patch_snoc (page : List omg_repo) (r : omg_repo) (row : repo_row) :
    patch (page ++ [r]) row =
      if (patch page row).id = SqlValue.integer r.id then row_of_repo r else patch page row := by
  rw [patch_id]
  by_cases h : row.id = SqlValue.integer r.id
  · rw [if_pos h]
    simp [patch, List.find?_cons, h]
  · rw [if_neg h]
    have h' : ¬ SqlValue.integer r.id = row.id := fun e => h e.symm
    simp [patch, List.find?_cons, h']

/-- On a table that holds a row for every id of the page, the upsert of the page
patches the rows in place. -/
theorem upsert_page_present (page : List omg_repo) :
    ∀ t : List repo_row, (∀ r ∈ page, SqlValue.integer r.id ∈ t.map (fun row => row.id)) →
      upsert_page t page = t.map (patch page) := by
  induction page using List.reverseRecOn with
  | nil =>
    intro t _
    have : patch [] = id := by funext row; simp [patch]
    simp [upsert_page, this]
  | append_singleton page r ih =>
    intro t hpres
    rw [upsert_page_snoc, ih t (fun x hx => hpres x (List.mem_append_left _ hx))]
    have hr := hpres r (by simp)
    unfold upsert_repo
    rw [if_pos]
    · rw [List.map_map]
      apply List.map_congr_left
      intro row _
      simp only [Function.comp_apply]
      rw [patch_snoc]
    · simp only [List.any_eq_true, decide_eq_true_eq, List.mem_map]
      obtain ⟨row, hrow, hid⟩ := List.mem_map.mp hr
      exact ⟨patch page row, ⟨row, hrow, rfl⟩, by rw [patch_id, hid]⟩

/-- A second upsert of the same page changes nothing. -/
theorem upsert_page_idempotent (t : List repo_row) (page : List omg_repo) :
    upsert_page (upsert_page t page) page = upsert_page t page := by
  rw [upsert_page_present page (upsert_page t page)
    (fun r hr => (upsert_page_mem_ids page t _).mpr (Or.inr ⟨r, hr, rfl⟩))]
  conv_rhs => rw [← List.map_id (upsert_page t page)]
  apply List.map_congr_left
  intro row hrow
  simp only [id]
  unfold patch
  split
  · rename_i rec h
    have hid := List.find?_some h
    simp only [decide_eq_true_eq] at hid
    have hlast : last_with_id page rec.id = some rec := by
      unfold last_with_id
      rw [← h]
      congr 1
      funext x
      rw [← hid]
      simp only [decide_eq_decide]
      constructor
      · intro e; rw [e]
      · intro e; exact SqlValue.integer.inj e
    exact ((upsert_page_rows_of_id t page rec.id rec hlast).2 row hrow hid.symm).symm
  · rfl

/-- C2. Repository upsert is idempotent. When the statement is prepared and no row
write fails, running `save_repos` on a page twice leaves the database as running it
once does; after the run every id of the page has a row, every row with that id
holds exactly the values of the last record of the page with that id, and the rows
whose id is not in the page are as they were. -/
theorem save_repos_idempotent (ctx : omg_context) (w : World) (page : List omg_repo)
    (hp : ∀ log, ctx.prepare_fails log = false)
    (hs : ∀ log, ctx.step_fails log = false) :
    (save_repos ctx (save_repos ctx w page).2 page).2.db = (save_repos ctx w page).2.db ∧
    (∀ (id : Int) (rec : omg_repo), last_with_id page id = some rec →
      (∃ row ∈ (save_repos ctx w page).2.db.omg_repo, row.id = SqlValue.integer id) ∧
      ∀ row ∈ (save_repos ctx w page).2.db.omg_repo,
        row.id = SqlValue.integer id → row = row_of_repo rec) ∧
    (save_repos ctx w page).2.db.omg_repo.filter (not_in_page page) =
      w.db.omg_repo.filter (not_in_page page) ∧
    (save_repos ctx w page).2.db.omg_my_repo = w.db.omg_my_repo ∧
    (save_repos ctx w page).2.db.omg_my_star = w.db.omg_my_star := by
  have h1 := save_repos_db ctx hp hs w page
  have h2 := save_repos_db ctx hp hs (save_repos ctx w page).2 page
  refine ⟨?_, ?_, ?_, ?_, ?_⟩
  · rw [h2, h1]
    simp only
    rw [upsert_page_idempotent]
  · intro id rec hlast
    rw [h1]
    exact upsert_page_rows_of_id w.db.omg_repo page id rec hlast
  · rw [h1]
    exact upsert_page_filter_other page w.db.omg_repo page (fun r hr => hr)
  · rw [h1]
  · rw [h1]

/-- C2 on a page that holds the id 7 twice, with 3 and then 5 stars, saved into a
fresh database: the one row of id 7 holds 5 stars, after one run and after two. -/
theorem save_repos_idempotent_witness :
    (save_repos mock_ctx
        (save_repos mock_ctx fresh_world
          [{ mock_repo 7 with stargazers_count := 3 },
           { mock_repo 7 with stargazers_count := 5 }]).2
        [{ mock_repo 7 with stargazers_count := 3 },
         { mock_repo 7 with stargazers_count := 5 }]).2.db =
      (save_repos mock_ctx fresh_world
        [{ mock_repo 7 with stargazers_count := 3 },
         { mock_repo 7 with stargazers_count := 5 }]).2.db ∧
    (save_repos mock_ctx fresh_world
        [{ mock_repo 7 with stargazers_count := 3 },
         { mock_repo 7 with stargazers_count := 5 }]).2.db.omg_repo =
      [row_of_repo { mock_repo 7 with stargazers_count := 5 }] :=
  ⟨(save_repos_idempotent mock_ctx fresh_world
      [{ mock_repo 7 with stargazers_count := 3 },
       { mock_repo 7 with stargazers_count := 5 }] (fun _ => rfl) (fun _ => rfl)).1,
   by decide⟩

/-! ### Reachable databases and the uniqueness of keys -/

theorem sqlite3_step_write_reachable (ctx : omg_context) (w : World) (sql : String)
    (ps : List SqlValue) (effect : sqlite3 → sqlite3)
    (heff : ∀ db, Reachable db → Reachable (effect db)) (h : Reachable w.db) :
    Reachable (sqlite3_step_write ctx w sql ps effect).2.db := by
  unfold sqlite3_step_write
  split
  · exact h
  · exact heff _ h

theorem save_repos_loop_reachable (ctx : omg_context) (l : List omg_repo) :
    ∀ w : World, Reachable w.db → Reachable (save_repos_loop ctx l w).db := by
  induction l with
  | nil => intro w h; exact h
  | cons r rest ih =>
    intro w h
    simp only [save_repos_loop]
    exact ih _ (sqlite3_step_write_reachable ctx w _ _ _
      (fun db hdb => Reachable.save_repos db _ hdb) h)

theorem save_my_repos_loop_reachable (ctx : omg_context) (l : List omg_repo) :
    ∀ w : World, Reachable w.db → Reachable (save_my_repos_loop ctx l w).db := by
  induction l with
  | nil => intro w h; exact h
  | cons r rest ih =>
    intro w h
    simp only [save_my_repos_loop]
    exact ih _ (sqlite3_step_write_reachable ctx w _ _ _
      (fun db hdb => Reachable.save_my_repos db _ hdb) h)

theorem save_my_stars_loop_reachable (ctx : omg_context) (l : List omg_star) :
    ∀ w : World, Reachable w.db → Reachable (save_my_stars_loop ctx l w).db := by
  induction l with
  | nil => intro w h; exact h
  | cons r rest ih =>
    intro w h
    simp only [save_my_stars_loop]
    exact ih _ (sqlite3_step_write_reachable ctx w _ _ _
      (fun db hdb => Reachable.save_my_stars db _ hdb) h)

theorem save_repos_reachable (ctx : omg_context) (w : World) (l : List omg_repo)
    (h : Reachable w.db) : Reachable (save_repos ctx w l).2.db := by
  unfold save_repos
  simp only
  split
  · exact h
  · exact save_repos_loop_reachable ctx l _ h

theorem save_my_repos_reachable (ctx : omg_context) (w : World) (l : List omg_repo)
    (h : Reachable w.db) : Reachable (save_my_repos ctx w l).2.db := by
  have h1 := save_repos_reachable ctx w l h
  unfold save_my_repos
  simp only
  split
  · exact h1
  · split
    · exact h1
    · exact save_my_repos_loop_reachable ctx l _ h1

theorem save_my_stars_reachable (ctx : omg_context) (w : World) (l : List omg_star)
    (h : Reachable w.db) : Reachable (save_my_stars ctx w l).2.db := by
  have h1 := save_repos_reachable ctx w (l.map (fun star => star.repo)) h
  unfold save_my_stars
  simp only
  split
  · exact h1
  · split
    · exact h1
    · exact save_my_stars_loop_reachable ctx l _ h1

theorem exec_save_repos_keys (b : Bindings) (t : List repo_row)
    (h : (t.map (fun r => r.id)).Nodup) :
    ((exec_save_repos b t).map (fun r => r.id)).Nodup := by
  unfold exec_save_repos
  split
  · rw [List.map_map]
    have : ((fun r : repo_row => r.id) ∘ fun r => if r.id = b 1 then
        { r with full_name := b 2, description := b 3, «private» := b 4,
                 created_at := b 5, license := b 6, pushed_at := b 7,
                 stargazers_count := b 8, watchers_count := b 9, forks_count := b 10,
                 lang := b 11, homepage := b 12, size := b 13 }
        else r) = fun r => r.id := by
      funext r
      simp only [Function.comp_apply]
      split <;> rfl
    rw [this]
    exact h
  · rename_i hn
    simp only [List.any_eq_true, decide_eq_true_eq, not_exists, not_and] at hn
    rw [List.map_append, List.nodup_append]
    refine ⟨h, by simp, ?_⟩
    intro v hv hv'
    simp only [List.map_cons, List.map_nil, List.mem_singleton] at hv'
    obtain ⟨r, hr, rfl⟩ := List.mem_map.mp hv
    exact hn r hr hv'

theorem exec_save_my_repos_keys (b : Bindings) (t : List my_repo_row)
    (h : (t.map (fun r => r.repo_id)).Nodup) :
    ((exec_save_my_repos b t).map (fun r => r.repo_id)).Nodup := by
  unfold exec_save_my_repos
  split
  · exact h
  · rename_i hn
    simp only [List.any_eq_true, decide_eq_true_eq, not_exists, not_and] at hn
    rw [List.map_append, List.nodup_append]
    refine ⟨h, by simp, ?_⟩
    intro v hv hv'
    simp only [List.map_cons, List.map_nil, List.mem_singleton] at hv'
    obtain ⟨r, hr, rfl⟩ := List.mem_map.mp hv
    exact hn r hr hv'

theorem exec_save_my_stars_keys (b : Bindings) (t : List my_star_row)
    (h : (t.map (fun r => r.repo_id)).Nodup) :
    ((exec_save_my_stars b t).map (fun r => r.repo_id)).Nodup := by
  unfold exec_save_my_stars
  split
  · rw [List.map_map]
    have : ((fun r : my_star_row => r.repo_id) ∘ fun r => if r.repo_id = b 2 then
        { r with starred_at := b 1 } else r) = fun r => r.repo_id := by
      funext r
      simp only [Function.comp_apply]
      split <;> rfl
    rw [this]
    exact h
  · rename_i hn
    simp only [List.any_eq_true, decide_eq_true_eq, not_exists, not_and] at hn
    rw [List.map_append, List.nodup_append]
    refine ⟨h, by simp, ?_⟩
    intro v hv hv'
    simp only [List.map_cons, List.map_nil, List.mem_singleton] at hv'
    obtain ⟨r, hr, rfl⟩ := List.mem_map.mp hv
    exact hn r hr hv'

theorem exec_unstar_delete_keys (b : Bindings) (t : List my_star_row)
    (h : (t.map (fun r => r.repo_id)).Nodup) :
    ((exec_unstar_delete b t).map (fun r => r.repo_id)).Nodup := by
  unfold exec_unstar_delete
  exact h.sublist ((List.filter_sublist t).map _)

/-- Every reachable database has unique keys. -/
theorem reachable_unique_keys (db : sqlite3) (h : Reachable db) : unique_keys db := by
  induction h with
  | fresh => exact ⟨List.nodup_nil, List.nodup_nil, List.nodup_nil⟩
  | save_repos db b _ ih => exact ⟨exec_save_repos_keys b _ ih.1, ih.2.1, ih.2.2⟩
  | save_my_repos db b _ ih => exact ⟨ih.1, exec_save_my_repos_keys b _ ih.2.1, ih.2.2⟩
  | save_my_stars db b _ ih => exact ⟨ih.1, ih.2.1, exec_save_my_stars_keys b _ ih.2.2⟩
  | unstar db b _ ih => exact ⟨ih.1, ih.2.1, exec_unstar_delete_keys b _ ih.2.2⟩

/-- After the star statement, the rows of the bound repo id are the one bound row. -/
theorem exec_save_my_stars_filter (b : Bindings) (t : List my_star_row)
    (h : (t.map (fun r => r.repo_id)).Nodup) :
    (exec_save_my_stars b t).filter (fun r => decide (r.repo_id = b 2)) =
      [{ starred_at := b 1, repo_id := b 2 }] := by
  unfold exec_save_my_stars
  split
  · rename_i hany
    induction t with
    | nil => simp at hany
    | cons x xs ih =>
      simp only [List.map_cons, List.nodup_cons] at h
      by_cases hx : x.repo_id = b 2
      · have hnone : ∀ y ∈ xs, ¬ y.repo_id = b 2 := by
          intro y hy hyb
          exact h.1 (List.mem_map.mpr ⟨y, hy, by rw [hyb, hx]⟩)
        have hrest : (xs.map (fun r => if r.repo_id = b 2 then
            { r with starred_at := b 1 } else r)).filter
            (fun r => decide (r.repo_id = b 2)) = [] := by
          rw [List.filter_eq_nil_iff]
          intro y hy
          obtain ⟨z, hz, rfl⟩ := List.mem_map.mp hy
          rw [if_neg (hnone z hz)]
          simpa using hnone z hz
        simp only [List.map_cons, if_pos hx, List.filter_cons, hx, decide_True, if_true,
          hrest]
      · have hany' : (xs.any fun r => decide (r.repo_id = b 2)) = true := by
          simp only [List.any_cons, hx, decide_False, Bool.false_or] at hany
          exact hany
        simp only [List.map_cons, if_neg hx, List.filter_cons, hx, decide_False,
          Bool.false_eq_true, if_false]
        exact ih h.2 hany'
  · rename_i hn
    simp only [List.any_eq_true, decide_eq_true_eq, not_exists, not_and] at hn
    rw [List.filter_append]
    have : t.filter (fun r => decide (r.repo_id = b 2)) = [] := by
      rw [List.filter_eq_nil_iff]
      intro y hy
      simpa using hn y hy
    simp [this]

/-- With its statements prepared and its row write done, `save_my_stars` of one star
applies the star statement to the star table. -/
theorem save_my_stars_single (ctx : omg_context) (w : World) (star : omg_star)
    (hp : ∀ log, ctx.prepare_fails log = false)
    (hs : ∀ log, ctx.step_fails log = false) :
    (save_my_stars ctx w [star]).2.db.omg_my_star =
      exec_save_my_stars
        (sqlite3_bind_int (sqlite3_bind_text no_bindings 1 star.starred_at) 2 star.repo.id)
        w.db.omg_my_star := by
  have h1 := save_repos_ok ctx hp w [star.repo]
  have h2 := (save_repos_others ctx w [star.repo]).2
  simp only [save_my_stars, List.map_cons, List.map_nil, h1, is_ok, NO_ERROR, decide_True,
    Bool.not_true, Bool.false_eq_true, if_false, sqlite3_prepare_v2, hp, Bool.not_false,
    save_my_stars_loop, sqlite3_step_write, hs]
  rw [h2]

theorem star_bindings (star : omg_star) :
    ({ starred_at :=
         sqlite3_bind_int (sqlite3_bind_text no_bindings 1 star.starred_at) 2 star.repo.id 1,
       repo_id :=
         sqlite3_bind_int (sqlite3_bind_text no_bindings 1 star.starred_at) 2 star.repo.id 2 }
      : my_star_row) = row_of_star star := by
  simp [sqlite3_bind_int, sqlite3_bind_text, row_of_star]

/-- C3. On a reachable database, with the statements prepared and the row writes done,
saving a star for a repository and then saving a star for the same repository with
another timestamp leaves exactly one star row with that repo id, holding the first
timestamp after the first save and the second after the second; and the star table of
every reachable database holds at most one row per repo id. -/
theorem save_my_stars_keeps_one_row (ctx : omg_context) (w : World) (s1 s2 : omg_star)
    (hreach : Reachable w.db)
    (hp : ∀ log, ctx.prepare_fails log = false)
    (hs : ∀ log, ctx.step_fails log = false)
    (hid : s1.repo.id = s2.repo.id) :
    (save_my_stars ctx w [s1]).2.db.omg_my_star.filter
        (fun r => decide (r.repo_id = SqlValue.integer s2.repo.id)) = [row_of_star s1] ∧
    (save_my_stars ctx (save_my_stars ctx w [s1]).2 [s2]).2.db.omg_my_star.filter
        (fun r => decide (r.repo_id = SqlValue.integer s2.repo.id)) = [row_of_star s2] ∧
    Reachable (save_my_stars ctx (save_my_stars ctx w [s1]).2 [s2]).2.db ∧
    ∀ db : sqlite3, Reachable db → (db.omg_my_star.map (fun r => r.repo_id)).Nodup := by
  have hr1 := save_my_stars_reachable ctx w [s1] hreach
  have hr2 := save_my_stars_reachable ctx _ [s2] hr1
  have hb : ∀ star : omg_star,
      sqlite3_bind_int (sqlite3_bind_text no_bindings 1 star.starred_at) 2 star.repo.id 2 =
        SqlValue.integer star.repo.id := by
    intro star; simp [sqlite3_bind_int]
  refine ⟨?_, ?_, hr2, fun db hdb => (reachable_unique_keys db hdb).2.2⟩
  · rw [save_my_stars_single ctx w s1 hp hs, ← hid, ← hb s1,
      exec_save_my_stars_filter _ _ (reachable_unique_keys _ hreach).2.2, star_bindings]
  · rw [save_my_stars_single ctx _ s2 hp hs, ← hb s2,
      exec_save_my_stars_filter _ _ (reachable_unique_keys _ hr1).2.2, star_bindings]

/-- C3 on a fresh database: repository 7 starred at two timestamps. -/
theorem save_my_stars_keeps_one_row_witness :
    (save_my_stars mock_ctx
        (save_my_stars mock_ctx fresh_world
          [{ starred_at := some "2020-01-01T00:00:00Z", repo := mock_repo 7 }]).2
        [{ starred_at := some "2021-06-30T12:00:00Z", repo := mock_repo 7 }]).2.db.omg_my_star =
      [{ starred_at := SqlValue.text "2021-06-30T12:00:00Z", repo_id := SqlValue.integer 7 }] ∧
    (save_my_stars mock_ctx
        (save_my_stars mock_ctx fresh_world
          [{ starred_at := some "2020-01-01T00:00:00Z", repo := mock_repo 7 }]).2
        [{ starred_at := some "2021-06-30T12:00:00Z", repo := mock_repo 7 }]).2.db.omg_my_star.filter
        (fun r => decide (r.repo_id = SqlValue.integer 7)) =
      [row_of_star { starred_at := some "2021-06-30T12:00:00Z", repo := mock_repo 7 }] :=
  ⟨by decide,
   (save_my_stars_keeps_one_row mock_ctx fresh_world
      { starred_at := some "2020-01-01T00:00:00Z", repo := mock_repo 7 }
      { starred_at := some "2021-06-30T12:00:00Z", repo := mock_repo 7 }
      Reachable.fresh (fun _ => rfl) (fun _ => rfl) rfl).2.1⟩

/-! ### MyRepo markers -/

theorem exec_save_my_repos_adds (b : Bindings) (t : List my_repo_row) :
    ∃ added : List my_repo_row, exec_save_my_repos b t = t ++ added ∧
      ∀ m ∈ added, m.repo_id = b 1 ∧ m.repo_id ∉ t.map (fun r => r.repo_id) := by
  unfold exec_save_my_repos
  split
  · exact ⟨[], by simp, by simp⟩
  · rename_i hn
    simp only [List.any_eq_true, decide_eq_true_eq, not_exists, not_and] at hn
    refine ⟨[{ repo_id := b 1 }], rfl, ?_⟩
    intro m hm
    simp only [List.mem_singleton] at hm
    subst hm
    refine ⟨rfl, ?_⟩
    intro hmem
    obtain ⟨r, hr, hrid⟩ := List.mem_map.mp hmem
    exact hn r hr hrid

theorem sqlite3_step_write_cases (ctx : omg_context) (w : World) (sql : String)
    (ps : List SqlValue) (effect : sqlite3 → sqlite3) :
    (sqlite3_step_write ctx w sql ps effect).2.db = w.db ∨
    (sqlite3_step_write ctx w sql ps effect).2.db = effect w.db := by
  unfold sqlite3_step_write
  split
  · exact Or.inl rfl
  · exact Or.inr rfl

theorem save_my_repos_loop_adds (ctx : omg_context) (l : List omg_repo) :
    ∀ w : World, ∃ added : List my_repo_row,
      (save_my_repos_loop ctx l w).db.omg_my_repo = w.db.omg_my_repo ++ added ∧
      ∀ m ∈ added, (∃ r ∈ l, m.repo_id = SqlValue.integer r.id) ∧
        m.repo_id ∉ w.db.omg_my_repo.map (fun r => r.repo_id) := by
  induction l with
  | nil => intro w; exact ⟨[], by simp [save_my_repos_loop], by simp⟩
  | cons r rest ih =>
    intro w
    simp only [save_my_repos_loop]
    obtain ⟨a1, ha1, hm1⟩ := exec_save_my_repos_adds (sqlite3_bind_int no_bindings 1 r.id)
      w.db.omg_my_repo
    have hb : sqlite3_bind_int no_bindings 1 r.id 1 = SqlValue.integer r.id := by
      simp [sqlite3_bind_int]
    have hstep : ∀ t1 : List my_repo_row,
        (t1 = w.db.omg_my_repo ∨
          t1 = exec_save_my_repos (sqlite3_bind_int no_bindings 1 r.id) w.db.omg_my_repo) →
        ∃ a : List my_repo_row, t1 = w.db.omg_my_repo ++ a ∧
          ∀ m ∈ a, m.repo_id = SqlValue.integer r.id ∧
            m.repo_id ∉ w.db.omg_my_repo.map (fun r => r.repo_id) := by
      intro t1 ht1
      rcases ht1 with h | h
      · exact ⟨[], by simp [h], by simp⟩
      · exact ⟨a1, by rw [h]; exact ha1,
          fun m hm => ⟨by rw [(hm1 m hm).1, hb], (hm1 m hm).2⟩⟩
    obtain ⟨a, ha, hma⟩ := hstep _
      ((sqlite3_step_write_cases ctx w SQL_SAVE_MY_REPOS
        (params (sqlite3_bind_int no_bindings 1 r.id) 1)
        (fun db => { db with omg_my_repo := exec_save_my_repos (sqlite3_bind_int no_bindings 1 r.id) db.omg_my_repo })).imp
        (fun h => congrArg sqlite3.omg_my_repo h) (fun h => congrArg sqlite3.omg_my_repo h))
    obtain ⟨a2, ha2, hm2⟩ := ih _
    refine ⟨a ++ a2, by rw [ha2, ha, List.append_assoc], ?_⟩
    intro m hm
    rcases List.mem_append.mp hm with h | h
    · exact ⟨⟨r, List.mem_cons_self _ _, (hma m h).1⟩, (hma m h).2⟩
    · obtain ⟨⟨x, hx, hxid⟩, hnot⟩ := hm2 m h
      refine ⟨⟨x, List.mem_cons_of_mem _ hx, hxid⟩, ?_⟩
      intro hmem
      apply hnot
      rw [ha, List.map_append]
      exact List.mem_append_left _ hmem

/-- The marker table after `save_my_repos`, whatever fails: the table before, followed
by rows for ids of the batch that had no marker. -/
theorem save_my_repos_adds (ctx : omg_context) (w : World) (l : List omg_repo) :
    ∃ added : List my_repo_row,
      (save_my_repos ctx w l).2.db.omg_my_repo = w.db.omg_my_repo ++ added ∧
      ∀ m ∈ added, (∃ r ∈ l, m.repo_id = SqlValue.integer r.id) ∧
        m.repo_id ∉ w.db.omg_my_repo.map (fun r => r.repo_id) := by
  have h1 := (save_repos_others ctx w l).1
  unfold save_my_repos
  simp only
  split
  · exact ⟨[], by simp [h1], by simp⟩
  · split
    · exact ⟨[], by simp [sqlite3_prepare_v2, h1], by simp⟩
    · obtain ⟨a, ha, hm⟩ := save_my_repos_loop_adds ctx l
        (sqlite3_prepare_v2 ctx (save_repos ctx w l).2 SQL_SAVE_MY_REPOS).2
      simp only [sqlite3_prepare_v2_db, h1] at ha hm
      exact ⟨a, ha, hm⟩

/-- C4. When a marker row for repository id `r` exists, `save_my_repos` on a batch that
contains `r` leaves it unchanged, whatever fails in the row store: the marker table
after the call is the table before it followed by added rows, each for an id of the
batch that had no marker; so the rows with repo id `r` are the same before and after,
and no added row has repo id `r`. -/
theorem save_my_repos_keeps_marker (ctx : omg_context) (w : World) (batch : List omg_repo)
    (r : Int) (hmarker : { repo_id := SqlValue.integer r } ∈ w.db.omg_my_repo)
    (hbatch : ∃ x ∈ batch, x.id = r) :
    ∃ added : List my_repo_row,
      (save_my_repos ctx w batch).2.db.omg_my_repo = w.db.omg_my_repo ++ added ∧
      (∀ m ∈ added, (∃ x ∈ batch, m.repo_id = SqlValue.integer x.id) ∧
        m.repo_id ∉ w.db.omg_my_repo.map (fun m' => m'.repo_id)) ∧
      (∀ m ∈ added, m.repo_id ≠ SqlValue.integer r) ∧
      (save_my_repos ctx w batch).2.db.omg_my_repo.filter
          (fun m => decide (m.repo_id = SqlValue.integer r)) =
        w.db.omg_my_repo.filter (fun m => decide (m.repo_id = SqlValue.integer r)) ∧
      { repo_id := SqlValue.integer r } ∈ (save_my_repos ctx w batch).2.db.omg_my_repo := by
  obtain ⟨added, ha, hm⟩ := save_my_repos_adds ctx w batch
  obtain ⟨x, _, _⟩ := hbatch
  have hne : ∀ m ∈ added, m.repo_id ≠ SqlValue.integer r := by
    intro m hmem heq
    apply (hm m hmem).2
    rw [heq]
    exact List.mem_map.mpr ⟨_, hmarker, rfl⟩
  refine ⟨added, ha, hm, hne, ?_, ?_⟩
  · rw [ha, List.filter_append]
    have : added.filter (fun m => decide (m.repo_id = SqlValue.integer r)) = [] := by
      rw [List.filter_eq_nil_iff]
      intro m hmem
      simpa using hne m hmem
    rw [this, List.append_nil]
  · rw [ha]
    exact List.mem_append_left _ hmarker

/-- C4 on a database that holds the marker of repository 7: a batch with the
repositories 7 and 8 adds the marker of 8 after it. -/
theorem save_my_repos_keeps_marker_witness :
    (save_my_repos mock_ctx
        { db := { empty_db with omg_my_repo := [{ repo_id := SqlValue.integer 7 }] },
          log := [] }
        [mock_repo 7, mock_repo 8]).2.db.omg_my_repo =
      [{ repo_id := SqlValue.integer 7 }, { repo_id := SqlValue.integer 8 }] ∧
    ∃ added : List my_repo_row,
      (save_my_repos mock_ctx
        { db := { empty_db with omg_my_repo := [{ repo_id := SqlValue.integer 7 }] },
          log := [] }
        [mock_repo 7, mock_repo 8]).2.db.omg_my_repo =
        [{ repo_id := SqlValue.integer 7 }] ++ added ∧
      ∀ m ∈ added, m.repo_id ≠ SqlValue.integer 7 := by
  refine ⟨by decide, ?_⟩
  obtain ⟨added, h1, _, h3, _⟩ := save_my_repos_keeps_marker mock_ctx
    { db := { empty_db with omg_my_repo := [{ repo_id := SqlValue.integer 7 }] }, log := [] }
    [mock_repo 7, mock_repo 8] 7 (by simp) ⟨mock_repo 7, by simp, rfl⟩
  exact ⟨added, h1, h3⟩

/-! ### Query builder -/

/-- The comparison `current_len > SQL_DEFAULT_LEN` holds for every text longer than
the capacity, also when `sprintf` reports a length that does not fit an `int`. -/
theorem too_long_detected (text : String) (h : text.length > SQL_DEFAULT_LEN) :
    size_t_of_int (sprintf_ret text) > SQL_DEFAULT_LEN := by
  unfold sprintf_ret size_t_of_int SIZE_MAX_PLUS_ONE SQL_DEFAULT_LEN at *
  split
  · rename_i hle
    have : ((text.length : Int) % ((2 ^ 64 : Nat) : Int)).toNat = text.length := by
      rw [Int.emod_eq_of_lt (by omega) (by push_cast; omega)]
      simp
    rw [this]
    exact h
  · norm_num

/-- The comparison `current_len > SQL_DEFAULT_LEN` is false for every text of at most
512 characters. -/
theorem short_not_detected (text : String) (h : text.length ≤ SQL_DEFAULT_LEN) :
    ¬ size_t_of_int (sprintf_ret text) > SQL_DEFAULT_LEN := by
  unfold sprintf_ret size_t_of_int SIZE_MAX_PLUS_ONE SQL_DEFAULT_LEN at *
  rw [if_pos (by omega)]
  have : ((text.length : Int) % ((2 ^ 64 : Nat) : Int)).toNat = text.length := by
    rw [Int.emod_eq_of_lt (by omega) (by push_cast; omega)]
    simp
  rw [this]
  omega

theorem sprintf_sql_fits (text : String) (h : text.length + 1 ≤ SQL_DEFAULT_LEN) :
    sprintf_sql text = Except.ok text := by
  simp [sprintf_sql, h]

theorem sprintf_sql_overrun (text : String) (h : SQL_DEFAULT_LEN < text.length + 1) :
    sprintf_sql text = Except.error Fault.write_past_block := by
  have : ¬ text.length + 1 ≤ SQL_DEFAULT_LEN := by omega
  simp [sprintf_sql, this]

/-- A text that a `sprintf` into the block has stored without a fault fits the block,
and the comparison that follows it is false. -/
theorem sprintf_sql_stored (text sql : String) (h : sprintf_sql text = Except.ok sql) :
    sql = text ∧ sql.length + 1 ≤ SQL_DEFAULT_LEN ∧
    ¬ size_t_of_int (sprintf_ret sql) > SQL_DEFAULT_LEN := by
  unfold sprintf_sql at h
  split at h
  · rename_i hfit
    simp only [Except.ok.injEq] at h
    subst h
    exact ⟨rfl, hfit, short_not_detected _ (by omega)⟩
  · cases h

theorem sprintf_sql_self_stored (ctx : omg_context) (sql rest out : String)
    (h : sprintf_sql_self ctx sql rest = Except.ok out) :
    out.length + 1 ≤ SQL_DEFAULT_LEN ∧
    ¬ size_t_of_int (sprintf_ret out) > SQL_DEFAULT_LEN ∧
    (ctx.libc_sprintf_overlap = sprintf_overlap.in_place → out = sql ++ rest) ∧
    (ctx.libc_sprintf_overlap = sprintf_overlap.erased → out = rest) ∧
    ctx.libc_sprintf_overlap ≠ sprintf_overlap.undefined := by
  unfold sprintf_sql_self at h
  cases hl : ctx.libc_sprintf_overlap <;> rw [hl] at h <;> simp only at h
  · obtain ⟨h1, h2, h3⟩ := sprintf_sql_stored _ _ h
    refine ⟨h2, h3, ?_, ?_, ?_⟩ <;> simp [h1]
  · obtain ⟨h1, h2, h3⟩ := sprintf_sql_stored _ _ h
    refine ⟨h2, h3, ?_, ?_, ?_⟩ <;> simp [h1]
  · cases h

theorem query_select_text_length (is_star : Bool) :
    (query_select_text is_star).length = if is_star then 257 else 211 := by
  cases is_star <;> decide!

theorem keyword_clause_length (keyword : String) :
    (keyword_clause keyword).length = 2 * keyword.length + 81 := by
  simp only [keyword_clause, String.length_append]
  have h1 : " and (full_name like '%".length = 23 := by decide
  have h2 : "%' COLLATE NOCASE ".length = 18 := by decide
  have h3 : "or description like '%".length = 22 := by decide
  have h4 : "%' COLLATE NOCASE)".length = 18 := by decide
  omega

theorem language_clause_length (language : String) :
    (language_clause language).length = language.length + 27 := by
  simp only [language_clause, String.length_append]
  have h1 : " and lang='".length = 11 := by decide
  have h2 : "' COLLATE NOCASE".length = 16 := by decide
  omega

theorem order_by_clause_length (is_star : Bool) : (order_by_clause is_star).length = 25 := by
  cases is_star <;> decide

/-- The length of the composed text. -/
theorem composed_sql_length (is_star : Bool) (keyword language : Option String) :
    (composed_sql is_star keyword language).length =
      (if is_star then 257 else 211) +
      (if !empty_string keyword then 2 * (keyword.getD "").length + 81 else 0) +
      (if !empty_string language then (language.getD "").length + 27 else 0) + 25 := by
  unfold composed_sql
  simp only [String.length_append, query_select_text_length, order_by_clause_length]
  cases empty_string keyword <;> cases empty_string language <;>
    simp [keyword_clause_length, language_clause_length]

/-- One appending step of `prepare_query_sql`, made when `c` holds: what the block
holds after a step that went through. -/
theorem append_step_stored (ctx : omg_context) (c : Bool) (sql rest out : String)
    (hsql : sql.length + 1 ≤ SQL_DEFAULT_LEN)
    (h : (if c then sprintf_sql_self ctx sql rest else Except.ok sql) = Except.ok out) :
    out.length + 1 ≤ SQL_DEFAULT_LEN ∧
    ¬ size_t_of_int (sprintf_ret out) > SQL_DEFAULT_LEN ∧
    (ctx.libc_sprintf_overlap = sprintf_overlap.in_place →
      out = sql ++ (if c then rest else "")) ∧
    (ctx.libc_sprintf_overlap = sprintf_overlap.erased → out = if c then rest else sql) := by
  cases c
  · simp only [Bool.false_eq_true, if_false, Except.ok.injEq] at h
    subst h
    exact ⟨hsql, short_not_detected _ (by omega), fun _ => by simp, fun _ => by simp⟩
  · simp only [if_true] at h
    obtain ⟨h1, h2, h3, h4, _⟩ := sprintf_sql_self_stored ctx sql rest out h
    exact ⟨h1, h2, fun hl => by simpa using h3 hl, fun hl => by simpa using h4 hl⟩

/-- Whenever `prepare_query_sql` returns, every `sprintf` has stored a text that fits
the block, every comparison has been false, and the value is that of the preparation
of the text in the block: the composed text on a C library that appends in place, the
sort order alone on one that empties the destination first. -/
theorem prepare_query_sql_returns (ctx : omg_context) (w : World) (is_star : Bool)
    (keyword language : Option String) (r : omg_error × Option String × World)
    (h : prepare_query_sql ctx w is_star keyword language = Except.ok r) :
    ∃ sql : String,
      sql.length + 1 ≤ SQL_DEFAULT_LEN ∧
      r = prepare_query_sql_tail ctx w sql ∧
      ¬ size_t_of_int (sprintf_ret sql) > SQL_DEFAULT_LEN ∧
      ctx.libc_sprintf_overlap ≠ sprintf_overlap.undefined ∧
      (ctx.libc_sprintf_overlap = sprintf_overlap.in_place →
        sql = composed_sql is_star keyword language) ∧
      (ctx.libc_sprintf_overlap = sprintf_overlap.erased → sql = order_by_clause is_star) := by
  have hq : (query_select_text is_star).length + 1 ≤ SQL_DEFAULT_LEN := by
    rw [query_select_text_length]
    cases is_star <;> decide
  unfold prepare_query_sql at h
  rw [sprintf_sql_fits _ hq] at h
  simp only at h
  generalize h1 : (if (!empty_string keyword) = true then
      sprintf_sql_self ctx (query_select_text is_star) (keyword_clause (keyword.getD ""))
    else Except.ok (query_select_text is_star)) = x1 at h
  cases x1 with
  | error f => cases h
  | ok s1 =>
    obtain ⟨a1, a2, a3, a4⟩ := append_step_stored ctx _ _ _ _ hq h1
    simp only [a2, decide_False, Bool.and_false, Bool.false_eq_true, if_false] at h
    generalize h2 : (if (!empty_string language) = true then
        sprintf_sql_self ctx s1 (language_clause (language.getD ""))
      else Except.ok s1) = x2 at h
    cases x2 with
    | error f => cases h
    | ok s2 =>
      obtain ⟨b1, b2, b3, b4⟩ := append_step_stored ctx _ _ _ _ a1 h2
      simp only [b2, decide_False, Bool.and_false, Bool.false_eq_true, if_false] at h
      generalize h3 : sprintf_sql_self ctx s2 (order_by_clause is_star) = x3 at h
      cases x3 with
      | error f => cases h
      | ok s3 =>
        obtain ⟨c1, c2, c3, c4, c5⟩ := sprintf_sql_self_stored ctx _ _ _ h3
        simp only [Except.ok.injEq] at h
        refine ⟨s3, c1, h.symm, c2, c5, ?_, c4⟩
        intro hl
        rw [c3 hl, b3 hl, a3 hl]
        rfl

/-- The statements after the last `sprintf`, on a text of at most 512 characters that
the row store prepares. -/
theorem prepare_query_sql_tail_prepared (ctx : omg_context) (w : World) (sql : String)
    (hlen : sql.length ≤ SQL_DEFAULT_LEN) (hprep : ctx.prepare_fails w.log = false) :
    prepare_query_sql_tail ctx w sql =
      (NO_ERROR, some sql, { db := w.db, log := w.log ++ [Event.prepare sql true] }) := by
  simp [prepare_query_sql_tail, short_not_detected sql hlen, sqlite3_prepare_v2, hprep]

/-- The statements after the last `sprintf`, on a text of at most 512 characters that
the row store does not prepare. -/
theorem prepare_query_sql_tail_refused (ctx : omg_context) (w : World) (sql : String)
    (hlen : sql.length ≤ SQL_DEFAULT_LEN) (hprep : ctx.prepare_fails w.log = true) :
    prepare_query_sql_tail ctx w sql =
      ({ code := omg_code.OMG_CODE_DB,
         message := some (ctx.sqlite3_errmsg (w.log ++ [Event.prepare sql false])) }, none,
        { db := w.db, log := w.log ++ [Event.prepare sql false] }) := by
  simp [prepare_query_sql_tail, short_not_detected sql hlen, sqlite3_prepare_v2, hprep]

/-- The statements after the last `sprintf` never report the order-by buffer error on
a text that fits the block. -/
theorem prepare_query_sql_tail_code (ctx : omg_context) (w : World) (sql : String)
    (hlen : sql.length ≤ SQL_DEFAULT_LEN) :
    prepare_query_sql_tail ctx w sql ∉ buffer_errors.map (fun e => (e, none, w)) ∧
    (prepare_query_sql_tail ctx w sql).1 ∉ buffer_errors := by
  cases hp : ctx.prepare_fails w.log
  · rw [prepare_query_sql_tail_prepared ctx w sql hlen hp]
    simp [buffer_errors, NO_ERROR]
  · rw [prepare_query_sql_tail_refused ctx w sql hlen hp]
    simp [buffer_errors]

/-- On a C library that appends in place, a composed text that fits the block with its
NUL is the text in the block after the last `sprintf`. -/
theorem prepare_query_sql_in_place_fits (ctx : omg_context) (w : World) (is_star : Bool)
    (keyword language : Option String)
    (hlibc : ctx.libc_sprintf_overlap = sprintf_overlap.in_place)
    (hfit : (composed_sql is_star keyword language).length + 1 ≤ SQL_DEFAULT_LEN) :
    prepare_query_sql ctx w is_star keyword language =
      Except.ok (prepare_query_sql_tail ctx w (composed_sql is_star keyword language)) := by
  have hq : (query_select_text is_star).length + 1 ≤ SQL_DEFAULT_LEN := by
    rw [query_select_text_length]
    cases is_star <;> decide
  have hself : ∀ sql rest : String, sprintf_sql_self ctx sql rest = sprintf_sql (sql ++ rest) := by
    intro sql rest
    simp [sprintf_sql_self, hlibc]
  unfold prepare_query_sql
  rw [sprintf_sql_fits _ hq]
  simp only [hself]
  cases ek : empty_string keyword <;> cases el : empty_string language <;>
    simp only [composed_sql, ek, el, Bool.not_false, Bool.not_true, if_true, if_false,
      Bool.false_eq_true, Bool.true_and, Bool.false_and, String.length_append,
      String.append_empty] at hfit ⊢
  · have f1 : (query_select_text is_star ++ keyword_clause (keyword.getD "")).length + 1 ≤
        SQL_DEFAULT_LEN := by simp only [String.length_append]; omega
    have f2 : (query_select_text is_star ++ keyword_clause (keyword.getD "") ++
        language_clause (language.getD "")).length + 1 ≤ SQL_DEFAULT_LEN := by
      simp only [String.length_append]; omega
    have f3 : (query_select_text is_star ++ keyword_clause (keyword.getD "") ++
        language_clause (language.getD "") ++ order_by_clause is_star).length + 1 ≤
        SQL_DEFAULT_LEN := by simp only [String.length_append]; omega
    rw [sprintf_sql_fits _ f1]
    simp only [short_not_detected _ (Nat.le_of_succ_le f1), decide_False, Bool.false_eq_true,
      if_false]
    rw [sprintf_sql_fits _ f2]
    simp only [short_not_detected _ (Nat.le_of_succ_le f2), decide_False, Bool.false_eq_true,
      if_false]
    rw [sprintf_sql_fits _ f3]
  · have f1 : (query_select_text is_star ++ keyword_clause (keyword.getD "")).length + 1 ≤
        SQL_DEFAULT_LEN := by simp only [String.length_append]; omega
    have f3 : (query_select_text is_star ++ keyword_clause (keyword.getD "") ++
        order_by_clause is_star).length + 1 ≤ SQL_DEFAULT_LEN := by
      simp only [String.length_append]; omega
    rw [sprintf_sql_fits _ f1]
    simp only [short_not_detected _ (Nat.le_of_succ_le f1), decide_False, Bool.false_eq_true,
      if_false]
    rw [sprintf_sql_fits _ f3]
  · have f2 : (query_select_text is_star ++ language_clause (language.getD "")).length + 1 ≤
        SQL_DEFAULT_LEN := by simp only [String.length_append]; omega
    have f3 : (query_select_text is_star ++ language_clause (language.getD "") ++
        order_by_clause is_star).length + 1 ≤ SQL_DEFAULT_LEN := by
      simp only [String.length_append]; omega
    rw [sprintf_sql_fits _ f2]
    simp only [short_not_detected _ (Nat.le_of_succ_le f2), decide_False, Bool.false_eq_true,
      if_false]
    rw [sprintf_sql_fits _ f3]
  · have f3 : (query_select_text is_star ++ order_by_clause is_star).length + 1 ≤
        SQL_DEFAULT_LEN := by simp only [String.length_append]; omega
    rw [sprintf_sql_fits _ f3]

theorem sprintf_sql_fault (text : String) (f : Fault)
    (h : sprintf_sql text = Except.error f) :
    f = Fault.write_past_block ∧ SQL_DEFAULT_LEN < text.length + 1 := by
  unfold sprintf_sql at h
  split at h
  · cases h
  · simp only [Except.error.injEq] at h
    exact ⟨h.symm, by omega⟩

theorem sprintf_sql_self_fault (ctx : omg_context) (sql rest : String) (f : Fault)
    (h : sprintf_sql_self ctx sql rest = Except.error f) :
    (ctx.libc_sprintf_overlap = sprintf_overlap.undefined ∧ f = Fault.overlapping_copy) ∨
    (ctx.libc_sprintf_overlap ≠ sprintf_overlap.undefined ∧ f = Fault.write_past_block) := by
  unfold sprintf_sql_self at h
  cases hl : ctx.libc_sprintf_overlap <;> rw [hl] at h <;> simp only at h
  · exact Or.inr ⟨by simp, (sprintf_sql_fault _ _ h).1⟩
  · exact Or.inr ⟨by simp, (sprintf_sql_fault _ _ h).1⟩
  · simp only [Except.error.injEq] at h
    exact Or.inl ⟨rfl, h.symm⟩

/-- The two ways in which `prepare_query_sql` leaves defined behaviour: the copy between
overlapping objects, on a C library for which it is undefined, and the store past the
block. -/
theorem prepare_query_sql_faults (ctx : omg_context) (w : World) (is_star : Bool)
    (keyword language : Option String) (f : Fault)
    (h : prepare_query_sql ctx w is_star keyword language = Except.error f) :
    (ctx.libc_sprintf_overlap = sprintf_overlap.undefined ∧ f = Fault.overlapping_copy) ∨
    (ctx.libc_sprintf_overlap ≠ sprintf_overlap.undefined ∧ f = Fault.write_past_block) := by
  have hq : (query_select_text is_star).length + 1 ≤ SQL_DEFAULT_LEN := by
    rw [query_select_text_length]
    cases is_star <;> decide
  unfold prepare_query_sql at h
  rw [sprintf_sql_fits _ hq] at h
  simp only at h
  generalize h1 : (if (!empty_string keyword) = true then
      sprintf_sql_self ctx (query_select_text is_star) (keyword_clause (keyword.getD ""))
    else Except.ok (query_select_text is_star)) = x1 at h
  cases x1 with
  | error f1 =>
    simp only [Except.error.injEq] at h
    subst h
    split at h1
    · exact sprintf_sql_self_fault _ _ _ _ h1
    · cases h1
  | ok s1 =>
    obtain ⟨a1, a2, _, _⟩ := append_step_stored ctx _ _ _ _ hq h1
    simp only [a2, decide_False, Bool.and_false, Bool.false_eq_true, if_false] at h
    generalize h2 : (if (!empty_string language) = true then
        sprintf_sql_self ctx s1 (language_clause (language.getD ""))
      else Except.ok s1) = x2 at h
    cases x2 with
    | error f2 =>
      simp only [Except.error.injEq] at h
      subst h
      split at h2
      · exact sprintf_sql_self_fault _ _ _ _ h2
      · cases h2
    | ok s2 =>
      obtain ⟨_, b2, _, _⟩ := append_step_stored ctx _ _ _ _ a1 h2
      simp only [b2, decide_False, Bool.and_false, Bool.false_eq_true, if_false] at h
      generalize h3 : sprintf_sql_self ctx s2 (order_by_clause is_star) = x3 at h
      cases x3 with
      | error f3 =>
        simp only [Except.error.injEq] at h
        subst h
        exact sprintf_sql_self_fault _ _ _ _ h3
      | ok s3 => cases h

/-- On a C library for which the overlapping copy is undefined, `prepare_query_sql`
has no defined result, whatever the filters. -/
theorem prepare_query_sql_undefined (ctx : omg_context) (w : World) (is_star : Bool)
    (keyword language : Option String)
    (hlibc : ctx.libc_sprintf_overlap = sprintf_overlap.undefined) :
    prepare_query_sql ctx w is_star keyword language =
      Except.error Fault.overlapping_copy := by
  cases hr : prepare_query_sql ctx w is_star keyword language with
  | error f =>
    rcases prepare_query_sql_faults ctx w is_star keyword language f hr with h | h
    · rw [h.2]
    · exact absurd hlibc h.1
  | ok r =>
    obtain ⟨_, _, _, _, hne, _⟩ := prepare_query_sql_returns ctx w is_star keyword language r hr
    exact absurd hlibc hne

/-- On a C library that appends in place, a composed text that does not fit the block
with its NUL is stored past the block. -/
theorem prepare_query_sql_in_place_overrun (ctx : omg_context) (w : World) (is_star : Bool)
    (keyword language : Option String)
    (hlibc : ctx.libc_sprintf_overlap = sprintf_overlap.in_place)
    (hlong : SQL_DEFAULT_LEN < (composed_sql is_star keyword language).length + 1) :
    prepare_query_sql ctx w is_star keyword language =
      Except.error Fault.write_past_block := by
  cases hr : prepare_query_sql ctx w is_star keyword language with
  | error f =>
    rcases prepare_query_sql_faults ctx w is_star keyword language f hr with h | h
    · rw [hlibc] at h
      exact absurd h.1 (by simp)
    · rw [h.2]
  | ok r =>
    obtain ⟨sql, hfit, _, _, _, hin, _⟩ :=
      prepare_query_sql_returns ctx w is_star keyword language r hr
    rw [hin hlibc] at hfit
    omega

/-- On a C library that empties the destination first, each `sprintf` stores its own
clause only: when the clauses of the filters fit the block, the text in the block after
the last `sprintf` is the sort order alone. -/
theorem prepare_query_sql_erased (ctx : omg_context) (w : World) (is_star : Bool)
    (keyword language : Option String)
    (hlibc : ctx.libc_sprintf_overlap = sprintf_overlap.erased)
    (hk : empty_string keyword = true ∨
      (keyword_clause (keyword.getD "")).length + 1 ≤ SQL_DEFAULT_LEN)
    (hl : empty_string language = true ∨
      (language_clause (language.getD "")).length + 1 ≤ SQL_DEFAULT_LEN) :
    prepare_query_sql ctx w is_star keyword language =
      Except.ok (prepare_query_sql_tail ctx w (order_by_clause is_star)) := by
  have hq : (query_select_text is_star).length + 1 ≤ SQL_DEFAULT_LEN := by
    rw [query_select_text_length]
    cases is_star <;> decide
  have hself : ∀ sql rest : String, sprintf_sql_self ctx sql rest = sprintf_sql rest := by
    intro sql rest
    simp [sprintf_sql_self, hlibc]
  have f3 : (order_by_clause is_star).length + 1 ≤ SQL_DEFAULT_LEN := by
    rw [order_by_clause_length]; decide
  unfold prepare_query_sql
  rw [sprintf_sql_fits _ hq]
  simp only [hself]
  cases ek : empty_string keyword <;> cases el : empty_string language <;>
    simp only [ek, el, Bool.not_false, Bool.not_true, if_true, if_false,
      Bool.false_eq_true, Bool.true_and, Bool.false_and, false_or] at hk hl ⊢
  · rw [sprintf_sql_fits _ hk]
    simp only [short_not_detected _ (Nat.le_of_succ_le hk), decide_False, Bool.false_eq_true,
      if_false]
    rw [sprintf_sql_fits _ hl]
    simp only [short_not_detected _ (Nat.le_of_succ_le hl), decide_False, Bool.false_eq_true,
      if_false]
    rw [sprintf_sql_fits _ f3]
  · rw [sprintf_sql_fits _ hk]
    simp only [short_not_detected _ (Nat.le_of_succ_le hk), decide_False, Bool.false_eq_true,
      if_false]
    rw [sprintf_sql_fits _ f3]
  · rw [sprintf_sql_fits _ hl]
    simp only [short_not_detected _ (Nat.le_of_succ_le hl), decide_False, Bool.false_eq_true,
      if_false]
    rw [sprintf_sql_fits _ f3]
  · rw [sprintf_sql_fits _ f3]

/-- A keyword whose clause alone does not fit the block is stored past the block on
every C library on which the copy is defined. -/
theorem prepare_query_sql_keyword_overrun (ctx : omg_context) (w : World) (is_star : Bool)
    (keyword language : Option String)
    (hk : empty_string keyword = false)
    (hlong : SQL_DEFAULT_LEN < (keyword_clause (keyword.getD "")).length + 1) :
    prepare_query_sql ctx w is_star keyword language =
      Except.error (if ctx.libc_sprintf_overlap = sprintf_overlap.undefined
        then Fault.overlapping_copy else Fault.write_past_block) := by
  have hq : (query_select_text is_star).length + 1 ≤ SQL_DEFAULT_LEN := by
    rw [query_select_text_length]
    cases is_star <;> decide
  cases hl : ctx.libc_sprintf_overlap
  · have hlong' : SQL_DEFAULT_LEN <
        (query_select_text is_star ++ keyword_clause (keyword.getD "")).length + 1 := by
      simp only [String.length_append]; omega
    simp [prepare_query_sql, sprintf_sql_fits _ hq, hk, sprintf_sql_self, hl,
      sprintf_sql_overrun _ hlong']
  · simp [prepare_query_sql, sprintf_sql_fits _ hq, hk, sprintf_sql_self, hl,
      sprintf_sql_overrun _ hlong]
  · simp [prepare_query_sql, sprintf_sql_fits _ hq, hk, sprintf_sql_self, hl]

/-- C5, the code at the inputs of the claim. For every query kind, keyword and
language whose composed text is longer than the capacity of 512, `prepare_query_sql`
never returns one of its three "buffer not enough" errors as a defined result: each
`sprintf` stores its text in the block of 512 bytes before the comparison of its
return value is made, so that on a C library that appends in place the text is stored
past the block, and `omg_query_repos` and `omg_query_stars` have no defined result
either; on a C library for which the overlapping copy is undefined the call has no
defined result for that reason. For every keyword of 600 characters the composed text
is that long and the call has no defined result on any C library. -/
theorem prepare_query_sql_buffer_too_small (ctx : omg_context) (w : World) (is_star : Bool)
    (keyword language : Option String)
    (hlong : (composed_sql is_star keyword language).length > SQL_DEFAULT_LEN) :
    (∀ r : omg_error × Option String × World,
      prepare_query_sql ctx w is_star keyword language = Except.ok r →
      r.1 ∉ buffer_errors) ∧
    (ctx.libc_sprintf_overlap = sprintf_overlap.in_place →
      prepare_query_sql ctx w is_star keyword language =
        Except.error Fault.write_past_block ∧
      (is_star = false →
        omg_query_repos ctx w keyword language = Except.error Fault.write_past_block) ∧
      (is_star = true →
        omg_query_stars ctx w keyword language = Except.error Fault.write_past_block)) ∧
    (ctx.libc_sprintf_overlap = sprintf_overlap.undefined →
      prepare_query_sql ctx w is_star keyword language =
        Except.error Fault.overlapping_copy) ∧
    (ctx.libc_sprintf_overlap = sprintf_overlap.erased →
      ∀ (e : omg_error) (sql : String) (w' : World),
        prepare_query_sql ctx w is_star keyword language = Except.ok (e, some sql, w') →
        sql = order_by_clause is_star) ∧
    (∀ (k : String) (l : Option String) (s : Bool) (ctx' : omg_context) (w' : World),
      k.length = 600 →
      (composed_sql s (some k) l).length > SQL_DEFAULT_LEN ∧
      ∃ f : Fault, prepare_query_sql ctx' w' s (some k) l = Except.error f) := by
  refine ⟨?_, ?_, ?_, ?_, ?_⟩
  · intro r hr
    obtain ⟨sql, hfit, hval, _⟩ := prepare_query_sql_returns ctx w is_star keyword language r hr
    rw [hval]
    exact (prepare_query_sql_tail_code ctx w sql (by omega)).2
  · intro hlibc
    have hfault := prepare_query_sql_in_place_overrun ctx w is_star keyword language hlibc
      (by omega)
    refine ⟨hfault, ?_, ?_⟩
    · intro hs
      subst hs
      unfold omg_query_repos
      rw [hfault]
    · intro hs
      subst hs
      unfold omg_query_stars
      rw [hfault]
  · exact prepare_query_sql_undefined ctx w is_star keyword language
  · intro hlibc e sql w' hr
    obtain ⟨sql', _, hval, hnd, _, _, her⟩ :=
      prepare_query_sql_returns ctx w is_star keyword language _ hr
    have hs := her hlibc
    subst hs
    unfold prepare_query_sql_tail at hval
    rw [if_neg hnd] at hval
    simp only at hval
    split at hval
    · simp at hval
    · simp only [Prod.mk.injEq, Option.some.injEq] at hval
      exact hval.2.1
  · intro k l s ctx' w' hk
    have hek : empty_string (some k) = false := by
      simp only [empty_string, decide_eq_false_iff_not]
      omega
    have hkc : SQL_DEFAULT_LEN < (keyword_clause ((some k : Option String).getD "")).length + 1 := by
      rw [keyword_clause_length]
      simp only [Option.getD_some, hk]
      decide
    refine ⟨?_, _, prepare_query_sql_keyword_overrun ctx' w' s (some k) l hek hkc⟩
    rw [composed_sql_length]
    simp only [hek, Bool.not_false, if_true, Option.getD_some, hk]
    show 512 < _
    omega

set_option maxRecDepth 100000 in
/-- C5 on a keyword of 600 characters, on a C library that appends in place: the
composed text has 1517 characters, and the keyword step stores its text past the block
of 512 bytes. -/
theorem prepare_query_sql_buffer_too_small_witness :
    (composed_sql false (some (String.mk (List.replicate 600 'a'))) none).length >
      SQL_DEFAULT_LEN ∧
    (composed_sql false (some (String.mk (List.replicate 600 'a'))) none).length = 1517 ∧
    prepare_query_sql mock_ctx fresh_world false
      (some (String.mk (List.replicate 600 'a'))) none =
        Except.error Fault.write_past_block ∧
    omg_query_repos mock_ctx fresh_world (some (String.mk (List.replicate 600 'a'))) none =
      Except.error Fault.write_past_block :=
  have hlong : (composed_sql false (some (String.mk (List.replicate 600 'a'))) none).length >
      SQL_DEFAULT_LEN := by decide!
  ⟨hlong, by decide!,
   ((prepare_query_sql_buffer_too_small mock_ctx fresh_world false
      (some (String.mk (List.replicate 600 'a'))) none hlong).2.1 rfl).1,
   ((prepare_query_sql_buffer_too_small mock_ctx fresh_world false
      (some (String.mk (List.replicate 600 'a'))) none hlong).2.1 rfl).2.1 rfl⟩

/-! ### Trending scraper -/

theorem successive_matches_pred (ctx : omg_context) (k : Nat) :
    ∀ head : String, successive_matches ctx (k + 1) head = true →
      successive_matches ctx k head = true := by
  induction k with
  | zero => intro head _; rfl
  | succ k ih =>
    intro head h
    simp only [successive_matches] at h ⊢
    split at h
    · exact absurd h (by simp)
    · exact ih _ h

theorem successive_matches_le (ctx : omg_context) (head : String) (m k : Nat) (hle : k ≤ m)
    (h : successive_matches ctx m head = true) : successive_matches ctx k head = true := by
  induction m with
  | zero =>
    have : k = 0 := by omega
    subst this; exact h
  | succ m ih =>
    rcases Nat.lt_or_ge k (m + 1) with hlt | hge
    · exact ih (by omega) (successive_matches_pred ctx m head h)
    · have : k = m + 1 := by omega
      subst this; exact h

/-- The loop with `n` iterations left stores as many entries as there are successive
matches, up to `n`. -/
theorem omg_parse_trending_loop_length (ctx : omg_context) (n : Nat) :
    ∀ head : String,
      (omg_parse_trending_loop ctx n head).length ≤ n ∧
      successive_matches ctx (omg_parse_trending_loop ctx n head).length head = true ∧
      ((omg_parse_trending_loop ctx n head).length < n →
        successive_matches ctx ((omg_parse_trending_loop ctx n head).length + 1) head
          = false) := by
  induction n with
  | zero => intro head; simp [omg_parse_trending_loop, successive_matches]
  | succ n ih =>
    intro head
    simp only [omg_parse_trending_loop]
    cases hm : ctx.trending_re head with
    | none => simp [successive_matches, hm]
    | some pmatch =>
      obtain ⟨h1, h2, h3⟩ := ih (advance head (pmatch 3).rm_eo)
      simp only [List.length_cons, successive_matches, hm]
      exact ⟨by omega, h2, fun hlt => h3 (by omega)⟩

/-- C6. For every HTML text `omg_parse_trending` returns OK with exactly `min(25, n)`
entries, `n` being the number of successive pattern matches found when scanning from
the cursor: at most 25 entries; as many successive matches as entries, and no further
match when there are fewer than 25 entries; 25 entries when there are 30 (or any number
from 25 on) successive matches; 3 entries when there are 3 matches and no fourth; no
entry when there is no match. -/
theorem omg_parse_trending_bounded (ctx : omg_context) (html : String) :
    (omg_parse_trending ctx html).1 = NO_ERROR ∧
    (omg_parse_trending ctx html).2.length ≤ 25 ∧
    successive_matches ctx (omg_parse_trending ctx html).2.length html = true ∧
    ((omg_parse_trending ctx html).2.length < 25 →
      successive_matches ctx ((omg_parse_trending ctx html).2.length + 1) html = false) ∧
    (∀ n : Nat, successive_matches ctx n html = true →
      successive_matches ctx (n + 1) html = false →
      (omg_parse_trending ctx html).2.length = min 25 n) ∧
    (∀ n : Nat, 25 ≤ n → successive_matches ctx n html = true →
      (omg_parse_trending ctx html).2.length = 25) ∧
    (successive_matches ctx 30 html = true → (omg_parse_trending ctx html).2.length = 25) ∧
    (successive_matches ctx 3 html = true → successive_matches ctx 4 html = false →
      (omg_parse_trending ctx html).2.length = 3) ∧
    ((ctx.trending_re html).isNone = true → (omg_parse_trending ctx html).2 = []) := by
  have hnone : (ctx.trending_re html).isNone = true → (omg_parse_trending ctx html).2 = [] := by
    intro h
    have h' : ctx.trending_re html = none := Option.isNone_iff_eq_none.mp h
    simp [omg_parse_trending, omg_parse_trending_loop, TRENDING_LIST_LENGTH, h']
  refine ⟨rfl, ?_⟩
  suffices hs : (omg_parse_trending ctx html).2.length ≤ 25 ∧
      successive_matches ctx (omg_parse_trending ctx html).2.length html = true ∧
      ((omg_parse_trending ctx html).2.length < 25 →
        successive_matches ctx ((omg_parse_trending ctx html).2.length + 1) html = false) ∧
      (∀ n : Nat, successive_matches ctx n html = true →
        successive_matches ctx (n + 1) html = false →
        (omg_parse_trending ctx html).2.length = min 25 n) ∧
      (∀ n : Nat, 25 ≤ n → successive_matches ctx n html = true →
        (omg_parse_trending ctx html).2.length = 25) ∧
      (successive_matches ctx 30 html = true → (omg_parse_trending ctx html).2.length = 25) ∧
      (successive_matches ctx 3 html = true → successive_matches ctx 4 html = false →
        (omg_parse_trending ctx html).2.length = 3) by
    exact ⟨hs.1, hs.2.1, hs.2.2.1, hs.2.2.2.1, hs.2.2.2.2.1, hs.2.2.2.2.2.1, hs.2.2.2.2.2.2,
      hnone⟩
  clear hnone
  have hloop := omg_parse_trending_loop_length ctx TRENDING_LIST_LENGTH html
  have hL : (omg_parse_trending ctx html).2.length =
      (omg_parse_trending_loop ctx TRENDING_LIST_LENGTH html).length := rfl
  rw [← hL] at hloop
  have h25 : TRENDING_LIST_LENGTH = 25 := rfl
  rw [h25] at hloop
  obtain ⟨h1, h2, h3⟩ := hloop
  generalize (omg_parse_trending ctx html).2.length = L at h1 h2 h3 ⊢
  have hge : ∀ n : Nat, 25 ≤ n → successive_matches ctx n html = true → L = 25 := by
    intro n hn hs
    by_contra hne
    have hf := h3 (by omega)
    have ht := successive_matches_le ctx html n (L + 1) (by omega) hs
    rw [hf] at ht
    exact absurd ht (by simp)
  have hexact : ∀ n : Nat, successive_matches ctx n html = true →
      successive_matches ctx (n + 1) html = false → L = min 25 n := by
    intro n hs hf
    rcases Nat.lt_or_ge n 25 with hlt | hge'
    · rw [Nat.min_eq_right (by omega)]
      have hle : L ≤ n := by
        by_contra hc
        have ht := successive_matches_le ctx html L (n + 1) (by omega) h2
        rw [hf] at ht
        exact absurd ht (by simp)
      have hge2 : n ≤ L := by
        by_contra hc
        have hf2 := h3 (by omega)
        have ht := successive_matches_le ctx html n (L + 1) (by omega) hs
        rw [hf2] at ht
        exact absurd ht (by simp)
      omega
    · rw [Nat.min_eq_left hge']
      exact hge n hge' hs
  exact ⟨h1, h2, h3, hexact, hge, hge 30 (by omega),
    fun hs hf => by simpa using hexact 3 hs hf⟩

/-- C6 on the pattern `RE` itself: a page of 30 well-formed blocks gives 25 entries,
3 well-formed blocks followed by markup that breaks off give 3 entries, a text without
a match gives none; each with OK. -/
theorem omg_parse_trending_bounded_witness :
    (omg_parse_trending mock_ctx (trending_page 30)).1 = NO_ERROR ∧
    (omg_parse_trending mock_ctx (trending_page 30)).2.length = 25 ∧
    (omg_parse_trending mock_ctx (trending_page 3 ++ trending_malformed)).2.length = 3 ∧
    (omg_parse_trending mock_ctx "<html></html>").2 = [] :=
  ⟨(omg_parse_trending_bounded mock_ctx (trending_page 30)).1,
   (omg_parse_trending_bounded mock_ctx (trending_page 30)).2.2.2.2.2.2.1 (by decide!),
   (omg_parse_trending_bounded mock_ctx
      (trending_page 3 ++ trending_malformed)).2.2.2.2.2.2.2.1 (by decide!) (by decide!),
   (omg_parse_trending_bounded mock_ctx "<html></html>").2.2.2.2.2.2.2.2 (by decide!)⟩

/-! ### Entity mappers -/

/-- A key that is present with JSON `null` maps to the absent value. -/
theorem dup_json_string_null (root : Option Json) (key : String)
    (h : json_object_get root key = some Json.null) :
    dup_json_string root key = Except.ok none := by
  simp [dup_json_string, h, json_is_null]

/-- A key that is missing makes `dup_json_string` hand `NULL` to `strdup`. -/
theorem dup_json_string_missing (root : Option Json) (key : String)
    (h : json_object_get root key = none) :
    dup_json_string root key = Except.error Fault.strdup_null := by
  simp [dup_json_string, h, json_is_null, json_string_value, strdup, Except.map]

/-- C7, the code at the failing input. On the repository object with `"license": null`
and no `"homepage"` key, `json_object_get` gives `NULL` for `homepage`, `json_is_null`
of `NULL` is false, and `dup_json_string` calls `strdup(NULL)`: `repo_from_json` returns
no record. With `"homepage": null` present, the record has license and homepage
absent. -/
theorem repo_from_json_missing_key_faults :
    json_object_get (some json_without_homepage) "homepage" = none ∧
    json_object_get (some json_without_homepage) "license" = some Json.null ∧
    dup_json_string (some json_without_homepage) "homepage" =
      Except.error Fault.strdup_null ∧
    repo_from_json (some json_without_homepage) = Except.error Fault.strdup_null ∧
    (repo_from_json (some json_with_null_homepage)).map (fun r => (r.license, r.homepage)) =
      Except.ok (none, none) := by
  exact ⟨rfl, rfl, rfl, rfl, rfl⟩

/-! ### Round trip through the row store -/

theorem int_wrap_range (i : Int) : -2147483648 ≤ int_wrap i ∧ int_wrap i < 2147483648 := by
  unfold int_wrap
  omega

theorem int_wrap_of_range (i : Int) (h1 : -2147483648 ≤ i) (h2 : i < 2147483648) :
    int_wrap i = i := by
  unfold int_wrap
  omega

theorem int_wrap_idem (i : Int) : int_wrap (int_wrap i) = int_wrap i :=
  int_wrap_of_range _ (int_wrap_range i).1 (int_wrap_range i).2

/-- The integer fields of a record that `repo_from_json` returns are C `int`s. -/
theorem repo_from_json_ints (root : Option Json) (r : omg_repo)
    (h : repo_from_json root = Except.ok r) :
    int_wrap r.id = r.id ∧ int_wrap r.stargazers_count = r.stargazers_count ∧
    int_wrap r.watchers_count = r.watchers_count ∧
    int_wrap r.forks_count = r.forks_count ∧ int_wrap r.size = r.size := by
  unfold repo_from_json at h
  simp only [bind, Except.bind, pure, Except.pure] at h
  iterate 8 (any_goals (split at h))
  all_goals (
    cases h <;>
    exact ⟨int_wrap_idem _, int_wrap_idem _, int_wrap_idem _, int_wrap_idem _,
      int_wrap_idem _⟩)

/-- Reading back the result columns of the row written for a record gives the record,
up to the two timestamps, which go through `datetime(.., 'localtime')`. -/
theorem repo_from_db_select_columns (ctx : omg_context) (first : SqlValue) (r : omg_repo)
    (hints : int_wrap r.id = r.id ∧ int_wrap r.stargazers_count = r.stargazers_count ∧
      int_wrap r.watchers_count = r.watchers_count ∧
      int_wrap r.forks_count = r.forks_count ∧ int_wrap r.size = r.size) :
    repo_from_db (select_columns ctx first (row_of_repo r)) =
      { r with
        created_at := sqlite3_column_text
          [ctx.datetime_localtime (row_of_repo r).created_at] 0,
        pushed_at := sqlite3_column_text
          [ctx.datetime_localtime (row_of_repo r).pushed_at] 0 } := by
  obtain ⟨h1, h2, h3, h4, h5⟩ := hints
  have hdup : ∀ x : Option String, strdup_when_not_null x = x := by
    intro x; cases x <;> rfl
  cases r with
  | mk id full_name description priv created_at license pushed_at stargazers_count
      watchers_count forks_count lang homepage size =>
    simp only at h1 h2 h3 h4 h5
    show omg_repo.mk _ _ _ _ _ _ _ _ _ _ _ _ _ = omg_repo.mk _ _ _ _ _ _ _ _ _ _ _ _ _
    congr 1
    all_goals first
      | exact h1 | exact h2 | exact h3 | exact h4 | exact h5 | exact hdup _
      | (cases full_name <;> rfl) | (cases description <;> rfl) | (cases priv <;> rfl)
      | (cases license <;> rfl) | (cases lang <;> rfl) | (cases homepage <;> rfl)

theorem save_my_repos_fresh (ctx : omg_context) (w : World) (r : omg_repo)
    (hp : ∀ log, ctx.prepare_fails log = false) (hs : ∀ log, ctx.step_fails log = false)
    (hdb : w.db = empty_db) :
    (save_my_repos ctx w [r]).2.db =
      { omg_repo := [row_of_repo r],
        omg_my_repo := [{ repo_id := SqlValue.integer r.id }],
        omg_my_star := [] } := by
  have hb : sqlite3_bind_int no_bindings 1 r.id 1 = SqlValue.integer r.id := by
    simp [sqlite3_bind_int]
  simp [save_my_repos, save_repos, sqlite3_prepare_v2, hp, hs, save_repos_loop,
    save_my_repos_loop, sqlite3_step_write, is_ok, NO_ERROR, hdb, empty_db,
    exec_save_repos_eq, upsert_repo, exec_save_my_repos, hb]

set_option maxRecDepth 100000 in
/-- Without a keyword and without a language, on a C library that appends in place,
`prepare_query_sql` prepares the unfiltered text for repos. -/
theorem prepare_query_sql_unfiltered (ctx : omg_context) (w : World)
    (keyword language : Option String)
    (hlibc : ctx.libc_sprintf_overlap = sprintf_overlap.in_place)
    (hp : ∀ log, ctx.prepare_fails log = false)
    (hk : empty_string keyword = true) (hl : empty_string language = true) :
    prepare_query_sql ctx w false keyword language =
      Except.ok (NO_ERROR, some (query_select_text false ++ order_by_clause false),
        { db := w.db,
          log := w.log ++
            [Event.prepare (query_select_text false ++ order_by_clause false) true] }) := by
  have hc : composed_sql false keyword language =
      query_select_text false ++ order_by_clause false := by
    simp [composed_sql, hk, hl]
  have hlen : (query_select_text false ++ order_by_clause false).length + 1 ≤
      SQL_DEFAULT_LEN := by
    simp only [String.length_append, query_select_text_length, order_by_clause_length]
    decide
  rw [prepare_query_sql_in_place_fits ctx w false keyword language hlibc (by rw [hc]; exact hlen),
    hc, prepare_query_sql_tail_prepared ctx w _ (Nat.le_of_succ_le hlen) (hp _)]

/-- Without a keyword and without a language, on a C library that empties the
destination first, the text that `prepare_query_sql` prepares is the sort order
alone. -/
theorem prepare_query_sql_unfiltered_erased (ctx : omg_context) (w : World)
    (keyword language : Option String)
    (hlibc : ctx.libc_sprintf_overlap = sprintf_overlap.erased)
    (hp : ∀ log, ctx.prepare_fails log = false)
    (hk : empty_string keyword = true) (hl : empty_string language = true) :
    prepare_query_sql ctx w false keyword language =
      Except.ok (NO_ERROR, some (order_by_clause false),
        { db := w.db, log := w.log ++ [Event.prepare (order_by_clause false) true] }) := by
  rw [prepare_query_sql_erased ctx w false keyword language hlibc (Or.inl hk) (Or.inl hl),
    prepare_query_sql_tail_prepared ctx w _ (by decide) (hp _)]

theorem dup_json_string_text_or_null (root : Option Json) (key : String)
    (h : json_text_or_null (json_object_get root key) = true) :
    ∃ s : Option String, dup_json_string root key = Except.ok s := by
  unfold dup_json_string
  cases hv : json_object_get root key with
  | none => rw [hv] at h; cases h
  | some v =>
    rw [hv] at h
    cases v <;> first
      | exact ⟨none, rfl⟩
      | exact ⟨some _, rfl⟩
      | cases h

/-- The mapper returns a record for every repository object with all keys present. -/
theorem repo_from_json_repository_object (j : Json) (h : repository_object j = true) :
    ∃ r : omg_repo, repo_from_json (some j) = Except.ok r := by
  simp only [repository_object, Bool.and_eq_true, Bool.or_eq_true] at h
  obtain ⟨⟨⟨⟨⟨⟨⟨_, h1⟩, h2⟩, h3⟩, h4⟩, h5⟩, h6⟩, h7⟩ := h
  obtain ⟨s1, e1⟩ := dup_json_string_text_or_null _ _ h1
  obtain ⟨s2, e2⟩ := dup_json_string_text_or_null _ _ h2
  obtain ⟨s3, e3⟩ := dup_json_string_text_or_null _ _ h3
  obtain ⟨s4, e4⟩ := dup_json_string_text_or_null _ _ h4
  obtain ⟨s5, e5⟩ := dup_json_string_text_or_null _ _ h5
  obtain ⟨s6, e6⟩ := dup_json_string_text_or_null _ _ h6
  unfold repo_from_json
  simp only [bind, Except.bind, pure, Except.pure, e1, e2, e3, e4, e5, e6]
  by_cases hn : json_is_null (json_object_get (some j) "license") = true
  · simp only [hn, Bool.not_true, Bool.false_eq_true, if_false]
    exact ⟨_, rfl⟩
  · obtain ⟨s, e⟩ := dup_json_string_text_or_null _ _ (h7.resolve_left hn)
    simp only [hn, Bool.not_false, if_true, e]
    exact ⟨_, rfl⟩

/-- C8, the round trip and where it ends. For every JSON repository object with all
keys present the mapper returns a record; saving it with `save_my_repos` into an empty
store and reading back with `omg_query_repos` without keyword and without language
(the statements are prepared, the row writes done, the passes over the rows complete)
has no defined result on a C library for which the copy between overlapping objects is
undefined, steps the text of the sort order alone, not the select, on a C library that
empties the destination first, and on a C library that appends in place yields exactly
one record, equal to the mapped one on id, full name, description, private flag,
license, the three counts, language, homepage and size, its two timestamps being those
the store reformats; result column `k` of the select holds what `save_repos` binds to
parameter `k`, for every column but the two timestamps. -/
theorem repo_round_trip (ctx : omg_context) (w : World) (j : Json)
    (keyword language : Option String)
    (hj : repository_object j = true)
    (hdb : w.db = empty_db)
    (hp : ∀ log, ctx.prepare_fails log = false)
    (hs : ∀ log, ctx.step_fails log = false)
    (hc : ∀ log, ctx.select_cut log = none)
    (hk : empty_string keyword = true) (hl : empty_string language = true) :
    ∃ r : omg_repo, repo_from_json (some j) = Except.ok r ∧
      (ctx.libc_sprintf_overlap = sprintf_overlap.undefined →
        omg_query_repos ctx (save_my_repos ctx w [r]).2 keyword language =
          Except.error Fault.overlapping_copy) ∧
      (ctx.libc_sprintf_overlap = sprintf_overlap.erased →
        omg_query_repos ctx (save_my_repos ctx w [r]).2 keyword language =
          query_rows ctx
            { db := (save_my_repos ctx w [r]).2.db,
              log := (save_my_repos ctx w [r]).2.log ++
                [Event.prepare (order_by_clause false) true] }
            (order_by_clause false) repo_from_db ∧
        order_by_clause false = " order by created_at desc" ∧
        order_by_clause false ≠ query_select_text false ++ order_by_clause false) ∧
      (ctx.libc_sprintf_overlap = sprintf_overlap.in_place →
        ∃ (r' : omg_repo) (w' : World),
          omg_query_repos ctx (save_my_repos ctx w [r]).2 keyword language =
            Except.ok (NO_ERROR, [r'], w') ∧
          r'.id = r.id ∧ r'.full_name = r.full_name ∧ r'.description = r.description ∧
          r'.«private» = r.«private» ∧ r'.license = r.license ∧
          r'.stargazers_count = r.stargazers_count ∧
          r'.watchers_count = r.watchers_count ∧
          r'.forks_count = r.forks_count ∧ r'.lang = r.lang ∧ r'.homepage = r.homepage ∧
          r'.size = r.size ∧
          r'.created_at =
            sqlite3_column_text [ctx.datetime_localtime (row_of_repo r).created_at] 0 ∧
          r'.pushed_at =
            sqlite3_column_text [ctx.datetime_localtime (row_of_repo r).pushed_at] 0 ∧
          (∀ k : Nat, 1 ≤ k → k ≤ 13 → k ≠ 5 → k ≠ 7 →
            (select_columns ctx (SqlValue.integer 1) (row_of_repo r)).getD k SqlValue.null =
              bind_repo r k)) := by
  obtain ⟨r, hr⟩ := repo_from_json_repository_object j hj
  refine ⟨r, hr, ?_, ?_, ?_⟩
  · intro hlibc
    unfold omg_query_repos
    rw [prepare_query_sql_undefined ctx _ false keyword language hlibc]
  · intro hlibc
    refine ⟨?_, by decide, by decide⟩
    unfold omg_query_repos
    rw [prepare_query_sql_unfiltered_erased ctx _ keyword language hlibc hp hk hl]
  · intro hlibc
    have hints := repo_from_json_ints (some j) r hr
    have hsaved := save_my_repos_fresh ctx w r hp hs hdb
    have hread := repo_from_db_select_columns ctx (SqlValue.integer 1) r hints
    have hview : omg_my_repo_view (save_my_repos ctx w [r]).2.db = [row_of_repo r] := by
      rw [hsaved]
      simp [omg_my_repo_view, row_of_repo_id]
    have hq : ∃ w' : World,
        omg_query_repos ctx (save_my_repos ctx w [r]).2 keyword language =
          Except.ok (NO_ERROR,
            [repo_from_db (select_columns ctx (SqlValue.integer 1) (row_of_repo r))], w') := by
      unfold omg_query_repos
      rw [prepare_query_sql_unfiltered ctx _ keyword language hlibc hp hk hl]
      simp only [query_rows, sqlite_select, if_true, select_pass, hc, hview, order_by_desc,
        List.foldl_cons, List.foldl_nil, insert_desc, List.map_cons, List.map_nil,
        List.length_cons, List.length_nil, lt_self_iff_false, if_false, Bool.not_true,
        Bool.false_eq_true]
      exact ⟨_, rfl⟩
    obtain ⟨w', hq⟩ := hq
    refine ⟨repo_from_db (select_columns ctx (SqlValue.integer 1) (row_of_repo r)), w', hq, ?_⟩
    rw [hread]
    refine ⟨rfl, rfl, rfl, rfl, rfl, rfl, rfl, rfl, rfl, rfl, rfl, rfl, rfl, ?_⟩
    intro k h1 h13 h5 h7
    have hcases : k = 1 ∨ k = 2 ∨ k = 3 ∨ k = 4 ∨ k = 6 ∨ k = 8 ∨ k = 9 ∨ k = 10 ∨
        k = 11 ∨ k = 12 ∨ k = 13 := by omega
    rcases hcases with h | h | h | h | h | h | h | h | h | h | h <;> subst h <;>
      simp [select_columns, row_of_repo, bind_repo, sqlite3_bind_int, sqlite3_bind_text,
        no_bindings]

set_option maxRecDepth 100000 in
/-- C8 on the repository object `full_repo_json`, which has every key and no `null`:
on the C library that appends in place the record read back is the mapped record in
every field (the mocked store leaves the timestamps as they are); on a C library of
which only ISO C is known the read has no defined result; on the C library that
empties the destination first the text handed to the row store is the sort order
alone, the row store refuses it, and the read returns the error of the row store and no
record. An object with every key in which `description` holds a number makes the
mapper hand `NULL` to `strdup`. -/
theorem repo_round_trip_witness :
    repository_object full_repo_json = true ∧
    repo_from_json (some full_repo_json) = Except.ok full_repo ∧
    (∃ (r' : omg_repo) (w' : World),
      omg_query_repos mock_ctx (save_my_repos mock_ctx fresh_world [full_repo]).2 none none =
        Except.ok (NO_ERROR, [r'], w') ∧
      r'.id = 1296269 ∧ r'.full_name = some "octocat/Hello-World" ∧
      r'.description = some "My first repository" ∧ r'.«private» = true ∧
      r'.license = some "mit" ∧ r'.stargazers_count = 80 ∧ r'.watchers_count = 81 ∧
      r'.forks_count = 9 ∧ r'.lang = some "C" ∧ r'.homepage = some "https://github.com" ∧
      r'.size = 108) ∧
    omg_query_repos iso_c_ctx (save_my_repos iso_c_ctx fresh_world [full_repo]).2 none none =
      Except.error Fault.overlapping_copy ∧
    omg_query_repos fortified_ctx (save_my_repos fortified_ctx fresh_world [full_repo]).2
        none none =
      Except.ok ({ code := omg_code.OMG_CODE_DB,
                   message := some "near \"order\": syntax error" }, [],
        { db := (save_my_repos fortified_ctx fresh_world [full_repo]).2.db,
          log := (save_my_repos fortified_ctx fresh_world [full_repo]).2.log ++
            [Event.prepare " order by created_at desc" false] }) ∧
    repository_keys.all
      (fun key => (json_object_get (some ill_typed_repo_json) key).isSome) = true ∧
    repo_from_json (some ill_typed_repo_json) = Except.error Fault.strdup_null := by
  have hmap : repo_from_json (some full_repo_json) = Except.ok full_repo := rfl
  obtain ⟨r, hr, _, _, hin⟩ := repo_round_trip mock_ctx fresh_world full_repo_json none none
    rfl rfl (fun _ => rfl) (fun _ => rfl) (fun _ => rfl) rfl rfl
  rw [hmap] at hr
  simp only [Except.ok.injEq] at hr
  subst hr
  obtain ⟨r', w', hq, e1, e2, e3, e4, e5, e6, e7, e8, e9, e10, e11, _⟩ := hin rfl
  exact ⟨rfl, hmap, ⟨r', w', hq, e1, e2, e3, e4, e5, e6, e7, e8, e9, e10, e11⟩, rfl, rfl,
    rfl, rfl⟩

/-! ### Failure of a page -/

theorem omg_sync_repos_loop_eq (ctx : omg_context) (fuel : Nat) :
    ∀ (p : Nat) (w : World), omg_sync_repos_loop false ctx fuel p w =
      sync_loop (fun w p => fetch_repos_by_page false ctx w p) (save_my_repos ctx) fuel p w := by
  induction fuel with
  | zero => intro p w; rfl
  | succ fuel ih =>
    intro p w
    simp only [omg_sync_repos_loop, sync_loop, Bool.false_and, Bool.false_eq_true, if_false,
      PER_PAGE]
    cases fetch_repos_by_page false ctx w p
    · rfl
    · simp only [ih]

theorem omg_sync_stars_loop_eq (ctx : omg_context) (fuel : Nat) :
    ∀ (p : Nat) (w : World), omg_sync_stars_loop false ctx fuel p w =
      sync_loop (fun w p => fetch_stars_by_page false ctx w p) (save_my_stars ctx) fuel p w := by
  induction fuel with
  | zero => intro p w; rfl
  | succ fuel ih =>
    intro p w
    simp only [omg_sync_stars_loop, sync_loop, Bool.false_and, Bool.false_eq_true, if_false,
      PER_PAGE]
    cases fetch_stars_by_page false ctx w p
    · rfl
    · simp only [ih]

/-- A sync whose pages before page `p + k` are done stops at the page that fails: with
the error of its fetch and the world the fetch left, or with the error of its save and
the world the save left. -/
theorem sync_loop_stops {α : Type}
    (fetch : World → Nat → Except Fault (omg_error × List α × World))
    (save : World → List α → omg_error × World) (pages : List (List α)) :
    ∀ (p : Nat) (w : World) (fuel : Nat),
      p + pages.length < SIZE_MAX_PLUS_ONE →
      pages_done fetch save p pages w →
      pages.length + 1 ≤ fuel →
      (∀ (err : omg_error) (lst : List α) (w1 : World),
        fetch (world_after fetch save p pages w) (p + pages.length) =
          Except.ok (err, lst, w1) →
        is_ok err = false →
        sync_loop fetch save fuel p w = Except.ok (err, w1)) ∧
      (∀ (lst : List α) (w1 : World),
        fetch (world_after fetch save p pages w) (p + pages.length) =
          Except.ok (NO_ERROR, lst, w1) →
        is_ok (save w1 lst).1 = false →
        sync_loop fetch save fuel p w = Except.ok (save w1 lst)) := by
  induction pages with
  | nil =>
    intro p w fuel _ _ hfuel
    obtain ⟨f, rfl⟩ : ∃ f, fuel = f + 1 := ⟨fuel - 1, by simp at hfuel; omega⟩
    simp only [world_after, List.length_nil, Nat.add_zero]
    constructor
    · intro err lst w1 hf he
      simp only [sync_loop, hf, he, Bool.not_false, if_true]
    · intro lst w1 hf he
      have hok : is_ok NO_ERROR = true := rfl
      simp only [sync_loop, hf, he, hok, Bool.not_true, Bool.false_eq_true, if_false,
        Bool.not_false, if_true]
  | cons page rest ih =>
    intro p w fuel hbound hdone hfuel
    simp only [List.length_cons] at hbound hfuel
    obtain ⟨f, rfl⟩ : ∃ f, fuel = f + 1 := ⟨fuel - 1, by omega⟩
    obtain ⟨w1, hfetch, hlen, hsave, hrest⟩ := hdone
    have hwrap : size_t_wrap (p + 1) = p + 1 := Nat.mod_eq_of_lt (by omega)
    have hih := ih (p + 1) (save w1 page).2 f (by omega) hrest (by omega)
    have hok : is_ok NO_ERROR = true := rfl
    have hstep : sync_loop fetch save (f + 1) p w =
        sync_loop fetch save f (p + 1) (save w1 page).2 := by
      simp only [sync_loop, hfetch, hsave, hok, Bool.not_true,
        Bool.false_eq_true, if_false, hlen, lt_self_iff_false, hwrap]
    have hw : world_after fetch save p (page :: rest) w =
        world_after fetch save (p + 1) rest (save w1 page).2 := by
      simp only [world_after, hfetch]
    have hidx : p + (rest.length + 1) = p + 1 + rest.length := by omega
    rw [hstep, hw, List.length_cons, hidx]
    exact hih

/-- A request that returns leaves the database alone and adds itself to the log. -/
theorem omg_request_world (ctx : omg_context) (w : World) (method url : String)
    (out_given : Bool) (r : omg_error × Option Json × World)
    (h : omg_request ctx w method url out_given = Except.ok r) :
    r.2.2 = { db := w.db, log := w.log ++ [Event.request method url] } := by
  unfold omg_request at h
  simp only at h
  split at h
  · cases h; rfl
  · split at h
    · cases h; rfl
    · split at h
      · cases h
      · split at h
        · cases h; rfl
        · split at h
          · cases h; rfl
          · cases h

theorem fetch_repos_by_page_world (ctx : omg_context) (w : World) (p : Nat)
    (r : omg_error × List omg_repo × World)
    (h : fetch_repos_by_page false ctx w p = Except.ok r) :
    r.2.2 = { db := w.db,
              log := w.log ++ [Event.request GET_METHOD (repos_page_url false p)] } := by
  unfold fetch_repos_by_page at h
  simp only [bind, Except.bind, pure, Except.pure] at h
  split at h
  · cases h
  · rename_i q hq
    have hw := omg_request_world ctx w _ _ _ q hq
    split at h
    · cases h; exact hw
    · split at h
      · cases h
      · cases h; exact hw

theorem fetch_stars_by_page_world (ctx : omg_context) (w : World) (p : Nat)
    (r : omg_error × List omg_star × World)
    (h : fetch_stars_by_page false ctx w p = Except.ok r) :
    r.2.2 = { db := w.db,
              log := w.log ++ [Event.request GET_METHOD (stars_page_url false p)] } := by
  unfold fetch_stars_by_page at h
  simp only [bind, Except.bind, pure, Except.pure] at h
  split at h
  · cases h
  · rename_i q hq
    have hw := omg_request_world ctx w _ _ _ q hq
    split at h
    · cases h; exact hw
    · split at h
      · cases h
      · cases h; exact hw

/-- The requests made while the pages before the failing one were done: one per page,
in the order of the page numbers. -/
theorem world_after_requests {α : Type}
    (fetch : World → Nat → Except Fault (omg_error × List α × World))
    (save : World → List α → omg_error × World) (url : Nat → String)
    (hfetch : ∀ w p r, fetch w p = Except.ok r →
      r.2.2 = { db := w.db, log := w.log ++ [Event.request GET_METHOD (url p)] })
    (hsave : ∀ w l, requests (save w l).2.log = requests w.log)
    (pages : List (List α)) :
    ∀ (p : Nat) (w : World), pages_done fetch save p pages w →
      requests (world_after fetch save p pages w).log =
        requests w.log ++ (List.range pages.length).map (fun i => (GET_METHOD, url (p + i))) := by
  induction pages with
  | nil => intro p w _; simp [world_after]
  | cons page rest ih =>
    intro p w hdone
    obtain ⟨w1, hf, _, _, hrest⟩ := hdone
    have hw1 := hfetch w p _ hf
    simp only at hw1
    simp only [world_after, hf, List.length_cons]
    rw [ih (p + 1) _ hrest, hsave, hw1, requests_append, List.range_succ_eq_map]
    simp only [requests, List.filterMap_cons, List.filterMap_nil, List.map_cons,
      List.map_map, Nat.add_zero, List.append_assoc, List.singleton_append]
    congr 2
    apply List.map_congr_left
    intro i _
    simp only [Function.comp_apply]
    congr 2
    omega

/-! ### What a batch does to the repository table, whatever fails -/

theorem upsert_repo_ids_mono (t : List repo_row) (r : omg_repo) (v : SqlValue)
    (h : v ∈ t.map (fun row => row.id)) : v ∈ (upsert_repo t r).map (fun row => row.id) :=
  (upsert_repo_mem_ids t r v).mpr (Or.inl h)

theorem save_repos_loop_frame (ctx : omg_context) (p : repo_row → Bool) (l : List omg_repo) :
    ∀ w : World, (∀ r ∈ l, ∀ row, p row = true → row.id ≠ SqlValue.integer r.id) →
      (save_repos_loop ctx l w).db.omg_repo.filter p = w.db.omg_repo.filter p ∧
      ∀ v, v ∈ w.db.omg_repo.map (fun row => row.id) →
        v ∈ (save_repos_loop ctx l w).db.omg_repo.map (fun row => row.id) := by
  induction l with
  | nil => intro w _; exact ⟨rfl, fun _ h => h⟩
  | cons r rest ih =>
    intro w hp
    simp only [save_repos_loop]
    have hstep := sqlite3_step_write_cases ctx w SQL_SAVE_REPOS (params (bind_repo r) 13)
      (fun db => { db with omg_repo := exec_save_repos (bind_repo r) db.omg_repo })
    obtain ⟨h1, h2⟩ := ih (sqlite3_step_write ctx w SQL_SAVE_REPOS (params (bind_repo r) 13)
      (fun db => { db with omg_repo := exec_save_repos (bind_repo r) db.omg_repo })).2
      (fun x hx => hp x (List.mem_cons_of_mem _ hx))
    rcases hstep with hs | hs
    · rw [hs] at h1 h2
      exact ⟨h1, h2⟩
    · rw [hs] at h1 h2
      have e := exec_save_repos_eq r w.db.omg_repo
      dsimp only at h1 h2
      rw [e] at h1 h2
      constructor
      · rw [h1]
        exact upsert_repo_filter_other _ r p (hp r (List.mem_cons_self _ _))
      · intro v hv
        exact h2 v (upsert_repo_ids_mono _ r v hv)

theorem save_repos_frame (ctx : omg_context) (p : repo_row → Bool) (w : World)
    (l : List omg_repo)
    (hp : ∀ r ∈ l, ∀ row, p row = true → row.id ≠ SqlValue.integer r.id) :
    (save_repos ctx w l).2.db.omg_repo.filter p = w.db.omg_repo.filter p ∧
    ∀ v, v ∈ w.db.omg_repo.map (fun row => row.id) →
      v ∈ (save_repos ctx w l).2.db.omg_repo.map (fun row => row.id) := by
  unfold save_repos
  simp only
  split
  · exact ⟨rfl, fun _ h => h⟩
  · exact save_repos_loop_frame ctx p l _ hp

theorem not_in_page_spec (page : List omg_repo) :
    ∀ r ∈ page, ∀ row, not_in_page page row = true → row.id ≠ SqlValue.integer r.id := by
  intro r hr row h
  simp only [not_in_page, List.all_eq_true, Bool.not_eq_true', decide_eq_false_iff_not] at h
  exact h r hr

theorem not_in_star_page_spec (page : List omg_star) :
    ∀ r ∈ page.map (fun star => star.repo), ∀ row, not_in_star_page page row = true →
      row.id ≠ SqlValue.integer r.id := by
  intro r hr row h
  simp only [not_in_star_page, List.all_eq_true, Bool.not_eq_true',
    decide_eq_false_iff_not] at h
  obtain ⟨s, hs, rfl⟩ := List.mem_map.mp hr
  exact h s hs

/-- A `save_my_repos` that returns an error has written no marker; the repository
rows it may have written are those of the ids of its page. -/
theorem save_my_repos_failed (ctx : omg_context) (w : World) (l : List omg_repo)
    (h : is_ok (save_my_repos ctx w l).1 = false) :
    (save_my_repos ctx w l).2.db.omg_my_repo = w.db.omg_my_repo ∧
    (save_my_repos ctx w l).2.db.omg_my_star = w.db.omg_my_star ∧
    (save_my_repos ctx w l).2.db.omg_repo.filter (not_in_page l) =
      w.db.omg_repo.filter (not_in_page l) ∧
    ∀ v, v ∈ w.db.omg_repo.map (fun row => row.id) →
      v ∈ (save_my_repos ctx w l).2.db.omg_repo.map (fun row => row.id) := by
  have hf := save_repos_frame ctx (not_in_page l) w l (not_in_page_spec l)
  have ho := save_repos_others ctx w l
  rw [save_my_repos_repo_table]
  refine ⟨?_, ?_, hf.1, hf.2⟩
  · unfold save_my_repos at h ⊢
    simp only at h ⊢
    split
    · exact ho.1
    · rename_i h1
      rw [if_neg h1] at h
      split
      · exact ho.1
      · rename_i h2
        rw [if_neg h2] at h
        exact absurd h (by simp [is_ok, NO_ERROR])
  · unfold save_my_repos
    simp only
    split
    · exact ho.2
    · split
      · exact ho.2
      · simp only
        rw [(save_my_repos_loop_others ctx l _).2]
        exact ho.2

/-- A `save_my_stars` that returns an error has written no star; the repository rows
it may have written are those of the ids of its page. -/
theorem save_my_stars_failed (ctx : omg_context) (w : World) (l : List omg_star)
    (h : is_ok (save_my_stars ctx w l).1 = false) :
    (save_my_stars ctx w l).2.db.omg_my_repo = w.db.omg_my_repo ∧
    (save_my_stars ctx w l).2.db.omg_my_star = w.db.omg_my_star ∧
    (save_my_stars ctx w l).2.db.omg_repo.filter (not_in_star_page l) =
      w.db.omg_repo.filter (not_in_star_page l) ∧
    ∀ v, v ∈ w.db.omg_repo.map (fun row => row.id) →
      v ∈ (save_my_stars ctx w l).2.db.omg_repo.map (fun row => row.id) := by
  have hf := save_repos_frame ctx (not_in_star_page l) w (l.map (fun star => star.repo))
    (not_in_star_page_spec l)
  have ho := save_repos_others ctx w (l.map (fun star => star.repo))
  rw [save_my_stars_repo_table]
  refine ⟨?_, ?_, hf.1, hf.2⟩
  · unfold save_my_stars
    simp only
    split
    · exact ho.1
    · split
      · exact ho.1
      · simp only
        rw [(save_my_stars_loop_others ctx l _).2]
        exact ho.1
  · unfold save_my_stars at h ⊢
    simp only at h ⊢
    split
    · exact ho.2
    · rename_i h1
      rw [if_neg h1] at h
      split
      · exact ho.2
      · rename_i h2
        rw [if_neg h2] at h
        exact absurd h (by simp [is_ok, NO_ERROR])

set_option maxRecDepth 100000 in
/-- C9, as stated, fails. The remote serves repository 0 on page 1 and again, with 5
stars, on page 2; the marker statement of page 2 cannot be prepared. The batch save of
page 2 returns the error and the sync returns it, but the row that page 1 wrote for
repository 0 is not as it was written: the repository upserts of page 2 ran before the
failure. -/
theorem sync_failure_after_repo_upserts :
    (∃ w1 : World,
      fetch_repos_by_page false recurring_ctx fresh_world 1 =
        Except.ok (NO_ERROR, mock_page 0 100, w1) ∧
      (save_my_repos recurring_ctx w1 (mock_page 0 100)).1 = NO_ERROR ∧
      (save_my_repos recurring_ctx w1 (mock_page 0 100)).2.db.omg_repo.head? =
        some (row_of_repo (mock_repo 0)) ∧
      ∃ w2 : World,
        fetch_repos_by_page false recurring_ctx
            (save_my_repos recurring_ctx w1 (mock_page 0 100)).2 2 =
          Except.ok (NO_ERROR, [mock_repo_5_stars], w2) ∧
        (save_my_repos recurring_ctx w2 [mock_repo_5_stars]).1 =
          { code := omg_code.OMG_CODE_DB, message := some "disk I/O error" } ∧
        omg_sync_repos false recurring_ctx 2 fresh_world =
          Except.ok (save_my_repos recurring_ctx w2 [mock_repo_5_stars]) ∧
        (save_my_repos recurring_ctx w2 [mock_repo_5_stars]).2.db.omg_repo.head? =
          some (row_of_repo mock_repo_5_stars)) ∧
    row_of_repo (mock_repo 0) ≠ row_of_repo mock_repo_5_stars := by
  refine ⟨⟨_, rfl, by decide!, by decide!, _, rfl, by decide!, rfl, by decide!⟩, by decide⟩

theorem requests_snoc_range (base : List (String × String)) (url : Nat → String) (n : Nat)
    (log : List Event)
    (h : requests log = base ++ (List.range n).map (fun i => (GET_METHOD, url (1 + i)))) :
    requests (log ++ [Event.request GET_METHOD (url (n + 1))]) =
      base ++ (List.range (n + 1)).map (fun i => (GET_METHOD, url (1 + i))) := by
  rw [requests_append, h, List.range_succ, List.map_append, List.append_assoc]
  simp [requests, Nat.add_comm]

/-- C9, amended. In `omg_sync_repos` and `omg_sync_stars` (normal build), when the
pages before page `p` are done and the fetch of page `p` returns an error, the sync
returns that error with the world the fetch left: the database is the one the pages
before `p` left, and exactly the pages `1 .. p` have been requested. When the fetch of
page `p` returns OK and the batch save of page `p` returns an error, the sync returns
that error with the world the save left: exactly the pages `1 .. p` have been
requested, nothing is written after the save of page `p`, the marker and star tables
are those the pages before `p` left, every repository row whose id is not in page `p`
is as the pages before `p` left it, and every id that had a row still has one. -/
theorem sync_stops_at_failing_page (ctx : omg_context) (w : World) (fuel : Nat) :
    (∀ pages : List (List omg_repo),
      pages.length + 1 < SIZE_MAX_PLUS_ONE →
      pages_done (fun w p => fetch_repos_by_page false ctx w p) (save_my_repos ctx) 1 pages w →
      pages.length + 1 ≤ fuel →
      (∀ (err : omg_error) (lst : List omg_repo) (w1 : World),
        fetch_repos_by_page false ctx
            (world_after (fun w p => fetch_repos_by_page false ctx w p) (save_my_repos ctx)
              1 pages w) (pages.length + 1) = Except.ok (err, lst, w1) →
        is_ok err = false →
        omg_sync_repos false ctx fuel w = Except.ok (err, w1) ∧
        w1.db = (world_after (fun w p => fetch_repos_by_page false ctx w p)
          (save_my_repos ctx) 1 pages w).db ∧
        requests w1.log = requests w.log ++ (List.range (pages.length + 1)).map
          (fun i => (GET_METHOD, repos_page_url false (1 + i)))) ∧
      (∀ (lst : List omg_repo) (w1 : World),
        fetch_repos_by_page false ctx
            (world_after (fun w p => fetch_repos_by_page false ctx w p) (save_my_repos ctx)
              1 pages w) (pages.length + 1) = Except.ok (NO_ERROR, lst, w1) →
        is_ok (save_my_repos ctx w1 lst).1 = false →
        omg_sync_repos false ctx fuel w = Except.ok (save_my_repos ctx w1 lst) ∧
        requests (save_my_repos ctx w1 lst).2.log =
          requests w.log ++ (List.range (pages.length + 1)).map
            (fun i => (GET_METHOD, repos_page_url false (1 + i))) ∧
        (save_my_repos ctx w1 lst).2.db.omg_my_repo =
          (world_after (fun w p => fetch_repos_by_page false ctx w p) (save_my_repos ctx)
            1 pages w).db.omg_my_repo ∧
        (save_my_repos ctx w1 lst).2.db.omg_my_star =
          (world_after (fun w p => fetch_repos_by_page false ctx w p) (save_my_repos ctx)
            1 pages w).db.omg_my_star ∧
        (save_my_repos ctx w1 lst).2.db.omg_repo.filter (not_in_page lst) =
          (world_after (fun w p => fetch_repos_by_page false ctx w p) (save_my_repos ctx)
            1 pages w).db.omg_repo.filter (not_in_page lst) ∧
        ∀ v, v ∈ (world_after (fun w p => fetch_repos_by_page false ctx w p)
            (save_my_repos ctx) 1 pages w).db.omg_repo.map (fun row => row.id) →
          v ∈ (save_my_repos ctx w1 lst).2.db.omg_repo.map (fun row => row.id))) ∧
    (∀ pages : List (List omg_star),
      pages.length + 1 < SIZE_MAX_PLUS_ONE →
      pages_done (fun w p => fetch_stars_by_page false ctx w p) (save_my_stars ctx) 1 pages w →
      pages.length + 1 ≤ fuel →
      (∀ (err : omg_error) (lst : List omg_star) (w1 : World),
        fetch_stars_by_page false ctx
            (world_after (fun w p => fetch_stars_by_page false ctx w p) (save_my_stars ctx)
              1 pages w) (pages.length + 1) = Except.ok (err, lst, w1) →
        is_ok err = false →
        omg_sync_stars false ctx fuel w = Except.ok (err, w1) ∧
        w1.db = (world_after (fun w p => fetch_stars_by_page false ctx w p)
          (save_my_stars ctx) 1 pages w).db ∧
        requests w1.log = requests w.log ++ (List.range (pages.length + 1)).map
          (fun i => (GET_METHOD, stars_page_url false (1 + i)))) ∧
      (∀ (lst : List omg_star) (w1 : World),
        fetch_stars_by_page false ctx
            (world_after (fun w p => fetch_stars_by_page false ctx w p) (save_my_stars ctx)
              1 pages w) (pages.length + 1) = Except.ok (NO_ERROR, lst, w1) →
        is_ok (save_my_stars ctx w1 lst).1 = false →
        omg_sync_stars false ctx fuel w = Except.ok (save_my_stars ctx w1 lst) ∧
        requests (save_my_stars ctx w1 lst).2.log =
          requests w.log ++ (List.range (pages.length + 1)).map
            (fun i => (GET_METHOD, stars_page_url false (1 + i))) ∧
        (save_my_stars ctx w1 lst).2.db.omg_my_repo =
          (world_after (fun w p => fetch_stars_by_page false ctx w p) (save_my_stars ctx)
            1 pages w).db.omg_my_repo ∧
        (save_my_stars ctx w1 lst).2.db.omg_my_star =
          (world_after (fun w p => fetch_stars_by_page false ctx w p) (save_my_stars ctx)
            1 pages w).db.omg_my_star ∧
        (save_my_stars ctx w1 lst).2.db.omg_repo.filter (not_in_star_page lst) =
          (world_after (fun w p => fetch_stars_by_page false ctx w p) (save_my_stars ctx)
            1 pages w).db.omg_repo.filter (not_in_star_page lst) ∧
        ∀ v, v ∈ (world_after (fun w p => fetch_stars_by_page false ctx w p)
            (save_my_stars ctx) 1 pages w).db.omg_repo.map (fun row => row.id) →
          v ∈ (save_my_stars ctx w1 lst).2.db.omg_repo.map (fun row => row.id))) := by
  constructor
  · intro pages hbound hdone hfuel
    have hstop := sync_loop_stops (fun w p => fetch_repos_by_page false ctx w p)
      (save_my_repos ctx) pages 1 w fuel (by omega) hdone hfuel
    have hreq := world_after_requests (fun w p => fetch_repos_by_page false ctx w p)
      (save_my_repos ctx) (repos_page_url false)
      (fun w p r h => fetch_repos_by_page_world ctx w p r h)
      (save_my_repos_requests ctx) pages 1 w hdone
    have hidx : 1 + pages.length = pages.length + 1 := Nat.add_comm _ _
    rw [hidx] at hstop
    constructor
    · intro err lst w1 hf he
      have hw := fetch_repos_by_page_world ctx _ _ _ hf
      simp only at hw
      refine ⟨?_, by rw [hw], ?_⟩
      · unfold omg_sync_repos
        rw [omg_sync_repos_loop_eq]
        exact hstop.1 err lst w1 hf he
      · rw [hw]
        exact requests_snoc_range _ _ _ _ hreq
    · intro lst w1 hf he
      have hw := fetch_repos_by_page_world ctx _ _ _ hf
      simp only at hw
      obtain ⟨f1, f2, f3, f4⟩ := save_my_repos_failed ctx w1 lst he
      have hdb : w1.db = (world_after (fun w p => fetch_repos_by_page false ctx w p)
          (save_my_repos ctx) 1 pages w).db := by rw [hw]
      refine ⟨?_, ?_, by rw [f1, hdb], by rw [f2, hdb], by rw [f3, hdb],
        by rw [← hdb]; exact f4⟩
      · unfold omg_sync_repos
        rw [omg_sync_repos_loop_eq]
        exact hstop.2 lst w1 hf he
      · rw [save_my_repos_requests, hw]
        exact requests_snoc_range _ _ _ _ hreq
  · intro pages hbound hdone hfuel
    have hstop := sync_loop_stops (fun w p => fetch_stars_by_page false ctx w p)
      (save_my_stars ctx) pages 1 w fuel (by omega) hdone hfuel
    have hreq := world_after_requests (fun w p => fetch_stars_by_page false ctx w p)
      (save_my_stars ctx) (stars_page_url false)
      (fun w p r h => fetch_stars_by_page_world ctx w p r h)
      (save_my_stars_requests ctx) pages 1 w hdone
    have hidx : 1 + pages.length = pages.length + 1 := Nat.add_comm _ _
    rw [hidx] at hstop
    constructor
    · intro err lst w1 hf he
      have hw := fetch_stars_by_page_world ctx _ _ _ hf
      simp only at hw
      refine ⟨?_, by rw [hw], ?_⟩
      · unfold omg_sync_stars
        rw [omg_sync_stars_loop_eq]
        exact hstop.1 err lst w1 hf he
      · rw [hw]
        exact requests_snoc_range _ _ _ _ hreq
    · intro lst w1 hf he
      have hw := fetch_stars_by_page_world ctx _ _ _ hf
      simp only at hw
      obtain ⟨f1, f2, f3, f4⟩ := save_my_stars_failed ctx w1 lst he
      have hdb : w1.db = (world_after (fun w p => fetch_stars_by_page false ctx w p)
          (save_my_stars ctx) 1 pages w).db := by rw [hw]
      refine ⟨?_, ?_, by rw [f1, hdb], by rw [f2, hdb], by rw [f3, hdb],
        by rw [← hdb]; exact f4⟩
      · unfold omg_sync_stars
        rw [omg_sync_stars_loop_eq]
        exact hstop.2 lst w1 hf he
      · rw [save_my_stars_requests, hw]
        exact requests_snoc_range _ _ _ _ hreq

set_option maxRecDepth 100000 in
/-- C9, amended, on the remote whose second page repeats repository 0 and whose marker
statement of page 2 cannot be prepared: the sync returns the error of the save of page
2, after the requests of pages 1 and 2, and the hundred markers of page 1 are in
place. -/
theorem sync_stops_at_failing_page_witness :
    ∃ w1 : World,
      omg_sync_repos false recurring_ctx 2 fresh_world =
        Except.ok (save_my_repos recurring_ctx w1 [mock_repo_5_stars]) ∧
      is_ok (save_my_repos recurring_ctx w1 [mock_repo_5_stars]).1 = false ∧
      requests (save_my_repos recurring_ctx w1 [mock_repo_5_stars]).2.log =
        [(GET_METHOD, repos_page_url false 1), (GET_METHOD, repos_page_url false 2)] ∧
      (save_my_repos recurring_ctx w1 [mock_repo_5_stars]).2.db.omg_my_repo.length = 100 := by
  have hdone : pages_done (fun w p => fetch_repos_by_page false recurring_ctx w p)
      (save_my_repos recurring_ctx) 1 [mock_page 0 100] fresh_world :=
    ⟨_, rfl, by decide!, by decide!, trivial⟩
  have h := ((sync_stops_at_failing_page recurring_ctx fresh_world 2).1 [mock_page 0 100]
    (by decide) hdone (by decide)).2 [mock_repo_5_stars] _ rfl (by decide!)
  exact ⟨_, h.1, by decide!, by rw [h.2.1]; rfl, by rw [h.2.2.1]; decide!⟩

/-! ### Termination of the response buffer -/

/-- After a call of `mem_cb` whose reallocation succeeds, the byte at index `size` is
NUL. -/
theorem mem_cb_terminates (contents : List Byte) (size nmemb : Nat) (mem : response)
    (junk : Nat → Byte) (hc : contents.length = size * nmemb)
    (hfit : mem.size + contents.length + 1 < SIZE_MAX_PLUS_ONE)
    (hblk : mem.size ≤ (mem.memory.getD []).length) :
    ((mem_cb contents size nmemb mem (some junk)).2.memory.getD []).get?
      (mem_cb contents size nmemb mem (some junk)).2.size = some NUL := by
  rw [mem_cb_step contents size nmemb mem junk hc hfit hblk]
  simp only [Option.getD_some]
  have hlen : (List.take mem.size (mem.memory.getD []) ++ contents).length =
      mem.size + contents.length := by
    simp [List.length_take]; omega
  rw [List.get?_eq_getElem?, List.getElem?_append_right (by omega), hlen]
  simp

/-- C11, the code at the failing input. A response with status 200 and no body chunk:
the buffer is `malloc(1)` with size 0 and `mem_cb` is never called, so the byte at
index `size` is whatever `malloc` left (here `x`), not NUL; the text handed to
`json_loads` by `omg_request` and to the scraper by `omg_query_trending` is read from
that block and runs off it, it is not the empty string. After a `mem_cb` call whose
reallocation succeeds the byte at index `size` is NUL. -/
theorem response_buffer_unterminated_at_creation :
    ([(empty_body_ctx.curl [] GET_METHOD (repos_page_url false 1)).malloc1].get? 0
      = some 'x') ∧
    (curl_easy_perform (empty_body_ctx.curl [] GET_METHOD (repos_page_url false 1))
      { memory := some [(empty_body_ctx.curl [] GET_METHOD (repos_page_url false 1)).malloc1],
        size := 0 }).2.memory = some ['x'] ∧
    c_string ['x'] = none ∧
    omg_request empty_body_ctx fresh_world GET_METHOD (repos_page_url false 1) true =
      Except.error Fault.unterminated_read ∧
    omg_query_trending empty_body_ctx fresh_world (some "c") (some "daily") =
      Except.error Fault.unterminated_read ∧
    (∀ (contents : List Byte) (size nmemb : Nat) (mem : response) (junk : Nat → Byte),
      contents.length = size * nmemb →
      mem.size + contents.length + 1 < SIZE_MAX_PLUS_ONE →
      mem.size ≤ (mem.memory.getD []).length →
      ((mem_cb contents size nmemb mem (some junk)).2.memory.getD []).get?
        (mem_cb contents size nmemb mem (some junk)).2.size = some NUL) :=
  ⟨rfl, rfl, by decide, rfl, rfl, mem_cb_terminates⟩

/-! ### Numeric fields of the mapped records -/

theorem int_wrap_zero : int_wrap 0 = 0 := by decide

/-- The numeric fields of a record that `repo_from_json` returns, by key. -/
theorem repo_from_json_numbers (root : Option Json) (r : omg_repo)
    (h : repo_from_json root = Except.ok r) :
    r.id = int_wrap (json_integer_value (json_object_get root "id")) ∧
    r.stargazers_count = int_wrap (json_integer_value (json_object_get root "stargazers_count")) ∧
    r.watchers_count = int_wrap (json_integer_value (json_object_get root "watchers_count")) ∧
    r.forks_count = int_wrap (json_integer_value (json_object_get root "forks_count")) ∧
    r.size = int_wrap (json_integer_value (json_object_get root "size")) := by
  unfold repo_from_json at h
  simp only [bind, Except.bind, pure, Except.pure] at h
  iterate 8 (any_goals (split at h))
  all_goals (cases h <;> exact ⟨rfl, rfl, rfl, rfl, rfl⟩)

/-- The numeric fields of a record that `user_from_json` returns, by key. -/
theorem user_from_json_numbers (resp : Option Json) (u : omg_user)
    (h : user_from_json resp = Except.ok u) :
    u.private_repos = integer_or_default resp "total_private_repos" ∧
    u.private_gists = integer_or_default resp "private_gists" ∧
    u.disk_usage = integer_or_default resp "disk_usage" ∧
    u.id = int_wrap (json_integer_value (json_object_get resp "id")) ∧
    u.public_repos = int_wrap (json_integer_value (json_object_get resp "public_repos")) ∧
    u.public_gists = int_wrap (json_integer_value (json_object_get resp "public_gists")) ∧
    u.followers = int_wrap (json_integer_value (json_object_get resp "followers")) ∧
    u.following = int_wrap (json_integer_value (json_object_get resp "following")) := by
  unfold user_from_json at h
  simp only [bind, Except.bind, pure, Except.pure] at h
  iterate 9 (any_goals (split at h))
  all_goals (cases h <;> exact ⟨rfl, rfl, rfl, rfl, rfl, rfl, rfl, rfl⟩)

/-- The numeric fields of a record that `asset_from_json` returns, by key. -/
theorem asset_from_json_numbers (one_asset : Option Json) (a : omg_release_asset)
    (h : asset_from_json one_asset = Except.ok a) :
    a.id = int_wrap (json_integer_value (json_object_get one_asset "id")) ∧
    a.size = int_wrap (json_integer_value (json_object_get one_asset "size")) ∧
    a.download_count =
      int_wrap (json_integer_value (json_object_get one_asset "download_count")) := by
  unfold asset_from_json at h
  simp only [bind, Except.bind, pure, Except.pure] at h
  iterate 2 (any_goals (split at h))
  all_goals (cases h <;> exact ⟨rfl, rfl, rfl⟩)

/-- The id of a record that `release_from_json` returns, by key. -/
theorem release_from_json_numbers (one_release : Option Json) (r : omg_release)
    (h : release_from_json one_release = Except.ok r) :
    r.id = int_wrap (json_integer_value (json_object_get one_release "id")) := by
  unfold release_from_json at h
  simp only [bind, Except.bind, pure, Except.pure] at h
  iterate 6 (any_goals (split at h))
  all_goals (cases h <;> rfl)

theorem sprintf_url_stored (text url : String) (h : sprintf_url text = Except.ok url) :
    url = text ∧ text.length + 1 ≤ URL_LEN := by
  unfold sprintf_url at h
  split at h
  · rename_i hfit
    simp only [Except.ok.injEq] at h
    exact ⟨h.symm, hfit⟩
  · cases h

theorem sprintf_url_fits (text : String) (h : text.length + 1 ≤ URL_LEN) :
    sprintf_url text = Except.ok text := by
  simp [sprintf_url, h]

theorem sprintf_url_overrun (text : String) (h : URL_LEN < text.length + 1) :
    sprintf_url text = Except.error Fault.write_past_array := by
  have : ¬ text.length + 1 ≤ URL_LEN := by omega
  simp [sprintf_url, this]

/-- When `omg_whoami` returns a user, its URL fits the array, the request has returned
a document, the document has no `"message"` key and the user is its
`user_from_json`. -/
theorem omg_whoami_user (ctx : omg_context) (w : World) (username : Option String)
    (u : omg_user) (w' : World)
    (h : omg_whoami ctx w username = Except.ok (NO_ERROR, some u, w')) :
    ∃ (e : omg_error) (resp : Option Json) (w1 : World),
      omg_request ctx w GET_METHOD (whoami_url username) true = Except.ok (e, resp, w1) ∧
      json_object_get resp "message" = none ∧
      user_from_json resp = Except.ok u := by
  unfold omg_whoami at h
  simp only [bind, Except.bind, pure, Except.pure] at h
  cases hurl : sprintf_url (whoami_url username) with
  | error f => rw [hurl] at h; cases h
  | ok url =>
    rw [hurl] at h
    simp only at h
    obtain ⟨hu, _⟩ := sprintf_url_stored _ _ hurl
    subst hu
    cases hreq : omg_request ctx w GET_METHOD (whoami_url username) true with
    | error f => rw [hreq] at h; cases h
    | ok r =>
      rw [hreq] at h
      simp only at h
      by_cases hok : is_ok r.1 = true
      · simp only [hok, Bool.not_true, Bool.false_eq_true, if_false] at h
        cases hmsg : json_object_get r.2.1 "message" with
        | some msg =>
          rw [hmsg] at h
          simp only at h
          cases hcmp : strcmp_is_zero (json_string_value (some msg)) "Not Found" with
          | error f => rw [hcmp] at h; cases h
          | ok v =>
            rw [hcmp] at h
            simp only at h
            split at h <;>
              simp only [Except.ok.injEq, Prod.mk.injEq, false_and, and_false,
                reduceCtorEq] at h
        | none =>
          rw [hmsg] at h
          simp only at h
          cases huser : user_from_json r.2.1 with
          | error f => rw [huser] at h; cases h
          | ok user =>
            rw [huser] at h
            simp only [Except.ok.injEq, Prod.mk.injEq, Option.some.injEq] at h
            exact ⟨r.1, r.2.1, r.2.2, rfl, hmsg, by rw [huser, h.2.1]⟩
      · simp only [hok, Bool.not_false, if_true] at h
        simp only [Except.ok.injEq, Prod.mk.injEq, false_and, and_false, reduceCtorEq] at h

theorem json_integer_absent (obj : Option Json) (key : String)
    (h : json_object_get obj key = none) :
    int_wrap (json_integer_value (json_object_get obj key)) = 0 := by
  rw [h]; rfl

theorem integer_or_default_absent (obj : Option Json) (key : String)
    (h : json_object_get obj key = none) : integer_or_default obj key = -1 := by
  simp [integer_or_default, h]

/-- C12, as stated, fails. `omg_whoami` on a public profile, which has no `"message"`
key and none of the keys `"total_private_repos"`, `"private_gists"` and
`"disk_usage"`, returns a user whose `private_repos`, `private_gists` and `disk_usage`
are -1, not 0. -/
theorem omg_whoami_absent_private_counts :
    json_object_get (some public_user_json) "message" = none ∧
    json_object_get (some public_user_json) "total_private_repos" = none ∧
    json_object_get (some public_user_json) "private_gists" = none ∧
    json_object_get (some public_user_json) "disk_usage" = none ∧
    (omg_whoami public_user_ctx fresh_world (some "octocat")).map
        (fun r => (r.1, r.2.1.map
          (fun u => (u.private_repos, u.private_gists, u.disk_usage)))) =
      Except.ok (NO_ERROR, some (-1, -1, -1)) :=
  ⟨rfl, rfl, rfl, rfl, rfl⟩

/-- C12, amended. When `omg_whoami` returns a user, the request has returned a
document, and for the document that the request returns: it has no `"message"` key, the
user is its mapping, a missing `"total_private_repos"`, `"private_gists"` or
`"disk_usage"` key gives -1, the default of `integer_or_default`, in `private_repos`,
`private_gists` and `disk_usage` respectively, and a missing `"id"`, `"public_repos"`,
`"public_gists"`, `"followers"` or `"following"` key gives 0 in its field. The same holds
for every document that `user_from_json` maps to a user. The numeric fields of the
records of `repo_from_json`, `asset_from_json` and `release_from_json` are 0 when their
key is missing. -/
theorem numeric_fields_when_absent (ctx : omg_context) (w : World)
    (username : Option String) (u : omg_user) (w' : World)
    (h : omg_whoami ctx w username = Except.ok (NO_ERROR, some u, w')) :
    (∃ (e : omg_error) (resp : Option Json) (w1 : World),
      omg_request ctx w GET_METHOD (whoami_url username) true = Except.ok (e, resp, w1)) ∧
    (∀ (e : omg_error) (resp : Option Json) (w1 : World),
      omg_request ctx w GET_METHOD (whoami_url username) true = Except.ok (e, resp, w1) →
      json_object_get resp "message" = none ∧
      user_from_json resp = Except.ok u ∧
      (json_object_get resp "total_private_repos" = none → u.private_repos = -1) ∧
      (json_object_get resp "private_gists" = none → u.private_gists = -1) ∧
      (json_object_get resp "disk_usage" = none → u.disk_usage = -1) ∧
      (json_object_get resp "id" = none → u.id = 0) ∧
      (json_object_get resp "public_repos" = none → u.public_repos = 0) ∧
      (json_object_get resp "public_gists" = none → u.public_gists = 0) ∧
      (json_object_get resp "followers" = none → u.followers = 0) ∧
      (json_object_get resp "following" = none → u.following = 0)) ∧
    (∀ (resp : Option Json) (v : omg_user), user_from_json resp = Except.ok v →
      (json_object_get resp "total_private_repos" = none → v.private_repos = -1) ∧
      (json_object_get resp "private_gists" = none → v.private_gists = -1) ∧
      (json_object_get resp "disk_usage" = none → v.disk_usage = -1) ∧
      (json_object_get resp "id" = none → v.id = 0) ∧
      (json_object_get resp "public_repos" = none → v.public_repos = 0) ∧
      (json_object_get resp "public_gists" = none → v.public_gists = 0) ∧
      (json_object_get resp "followers" = none → v.followers = 0) ∧
      (json_object_get resp "following" = none → v.following = 0)) ∧
    (∀ (root : Option Json) (r : omg_repo), repo_from_json root = Except.ok r →
      (json_object_get root "id" = none → r.id = 0) ∧
      (json_object_get root "stargazers_count" = none → r.stargazers_count = 0) ∧
      (json_object_get root "watchers_count" = none → r.watchers_count = 0) ∧
      (json_object_get root "forks_count" = none → r.forks_count = 0) ∧
      (json_object_get root "size" = none → r.size = 0)) ∧
    (∀ (one_asset : Option Json) (a : omg_release_asset),
      asset_from_json one_asset = Except.ok a →
      (json_object_get one_asset "id" = none → a.id = 0) ∧
      (json_object_get one_asset "size" = none → a.size = 0) ∧
      (json_object_get one_asset "download_count" = none → a.download_count = 0)) ∧
    (∀ (one_release : Option Json) (r : omg_release),
      release_from_json one_release = Except.ok r →
      json_object_get one_release "id" = none → r.id = 0) := by
  have hmap : ∀ (resp : Option Json) (v : omg_user), user_from_json resp = Except.ok v →
      (json_object_get resp "total_private_repos" = none → v.private_repos = -1) ∧
      (json_object_get resp "private_gists" = none → v.private_gists = -1) ∧
      (json_object_get resp "disk_usage" = none → v.disk_usage = -1) ∧
      (json_object_get resp "id" = none → v.id = 0) ∧
      (json_object_get resp "public_repos" = none → v.public_repos = 0) ∧
      (json_object_get resp "public_gists" = none → v.public_gists = 0) ∧
      (json_object_get resp "followers" = none → v.followers = 0) ∧
      (json_object_get resp "following" = none → v.following = 0) := by
    intro resp v hv
    obtain ⟨h1, h2, h3, h4, h5, h6, h7, h8⟩ := user_from_json_numbers resp v hv
    exact ⟨fun k => by rw [h1, integer_or_default_absent _ _ k],
      fun k => by rw [h2, integer_or_default_absent _ _ k],
      fun k => by rw [h3, integer_or_default_absent _ _ k],
      fun k => by rw [h4, json_integer_absent _ _ k],
      fun k => by rw [h5, json_integer_absent _ _ k],
      fun k => by rw [h6, json_integer_absent _ _ k],
      fun k => by rw [h7, json_integer_absent _ _ k],
      fun k => by rw [h8, json_integer_absent _ _ k]⟩
  obtain ⟨e0, resp0, w0, hreq0, hmsg0, huser0⟩ := omg_whoami_user ctx w username u w' h
  refine ⟨⟨e0, resp0, w0, hreq0⟩, ?_, hmap, ?_, ?_, ?_⟩
  · intro e resp w1 hreq
    rw [hreq0] at hreq
    simp only [Except.ok.injEq, Prod.mk.injEq] at hreq
    obtain ⟨_, hresp, _⟩ := hreq
    subst hresp
    exact ⟨hmsg0, huser0, hmap _ _ huser0⟩
  · intro root r hr
    obtain ⟨h1, h2, h3, h4, h5⟩ := repo_from_json_numbers root r hr
    exact ⟨fun k => by rw [h1, json_integer_absent _ _ k],
      fun k => by rw [h2, json_integer_absent _ _ k],
      fun k => by rw [h3, json_integer_absent _ _ k],
      fun k => by rw [h4, json_integer_absent _ _ k],
      fun k => by rw [h5, json_integer_absent _ _ k]⟩
  · intro one_asset a ha
    obtain ⟨h1, h2, h3⟩ := asset_from_json_numbers one_asset a ha
    exact ⟨fun k => by rw [h1, json_integer_absent _ _ k],
      fun k => by rw [h2, json_integer_absent _ _ k],
      fun k => by rw [h3, json_integer_absent _ _ k]⟩
  · intro one_release r hr k
    rw [release_from_json_numbers one_release r hr, json_integer_absent _ _ k]

/-- C12, amended, on the public profile: the request returns the document
`public_user_json`, which has none of the three keys and no `"id"` key; `omg_whoami`
returns a user, and by the theorem its `private_repos`, `private_gists` and
`disk_usage` are -1. -/
theorem numeric_fields_when_absent_witness :
    ∃ (u : omg_user) (w' : World),
      omg_whoami public_user_ctx fresh_world (some "octocat") =
        Except.ok (NO_ERROR, some u, w') ∧
      omg_request public_user_ctx fresh_world GET_METHOD (whoami_url (some "octocat")) true =
        Except.ok (NO_ERROR, some public_user_json, w') ∧
      json_object_get (some public_user_json) "total_private_repos" = none ∧
      u.private_repos = -1 ∧ u.private_gists = -1 ∧ u.disk_usage = -1 ∧
      u.public_repos = 8 := by
  have hrun : ∃ (u : omg_user) (w' : World),
      omg_whoami public_user_ctx fresh_world (some "octocat") =
        Except.ok (NO_ERROR, some u, w') ∧
      omg_request public_user_ctx fresh_world GET_METHOD (whoami_url (some "octocat")) true =
        Except.ok (NO_ERROR, some public_user_json, w') ∧
      u.public_repos = 8 := ⟨_, _, rfl, rfl, rfl⟩
  obtain ⟨u, w', hw, hreq, hpub⟩ := hrun
  obtain ⟨_, hdoc, _⟩ :=
    numeric_fields_when_absent public_user_ctx fresh_world (some "octocat") u w' hw
  obtain ⟨_, _, h1, h2, h3, _⟩ := hdoc _ _ _ hreq
  exact ⟨u, w', hw, hreq, rfl, h1 rfl, h2 rfl, h3 rfl, hpub⟩

/-! ### Nested optional objects -/

/-- The accessor `json_object_get` on a JSON `null` parent gives `NULL` for every
key. -/
theorem json_object_get_of_null (key : String) :
    json_object_get (some Json.null) key = none := rfl

/-- A parent that is JSON `null`, or `NULL`, makes `dup_json_string` hand `NULL` to
`strdup`. -/
theorem dup_json_string_null_parent (key : String) :
    dup_json_string (some Json.null) key = Except.error Fault.strdup_null ∧
    dup_json_string none key = Except.error Fault.strdup_null :=
  ⟨rfl, rfl⟩

/-- C13, the code at the failing inputs. The mappings of `omg_query_commits` and
`omg_query_releases` read the sub-fields of a parent without testing whether the
parent is JSON `null`: for a commit element with `"commit": null`, for one with
`"author": null` inside `"commit"`, and for a release element with `"author": null`,
`json_object_get` on the `null` parent gives `NULL`, `dup_json_string` calls
`strdup(NULL)`, and no record is returned. `repo_from_json` does test its parent: with
`"license": null` it returns a record whose license is absent. -/
theorem nested_null_parent_faults :
    json_object_get (some commit_null_json) "commit" = some Json.null ∧
    commit_from_json (some commit_null_json) = Except.error Fault.strdup_null ∧
    json_object_get (json_object_get (some commit_author_null_json) "commit") "author" =
      some Json.null ∧
    commit_from_json (some commit_author_null_json) = Except.error Fault.strdup_null ∧
    json_object_get (some release_author_null_json) "author" = some Json.null ∧
    release_from_json (some release_author_null_json) = Except.error Fault.strdup_null ∧
    json_object_get (some json_with_null_homepage) "license" = some Json.null ∧
    (repo_from_json (some json_with_null_homepage)).map (fun r => r.license) =
      Except.ok none :=
  ⟨rfl, rfl, rfl, rfl, rfl, rfl, rfl, rfl⟩

/-! ### The text of the query -/

theorem empty_string_iff (s : Option String) : empty_string s = true ↔ s.getD "" = "" := by
  cases s with
  | none => simp [empty_string]
  | some str =>
    simp only [empty_string, Option.getD_some, decide_eq_true_eq]
    constructor
    · intro h
      exact String.ext (List.length_eq_zero.mp h.symm)
    · intro h
      rw [h]; rfl

/-- The text that the appending steps are meant to compose is the text of the
specification. -/
theorem composed_sql_eq_query_text (is_star : Bool) (keyword language : Option String) :
    composed_sql is_star keyword language =
      query_text is_star (keyword.getD "") (language.getD "") := by
  have hk := empty_string_iff keyword
  have hl := empty_string_iff language
  unfold composed_sql query_text
  apply String.ext
  cases is_star <;> by_cases h1 : keyword.getD "" = "" <;> by_cases h2 : language.getD "" = ""
  all_goals
    simp only [hk.mpr, hl.mpr, h1, h2, if_true, if_false, Bool.not_true, Bool.false_eq_true,
      show ∀ s, ¬ s.getD "" = "" → empty_string s = false from
        fun s hs => by
          cases he : empty_string s
          · rfl
          · exact absurd ((empty_string_iff s).mp he) hs,
      not_false_eq_true, Bool.not_false, query_select_text, keyword_clause, language_clause,
      order_by_clause, String.data_append, List.append_assoc]
  all_goals rfl

/-- The sort order alone is not the text of the specification. -/
theorem order_by_clause_ne_query_text (is_star : Bool) (keyword language : Option String) :
    order_by_clause is_star ≠ query_text is_star (keyword.getD "") (language.getD "") := by
  intro h
  have hlen := congrArg String.length h
  rw [← composed_sql_eq_query_text, composed_sql_length, order_by_clause_length] at hlen
  cases is_star <;> simp at hlen

set_option maxRecDepth 100000 in
/-- C14, the code at work. The three appending steps of `prepare_query_sql` are
`sprintf(sql, "%s...", sql, ...)`, copies between overlapping objects: on a C library
for which such a copy is undefined the function has no defined result, for every kind,
keyword and language; on a C library that empties the destination first whatever it
returns is the preparation of the sort order alone, which is not the text of the
specification, and with both filters absent it does return that; only on a C library
that appends in place, and when the text fits the block with its NUL, is the text it
prepares and stores the text of the specification: the fixed select over the view of
the kind, the keyword clause if and only if the keyword is not empty, the language
clause if and only if the language is not empty, and the sort order of the kind; with both filters absent (`NULL` or empty) that text
is the select followed directly by the sort order. -/
theorem prepare_query_sql_text (ctx : omg_context) (w : World) (is_star : Bool)
    (keyword language : Option String) :
    (ctx.libc_sprintf_overlap = sprintf_overlap.undefined →
      prepare_query_sql ctx w is_star keyword language =
        Except.error Fault.overlapping_copy) ∧
    (ctx.libc_sprintf_overlap = sprintf_overlap.erased →
      (∀ r : omg_error × Option String × World,
        prepare_query_sql ctx w is_star keyword language = Except.ok r →
        r = prepare_query_sql_tail ctx w (order_by_clause is_star)) ∧
      (empty_string keyword = true → empty_string language = true →
        prepare_query_sql ctx w is_star keyword language =
          Except.ok (prepare_query_sql_tail ctx w (order_by_clause is_star)))) ∧
    order_by_clause is_star ≠ query_text is_star (keyword.getD "") (language.getD "") ∧
    (ctx.libc_sprintf_overlap = sprintf_overlap.in_place →
      (query_text is_star (keyword.getD "") (language.getD "")).length + 1 ≤
        SQL_DEFAULT_LEN →
      ctx.prepare_fails w.log = false →
      prepare_query_sql ctx w is_star keyword language =
        Except.ok (NO_ERROR, some (query_text is_star (keyword.getD "") (language.getD "")),
          { db := w.db,
            log := w.log ++ [Event.prepare
              (query_text is_star (keyword.getD "") (language.getD "")) true] })) ∧
    (ctx.libc_sprintf_overlap = sprintf_overlap.in_place →
      ∀ (e : omg_error) (sql : String) (w' : World),
        prepare_query_sql ctx w is_star keyword language = Except.ok (e, some sql, w') →
        sql = query_text is_star (keyword.getD "") (language.getD "")) ∧
    (empty_string keyword = true → empty_string language = true →
      query_text is_star (keyword.getD "") (language.getD "") =
        query_text is_star "" "" ∧
      query_text true "" "" =
        "select datetime(starred_at, 'localtime') as starred_at,id,full_name,description," ++
        "private,datetime(created_at, 'localtime'),license,datetime(pushed_at, 'localtime')," ++
        "stargazers_count,watchers_count,forks_count,lang,homepage,`size` " ++
        "from omg_my_star_view where 1 order by starred_at desc" ∧
      query_text false "" "" =
        "select 1,id,full_name,description," ++
        "private,datetime(created_at, 'localtime'),license,datetime(pushed_at, 'localtime')," ++
        "stargazers_count,watchers_count,forks_count,lang,homepage,`size` " ++
        "from omg_my_repo_view where 1 order by created_at desc") ∧
    prepare_query_sql iso_c_ctx fresh_world false none none =
      Except.error Fault.overlapping_copy ∧
    prepare_query_sql fortified_query_ctx fresh_world false none none =
      Except.ok ({ code := omg_code.OMG_CODE_DB,
                   message := some "near \"order\": syntax error" }, none,
        { db := empty_db, log := [Event.prepare " order by created_at desc" false] }) ∧
    (prepare_query_sql mock_ctx fresh_world true (some "lean") (some "C")).map
        (fun r => (r.1, r.2.1)) =
      Except.ok (NO_ERROR, some (
        "select datetime(starred_at, 'localtime') as starred_at,id,full_name,description," ++
        "private,datetime(created_at, 'localtime'),license,datetime(pushed_at, 'localtime')," ++
        "stargazers_count,watchers_count,forks_count,lang,homepage,`size` " ++
        "from omg_my_star_view where 1 and (full_name like '%lean%' COLLATE NOCASE " ++
        "or description like '%lean%' COLLATE NOCASE) and lang='C' COLLATE NOCASE " ++
        "order by starred_at desc")) := by
  have hc := composed_sql_eq_query_text is_star keyword language
  refine ⟨prepare_query_sql_undefined ctx w is_star keyword language, ?_,
    order_by_clause_ne_query_text is_star keyword language, ?_, ?_, ?_, rfl, rfl, ?_⟩
  · intro hlibc
    refine ⟨?_, ?_⟩
    · intro r hr
      obtain ⟨sql, _, hval, _, _, _, her⟩ :=
        prepare_query_sql_returns ctx w is_star keyword language r hr
      rw [hval, her hlibc]
    · intro hk hl
      exact prepare_query_sql_erased ctx w is_star keyword language hlibc (Or.inl hk)
        (Or.inl hl)
  · intro hlibc hfit hprep
    rw [← hc] at hfit ⊢
    rw [prepare_query_sql_in_place_fits ctx w is_star keyword language hlibc hfit,
      prepare_query_sql_tail_prepared ctx w _ (Nat.le_of_succ_le hfit) hprep]
  · intro hlibc e sql w' hr
    obtain ⟨sql', _, hval, hnd, _, hin, _⟩ :=
      prepare_query_sql_returns ctx w is_star keyword language _ hr
    rw [← hc, ← hin hlibc]
    unfold prepare_query_sql_tail at hval
    rw [if_neg hnd] at hval
    simp only at hval
    split at hval
    · simp at hval
    · simp only [Prod.mk.injEq, Option.some.injEq] at hval
      exact hval.2.1
  · intro hk hl
    rw [(empty_string_iff keyword).mp hk, (empty_string_iff language).mp hl]
    exact ⟨rfl, by decide!, by decide!⟩
  · rfl

/-! ### Unstar -/

theorem unstar_key_of_small (repo_id : Nat) (h : repo_id < 9223372036854775808) :
    unstar_key repo_id = SqlValue.integer repo_id := by
  show SqlValue.integer (((repo_id : Int) + 9223372036854775808) % 18446744073709551616
      - 9223372036854775808) = SqlValue.integer repo_id
  exact congrArg SqlValue.integer (by omega)

/-- A table with unique ids holds exactly one row of an id it holds. -/
theorem one_row_of_id (t : List repo_row) (v : SqlValue)
    (hkeys : (t.map (fun r => r.id)).Nodup) (hrow : ∃ row ∈ t, row.id = v) :
    ∃ row ∈ t, row.id = v ∧ t.filter (fun r => decide (r.id = v)) = [row] := by
  induction t with
  | nil => obtain ⟨row, hmem, _⟩ := hrow; cases hmem
  | cons x xs ih =>
    simp only [List.map_cons, List.nodup_cons] at hkeys
    by_cases hx : x.id = v
    · have hnone : xs.filter (fun r => decide (r.id = v)) = [] := by
        rw [List.filter_eq_nil_iff]
        intro y hy
        simp only [decide_eq_true_eq]
        intro hyv
        exact hkeys.1 (List.mem_map.mpr ⟨y, hy, by rw [hyv, hx]⟩)
      exact ⟨x, List.mem_cons_self _ _, hx, by simp [List.filter_cons, hx, hnone]⟩
    · obtain ⟨row, hmem, hid⟩ := hrow
      have hin : row ∈ xs := by
        rcases List.mem_cons.mp hmem with h | h
        · subst h; exact absurd hid hx
        · exact h
      obtain ⟨r, hr, hrid, hf⟩ := ih hkeys.2 ⟨row, hin, hid⟩
      refine ⟨r, List.mem_cons_of_mem _ hr, hrid, ?_⟩
      simp only [List.filter_cons, hx, decide_False, Bool.false_eq_true, if_false]
      exact hf

/-- When the select finds one row and the row store fails none of the calls,
`omg_unstar` deletes the star rows of the id, formats the URL of the row into its
array and hands it to `omg_request`, with no output slot. -/
theorem omg_unstar_run (ctx : omg_context) (w : World) (repo_id : Nat) (row : repo_row)
    (hone : w.db.omg_repo.filter (fun r => decide (r.id = unstar_key repo_id)) = [row])
    (hstore : unstar_store_ok ctx w repo_id) :
    omg_unstar ctx w repo_id =
      (match sprintf_url
          (unstar_url (strdup_when_not_null (sqlite3_column_text [row.full_name] 0))) with
        | Except.error f => Except.error f
        | Except.ok url =>
          match omg_request ctx
            { db := { w.db with omg_my_star :=
                exec_unstar_delete (sqlite3_bind_int64 no_bindings 1 repo_id) w.db.omg_my_star },
              log := w.log ++ unstar_events repo_id }
            DELETE_METHOD url false with
          | Except.error f => Except.error f
          | Except.ok r => Except.ok (r.1, r.2.2)) := by
  obtain ⟨h1, h2, h3, h4, h5⟩ := hstore
  simp only [unstar_events, List.take_succ_cons, List.take_zero] at h2 h3 h4 h5
  have hsel : exec_unstar_select (sqlite3_bind_int64 no_bindings 1 repo_id) w.db.omg_repo
      = [row.full_name] := by
    show (w.db.omg_repo.filter (fun r => decide (r.id = unstar_key repo_id))).map
      (fun r => r.full_name) = [row.full_name]
    rw [hone]; rfl
  have hpar : params (sqlite3_bind_int64 no_bindings 1 repo_id) 1 = [unstar_key repo_id] := rfl
  simp [omg_unstar, sqlite3_prepare_v2, sqlite3_step_select, sqlite3_step_write, h1, h2, h3,
    h4, h5, hsel, hpar, unstar_events]

/-- C15. For every store state with unique repository ids, every repository id that
has a repository row and every row store that fails none of the calls of the run,
`omg_unstar` executes its local delete and goes on to the remote request from a world
`wd` in which there is no star row with that repo id, the repository table and the
marker table are unchanged (the repository row is kept), and the star rows of every
other repo id are unchanged, in the same order; what follows is the formatting of the
URL of the full name of that row and its DELETE request, and a returned world has the
database of `wd`. -/
theorem omg_unstar_deletes_star_only (ctx : omg_context) (w : World) (repo_id : Nat)
    (hkeys : (w.db.omg_repo.map (fun r => r.id)).Nodup)
    (hrow : ∃ row ∈ w.db.omg_repo, row.id = unstar_key repo_id)
    (hstore : unstar_store_ok ctx w repo_id) :
    ∃ (wd : World) (row : repo_row),
      omg_unstar ctx w repo_id =
        (match sprintf_url
            (unstar_url (strdup_when_not_null (sqlite3_column_text [row.full_name] 0))) with
          | Except.error f => Except.error f
          | Except.ok url =>
            match omg_request ctx wd DELETE_METHOD url false with
            | Except.error f => Except.error f
            | Except.ok r => Except.ok (r.1, r.2.2)) ∧
      row ∈ w.db.omg_repo ∧ row.id = unstar_key repo_id ∧
      wd.log = w.log ++ unstar_events repo_id ∧
      wd.db.omg_repo = w.db.omg_repo ∧
      wd.db.omg_my_repo = w.db.omg_my_repo ∧
      (∀ s ∈ wd.db.omg_my_star, s.repo_id ≠ unstar_key repo_id) ∧
      (∀ s : my_star_row, s.repo_id ≠ unstar_key repo_id →
        (s ∈ wd.db.omg_my_star ↔ s ∈ w.db.omg_my_star)) ∧
      wd.db.omg_my_star =
        w.db.omg_my_star.filter (fun s => !decide (s.repo_id = unstar_key repo_id)) ∧
      (∀ (e : omg_error) (w' : World), omg_unstar ctx w repo_id = Except.ok (e, w') →
        w'.db = wd.db) ∧
      (repo_id < 9223372036854775808 → unstar_key repo_id = SqlValue.integer repo_id) := by
  obtain ⟨row, hmem, hid, hone⟩ := one_row_of_id w.db.omg_repo (unstar_key repo_id) hkeys hrow
  have hrun := omg_unstar_run ctx w repo_id row hone hstore
  refine ⟨_, row, hrun, hmem, hid, rfl, rfl, rfl, ?_, ?_, rfl, ?_,
    unstar_key_of_small repo_id⟩
  · intro s hs'
    simp only [exec_unstar_delete, List.mem_filter, Bool.not_eq_true',
      decide_eq_false_iff_not] at hs'
    exact hs'.2
  · intro s hne
    simp only [exec_unstar_delete, List.mem_filter, Bool.not_eq_true',
      decide_eq_false_iff_not]
    exact ⟨fun h => h.1, fun h => ⟨h, hne⟩⟩
  · intro e w' hret
    rw [hrun] at hret
    split at hret
    · cases hret
    · split at hret
      · cases hret
      · rename_i r hreq
        have hw := omg_request_world ctx _ _ _ _ r hreq
        simp only [Except.ok.injEq, Prod.mk.injEq] at hret
        rw [← hret.2, hw]

/-- Witness of C15: unstarring repository 7 in a store that holds the repositories 7
and 8, both starred, against a remote that answers 204: the call returns OK and the
star of repository 8 is the only one left. -/
theorem omg_unstar_deletes_star_only_witness :
    (starred_world.db.omg_repo.map (fun r => r.id)).Nodup ∧
    (∃ row ∈ starred_world.db.omg_repo, row.id = unstar_key 7) ∧
    unstar_store_ok no_content_ctx starred_world 7 ∧
    omg_unstar no_content_ctx starred_world 7 = Except.ok (NO_ERROR,
      { db := { starred_world.db with
                omg_my_star := [{ starred_at := SqlValue.text "2021-01-01T00:00:00Z",
                                  repo_id := SqlValue.integer 8 }] },
        log := unstar_events 7 ++
          [Event.request DELETE_METHOD (unstar_url (some "octocat/Hello-World"))] }) ∧
    ∃ (wd : World) (row : repo_row),
      omg_unstar no_content_ctx starred_world 7 =
        (match sprintf_url
            (unstar_url (strdup_when_not_null (sqlite3_column_text [row.full_name] 0))) with
          | Except.error f => Except.error f
          | Except.ok url =>
            match omg_request no_content_ctx wd DELETE_METHOD url false with
            | Except.error f => Except.error f
            | Except.ok r => Except.ok (r.1, r.2.2)) ∧
      wd.db.omg_repo = starred_world.db.omg_repo ∧
      (∀ s ∈ wd.db.omg_my_star, s.repo_id ≠ unstar_key 7) :=
  have hk : (starred_world.db.omg_repo.map (fun r => r.id)).Nodup := by decide
  have hr : ∃ row ∈ starred_world.db.omg_repo, row.id = unstar_key 7 :=
    ⟨mock_repo_row 7 "octocat/Hello-World", by decide, by decide⟩
  have hs : unstar_store_ok no_content_ctx starred_world 7 := ⟨rfl, rfl, rfl, rfl, rfl⟩
  ⟨hk, hr, hs, rfl,
    (omg_unstar_deletes_star_only no_content_ctx starred_world 7 hk hr hs).imp
      (fun _ h => h.imp (fun _ h' => ⟨h'.1, h'.2.2.2.2.1, h'.2.2.2.2.2.2.1⟩))⟩

/-! ### Row-level failures -/

/-- A row loop that steps the statement once per row and goes on whatever the
outcome attempts every row in order and stores the rows whose write succeeds. -/
theorem row_loop_attempts {α : Type} (ctx : omg_context) (sql : String)
    (ps : α → List SqlValue) (store : sqlite3 → α → sqlite3)
    (loop : List α → World → World)
    (hnil : ∀ w, loop [] w = w)
    (hcons : ∀ x rest w, loop (x :: rest) w =
      loop rest (sqlite3_step_write ctx w sql (ps x) (fun db => store db x)).2) :
    ∀ (l : List α) (w : World), ∃ ev : List Event,
      (loop l w).log = w.log ++ ev ∧
      attempts_every_row ctx sql ps w.log l ev ∧
      (loop l w).db = (stored_rows l ev).foldl store w.db := by
  intro l
  induction l with
  | nil =>
    intro w
    refine ⟨[], by simp [hnil], ⟨rfl, ?_⟩, by simp [hnil, stored_rows]⟩
    intro i x hx
    simp at hx
  | cons x rest ih =>
    intro w
    obtain ⟨ev, hlog, ⟨hlen, hat⟩, hdb⟩ :=
      ih (sqlite3_step_write ctx w sql (ps x) (fun db => store db x)).2
    by_cases hf : ctx.step_fails w.log = true
    · have hw : (sqlite3_step_write ctx w sql (ps x) (fun db => store db x)).2 =
          { db := w.db, log := w.log ++ [Event.step sql (ps x) false] } := by
        simp [sqlite3_step_write, hf]
      rw [hw] at hlog hat hdb
      refine ⟨Event.step sql (ps x) false :: ev, ?_, ⟨by simp [hlen], ?_⟩, ?_⟩
      · rw [hcons, hw, hlog]; simp
      · intro i y hy
        cases i with
        | zero =>
          simp only [List.get?_cons_zero, Option.some.injEq] at hy
          subst hy
          simp [hf]
        | succ i =>
          simp only [List.get?_cons_succ] at hy
          have := hat i y hy
          simpa [List.append_assoc] using this
      · rw [hcons, hw, hdb]
        simp [stored_rows, List.zip_cons_cons, List.filter_cons, step_done]
    · have hf' : ctx.step_fails w.log = false := by simpa using hf
      have hw : (sqlite3_step_write ctx w sql (ps x) (fun db => store db x)).2 =
          { db := store w.db x, log := w.log ++ [Event.step sql (ps x) true] } := by
        simp [sqlite3_step_write, hf']
      rw [hw] at hlog hat hdb
      refine ⟨Event.step sql (ps x) true :: ev, ?_, ⟨by simp [hlen], ?_⟩, ?_⟩
      · rw [hcons, hw, hlog]; simp
      · intro i y hy
        cases i with
        | zero =>
          simp only [List.get?_cons_zero, Option.some.injEq] at hy
          subst hy
          simp [hf']
        | succ i =>
          simp only [List.get?_cons_succ] at hy
          have := hat i y hy
          simpa [List.append_assoc] using this
      · rw [hcons, hw, hdb]
        simp [stored_rows, List.zip_cons_cons, List.filter_cons, step_done]

theorem save_repos_loop_attempts (ctx : omg_context) (l : List omg_repo) (w : World) :
    ∃ ev : List Event,
      (save_repos_loop ctx l w).log = w.log ++ ev ∧
      attempts_every_row ctx SQL_SAVE_REPOS repo_params w.log l ev ∧
      (save_repos_loop ctx l w).db = (stored_rows l ev).foldl store_repo w.db :=
  row_loop_attempts ctx SQL_SAVE_REPOS repo_params store_repo (save_repos_loop ctx)
    (fun _ => rfl) (fun _ _ _ => rfl) l w

theorem save_my_repos_loop_attempts (ctx : omg_context) (l : List omg_repo) (w : World) :
    ∃ ev : List Event,
      (save_my_repos_loop ctx l w).log = w.log ++ ev ∧
      attempts_every_row ctx SQL_SAVE_MY_REPOS my_repo_params w.log l ev ∧
      (save_my_repos_loop ctx l w).db = (stored_rows l ev).foldl store_my_repo w.db :=
  row_loop_attempts ctx SQL_SAVE_MY_REPOS my_repo_params store_my_repo
    (save_my_repos_loop ctx) (fun _ => rfl) (fun _ _ _ => rfl) l w

theorem save_my_stars_loop_attempts (ctx : omg_context) (l : List omg_star) (w : World) :
    ∃ ev : List Event,
      (save_my_stars_loop ctx l w).log = w.log ++ ev ∧
      attempts_every_row ctx SQL_SAVE_MY_STARS my_star_params w.log l ev ∧
      (save_my_stars_loop ctx l w).db = (stored_rows l ev).foldl store_my_star w.db :=
  row_loop_attempts ctx SQL_SAVE_MY_STARS my_star_params store_my_star
    (save_my_stars_loop ctx) (fun _ => rfl) (fun _ _ _ => rfl) l w

/-- C16. For every row store that prepares the statements, every pattern of per-row
write failures (`ctx.step_fails` is arbitrary), every world and every batch,
`save_repos`, `save_my_repos` and `save_my_stars` return OK, and the calls they add to
the log are the prepare of each statement followed by one `sqlite3_step` per row of
the batch, in the order of the batch, each with the parameters of its row and with the
outcome the row store gives at that moment; the database they leave is the one in
which exactly the rows whose write succeeded have been stored, in that order. -/
theorem batch_survives_row_failures (ctx : omg_context) (w : World)
    (repo_lst : List omg_repo) (star_lst : List omg_star)
    (hp : ∀ log, ctx.prepare_fails log = false) :
    (∃ ev : List Event,
      (save_repos ctx w repo_lst).1 = NO_ERROR ∧
      (save_repos ctx w repo_lst).2.log = w.log ++ Event.prepare SQL_SAVE_REPOS true :: ev ∧
      attempts_every_row ctx SQL_SAVE_REPOS repo_params
        (w.log ++ [Event.prepare SQL_SAVE_REPOS true]) repo_lst ev ∧
      (save_repos ctx w repo_lst).2.db = (stored_rows repo_lst ev).foldl store_repo w.db) ∧
    (∃ ev1 ev2 : List Event,
      (save_my_repos ctx w repo_lst).1 = NO_ERROR ∧
      (save_my_repos ctx w repo_lst).2.log =
        w.log ++ Event.prepare SQL_SAVE_REPOS true :: ev1 ++
          Event.prepare SQL_SAVE_MY_REPOS true :: ev2 ∧
      attempts_every_row ctx SQL_SAVE_REPOS repo_params
        (w.log ++ [Event.prepare SQL_SAVE_REPOS true]) repo_lst ev1 ∧
      attempts_every_row ctx SQL_SAVE_MY_REPOS my_repo_params
        (w.log ++ Event.prepare SQL_SAVE_REPOS true :: ev1 ++
          [Event.prepare SQL_SAVE_MY_REPOS true]) repo_lst ev2 ∧
      (save_my_repos ctx w repo_lst).2.db =
        (stored_rows repo_lst ev2).foldl store_my_repo
          ((stored_rows repo_lst ev1).foldl store_repo w.db)) ∧
    (∃ ev1 ev2 : List Event,
      (save_my_stars ctx w star_lst).1 = NO_ERROR ∧
      (save_my_stars ctx w star_lst).2.log =
        w.log ++ Event.prepare SQL_SAVE_REPOS true :: ev1 ++
          Event.prepare SQL_SAVE_MY_STARS true :: ev2 ∧
      attempts_every_row ctx SQL_SAVE_REPOS repo_params
        (w.log ++ [Event.prepare SQL_SAVE_REPOS true])
        (star_lst.map (fun star => star.repo)) ev1 ∧
      attempts_every_row ctx SQL_SAVE_MY_STARS my_star_params
        (w.log ++ Event.prepare SQL_SAVE_REPOS true :: ev1 ++
          [Event.prepare SQL_SAVE_MY_STARS true]) star_lst ev2 ∧
      (save_my_stars ctx w star_lst).2.db =
        (stored_rows star_lst ev2).foldl store_my_star
          ((stored_rows (star_lst.map (fun star => star.repo)) ev1).foldl store_repo w.db)) := by
  have hsave : ∀ l : List omg_repo, save_repos ctx w l =
      (NO_ERROR, save_repos_loop ctx l
        { db := w.db, log := w.log ++ [Event.prepare SQL_SAVE_REPOS true] }) := by
    intro l
    simp [save_repos, sqlite3_prepare_v2, hp]
  have hok : is_ok NO_ERROR = true := rfl
  refine ⟨?_, ?_, ?_⟩
  · obtain ⟨ev, hlog, hat, hdb⟩ := save_repos_loop_attempts ctx repo_lst
      { db := w.db, log := w.log ++ [Event.prepare SQL_SAVE_REPOS true] }
    refine ⟨ev, by rw [hsave], ?_, hat, ?_⟩
    · rw [hsave]; simpa using hlog
    · rw [hsave]; exact hdb
  · obtain ⟨ev1, hlog1, hat1, hdb1⟩ := save_repos_loop_attempts ctx repo_lst
      { db := w.db, log := w.log ++ [Event.prepare SQL_SAVE_REPOS true] }
    have hrun : save_my_repos ctx w repo_lst = (NO_ERROR, save_my_repos_loop ctx repo_lst
        { db := (save_repos_loop ctx repo_lst
            { db := w.db, log := w.log ++ [Event.prepare SQL_SAVE_REPOS true] }).db,
          log := (save_repos_loop ctx repo_lst
            { db := w.db, log := w.log ++ [Event.prepare SQL_SAVE_REPOS true] }).log ++
              [Event.prepare SQL_SAVE_MY_REPOS true] }) := by
      simp [save_my_repos, hsave, hok, sqlite3_prepare_v2, hp]
    generalize save_repos_loop ctx repo_lst
      { db := w.db, log := w.log ++ [Event.prepare SQL_SAVE_REPOS true] } = w1
      at hrun hlog1 hdb1
    obtain ⟨ev2, hlog2, hat2, hdb2⟩ := save_my_repos_loop_attempts ctx repo_lst
      { db := w1.db, log := w1.log ++ [Event.prepare SQL_SAVE_MY_REPOS true] }
    simp only [] at hlog1 hlog2 hat2 hdb2
    refine ⟨ev1, ev2, by rw [hrun], ?_, hat1, ?_, ?_⟩
    · rw [hrun]
      show _ = _
      rw [hlog2, hlog1]
      simp [List.append_assoc]
    · rw [hlog1] at hat2
      simpa [List.append_assoc] using hat2
    · rw [hrun]
      show _ = _
      rw [hdb2, hdb1]
  · obtain ⟨ev1, hlog1, hat1, hdb1⟩ := save_repos_loop_attempts ctx (star_lst.map (fun star => star.repo))
      { db := w.db, log := w.log ++ [Event.prepare SQL_SAVE_REPOS true] }
    have hrun : save_my_stars ctx w star_lst = (NO_ERROR, save_my_stars_loop ctx star_lst
        { db := (save_repos_loop ctx (star_lst.map (fun star => star.repo))
            { db := w.db, log := w.log ++ [Event.prepare SQL_SAVE_REPOS true] }).db,
          log := (save_repos_loop ctx (star_lst.map (fun star => star.repo))
            { db := w.db, log := w.log ++ [Event.prepare SQL_SAVE_REPOS true] }).log ++
              [Event.prepare SQL_SAVE_MY_STARS true] }) := by
      simp [save_my_stars, hsave, hok, sqlite3_prepare_v2, hp]
    generalize save_repos_loop ctx (star_lst.map (fun star => star.repo))
      { db := w.db, log := w.log ++ [Event.prepare SQL_SAVE_REPOS true] } = w1
      at hrun hlog1 hdb1
    obtain ⟨ev2, hlog2, hat2, hdb2⟩ := save_my_stars_loop_attempts ctx star_lst
      { db := w1.db, log := w1.log ++ [Event.prepare SQL_SAVE_MY_STARS true] }
    simp only [] at hlog1 hlog2 hat2 hdb2
    refine ⟨ev1, ev2, by rw [hrun], ?_, hat1, ?_, ?_⟩
    · rw [hrun]
      show _ = _
      rw [hlog2, hlog1]
      simp [List.append_assoc]
    · rw [hlog1] at hat2
      simpa [List.append_assoc] using hat2
    · rw [hrun]
      show _ = _
      rw [hdb2, hdb1]

set_option maxRecDepth 100000 in
/-- Witness of C16: on a row store that fails the first, the third, ... write, a
batch of the four records 0 to 3 leaves the rows of the records 1 and 3, and the
call returns OK. -/
theorem batch_survives_row_failures_witness :
    (∀ log, flaky_ctx.prepare_fails log = false) ∧
    save_repos flaky_ctx fresh_world (mock_page 0 4) =
      (NO_ERROR,
        { db := { empty_db with omg_repo := [row_of_repo (mock_repo 1), row_of_repo (mock_repo 3)] },
          log := [Event.prepare SQL_SAVE_REPOS true,
            Event.step SQL_SAVE_REPOS (repo_params (mock_repo 0)) false,
            Event.step SQL_SAVE_REPOS (repo_params (mock_repo 1)) true,
            Event.step SQL_SAVE_REPOS (repo_params (mock_repo 2)) false,
            Event.step SQL_SAVE_REPOS (repo_params (mock_repo 3)) true] }) ∧
    ∃ ev : List Event,
      (save_repos flaky_ctx fresh_world (mock_page 0 4)).1 = NO_ERROR ∧
      (save_repos flaky_ctx fresh_world (mock_page 0 4)).2.log =
        fresh_world.log ++ Event.prepare SQL_SAVE_REPOS true :: ev ∧
      attempts_every_row flaky_ctx SQL_SAVE_REPOS repo_params
        (fresh_world.log ++ [Event.prepare SQL_SAVE_REPOS true]) (mock_page 0 4) ev ∧
      (save_repos flaky_ctx fresh_world (mock_page 0 4)).2.db =
        (stored_rows (mock_page 0 4) ev).foldl store_repo fresh_world.db :=
  ⟨fun _ => rfl, rfl,
    (batch_survives_row_failures flaky_ctx fresh_world (mock_page 0 4) [] (fun _ => rfl)).1⟩

/-! ### The remote answer of `omg_unstar` -/

/-- A response that `omg_request` stores through `out` when the caller gives a slot
makes it store through `NULL` when the caller gives none. -/
theorem omg_request_null_out (ctx : omg_context) (w w' : World) (method url : String)
    (e : omg_error) (resp : Json)
    (h : omg_request ctx w method url true = Except.ok (e, some resp, w')) :
    omg_request ctx w method url false = Except.error Fault.store_through_null := by
  unfold omg_request at h ⊢
  simp only at h ⊢
  split at h
  · simp at h
  · split at h
    · simp at h
    · rename_i hcode
      rw [if_neg hcode]
      split at h
      · simp at h
      · split at h
        · simp at h
        · simp

/-- The message of an error that `omg_request` returns points into an ended stack
frame exactly when the error is that of the JSON decoder. -/
theorem omg_request_message_expired (ctx : omg_context) (w w' : World) (method url : String)
    (out_given : Bool) (e : omg_error) (resp : Option Json)
    (h : omg_request ctx w method url out_given = Except.ok (e, resp, w')) :
    e.message_expired = true ↔ e.code = omg_code.OMG_CODE_JSON := by
  unfold omg_request at h
  simp only at h
  split at h
  · simp only [Except.ok.injEq, Prod.mk.injEq] at h
    rw [← h.1]
    simp
  · split at h
    · simp only [Except.ok.injEq, Prod.mk.injEq] at h
      rw [← h.1]
      simp [NO_ERROR]
    · split at h
      · cases h
      · split at h
        · simp only [Except.ok.injEq, Prod.mk.injEq] at h
          rw [← h.1]
          simp
        · split at h
          · simp only [Except.ok.injEq, Prod.mk.injEq] at h
            rw [← h.1]
            simp [NO_ERROR]
          · cases h

/-- C17. For every store state with unique repository ids in which the repository
has a row, every row store that fails none of the calls and every remote whose
response to the DELETE request is one that `omg_request` would hand to its caller as a
document (a status other than 204 and 304 with a body that is well-formed JSON),
`omg_unstar` does not return a value: when the URL of the row fits the array it stores
the document through the `NULL` output slot, and when the URL does not fit it has
stored past the array before. -/
theorem omg_unstar_stores_through_null (ctx : omg_context) (w : World) (repo_id : Nat)
    (hkeys : (w.db.omg_repo.map (fun r => r.id)).Nodup)
    (hrow : ∃ row ∈ w.db.omg_repo, row.id = unstar_key repo_id)
    (hstore : unstar_store_ok ctx w repo_id)
    (hresp : ∀ (w1 : World) (url : String), ∃ (e : omg_error) (resp : Json) (w2 : World),
      omg_request ctx w1 DELETE_METHOD url true = Except.ok (e, some resp, w2)) :
    ∃ row ∈ w.db.omg_repo, row.id = unstar_key repo_id ∧
      omg_unstar ctx w repo_id = Except.error
        (if (unstar_url (strdup_when_not_null
              (sqlite3_column_text [row.full_name] 0))).length + 1 ≤ URL_LEN
          then Fault.store_through_null else Fault.write_past_array) := by
  obtain ⟨row, hmem, hid, hone⟩ :=
    one_row_of_id w.db.omg_repo (unstar_key repo_id) hkeys hrow
  refine ⟨row, hmem, hid, ?_⟩
  rw [omg_unstar_run ctx w repo_id row hone hstore]
  by_cases hfit : (unstar_url (strdup_when_not_null
      (sqlite3_column_text [row.full_name] 0))).length + 1 ≤ URL_LEN
  · rw [sprintf_url_fits _ hfit, if_pos hfit]
    obtain ⟨e, resp, w2, h⟩ := hresp
      { db := { w.db with omg_my_star :=
          exec_unstar_delete (sqlite3_bind_int64 no_bindings 1 repo_id) w.db.omg_my_star },
        log := w.log ++ unstar_events repo_id }
      (unstar_url (strdup_when_not_null (sqlite3_column_text [row.full_name] 0)))
    simp only
    rw [omg_request_null_out ctx _ w2 _ _ e resp h]
  · rw [sprintf_url_overrun _ (by omega), if_neg hfit]

/-- Witness of C17: unstarring repository 7, which has a row and a star, against a
remote that answers 404 with a "Not Found" object. -/
theorem omg_unstar_stores_through_null_witness :
    (starred_world.db.omg_repo.map (fun r => r.id)).Nodup ∧
    (∃ row ∈ starred_world.db.omg_repo, row.id = unstar_key 7) ∧
    unstar_store_ok not_found_ctx starred_world 7 ∧
    (∀ (w1 : World) (url : String), ∃ (e : omg_error) (resp : Json) (w2 : World),
      omg_request not_found_ctx w1 DELETE_METHOD url true = Except.ok (e, some resp, w2)) ∧
    omg_unstar not_found_ctx starred_world 7 = Except.error Fault.store_through_null := by
  have hk : (starred_world.db.omg_repo.map (fun r => r.id)).Nodup := by decide
  have hr : ∃ row ∈ starred_world.db.omg_repo, row.id = unstar_key 7 :=
    ⟨mock_repo_row 7 "octocat/Hello-World", by decide, by decide⟩
  have hs : unstar_store_ok not_found_ctx starred_world 7 := ⟨rfl, rfl, rfl, rfl, rfl⟩
  have hq : ∀ (w1 : World) (url : String), ∃ (e : omg_error) (resp : Json) (w2 : World),
      omg_request not_found_ctx w1 DELETE_METHOD url true = Except.ok (e, some resp, w2) :=
    fun w1 url => ⟨NO_ERROR, not_found_json,
      { db := w1.db, log := w1.log ++ [Event.request DELETE_METHOD url] }, rfl⟩
  obtain ⟨row, hmem, hid, h⟩ :=
    omg_unstar_stores_through_null not_found_ctx starred_world 7 hk hr hs hq
  refine ⟨hk, hr, hs, hq, ?_⟩
  have hrows : starred_world.db.omg_repo =
      [mock_repo_row 7 "octocat/Hello-World", mock_repo_row 8 "rust-lang/rust"] := rfl
  rw [hrows] at hmem
  simp only [List.mem_cons, List.mem_singleton, List.not_mem_nil, or_false] at hmem
  rcases hmem with hrow | hrow
  · rw [h, hrow]
    rfl
  · rw [hrow] at hid
    exact absurd hid (by decide)

/-! ### The capacity of the query buffer -/

/-- C18. For every query kind, keyword and language whose composed query text has
exactly 512 characters, the length check of `prepare_query_sql` does not catch that
text: the comparison `current_len > SQL_DEFAULT_LEN` is false for it, and the
statements after the last `sprintf` prepare it and return OK with it, an accepted text
of length 512; with its terminating NUL it takes 513 bytes, one more than the block of
`SQL_DEFAULT_LEN` bytes that `malloc` returned, so that the `sprintf` that formats it
stores past the block, as `prepare_query_sql` does on a C library that appends in
place. -/
theorem prepare_query_sql_accepts_full_buffer (ctx : omg_context) (w : World)
    (is_star : Bool) (keyword language : Option String)
    (hlen : (composed_sql is_star keyword language).length = SQL_DEFAULT_LEN)
    (hprep : ctx.prepare_fails w.log = false) :
    ∃ sql : String,
      prepare_query_sql_tail ctx w sql =
        (NO_ERROR, some sql, { db := w.db, log := w.log ++ [Event.prepare sql true] }) ∧
      ¬ size_t_of_int (sprintf_ret sql) > SQL_DEFAULT_LEN ∧
      sql = composed_sql is_star keyword language ∧
      sql.length = 512 ∧
      ¬ sql.length ≤ 511 ∧
      sql.length + 1 > SQL_DEFAULT_LEN ∧
      sprintf_sql sql = Except.error Fault.write_past_block ∧
      (ctx.libc_sprintf_overlap = sprintf_overlap.in_place →
        prepare_query_sql ctx w is_star keyword language =
          Except.error Fault.write_past_block) :=
  ⟨composed_sql is_star keyword language,
    prepare_query_sql_tail_prepared ctx w _ (le_of_eq hlen) hprep,
    short_not_detected _ (le_of_eq hlen),
    rfl, hlen, by rw [hlen]; decide, by rw [hlen]; decide,
    sprintf_sql_overrun _ (by rw [hlen]; decide),
    fun hlibc => prepare_query_sql_in_place_overrun ctx w is_star keyword language hlibc
      (by rw [hlen]; decide)⟩

set_option maxRecDepth 100000 in
/-- Witness of C18: the repository query with no keyword and a language name of 249
characters has a text of 512 characters, which the check accepts and the `sprintf`
stores past the block. -/
theorem prepare_query_sql_accepts_full_buffer_witness :
    (composed_sql false none (some language_249)).length = SQL_DEFAULT_LEN ∧
    mock_ctx.prepare_fails fresh_world.log = false ∧
    prepare_query_sql mock_ctx fresh_world false none (some language_249) =
      Except.error Fault.write_past_block ∧
    ∃ sql : String,
      prepare_query_sql_tail mock_ctx fresh_world sql =
        (NO_ERROR, some sql,
          { db := fresh_world.db, log := fresh_world.log ++ [Event.prepare sql true] }) ∧
      ¬ size_t_of_int (sprintf_ret sql) > SQL_DEFAULT_LEN ∧
      sql = composed_sql false none (some language_249) ∧
      sql.length = 512 ∧
      ¬ sql.length ≤ 511 ∧
      sql.length + 1 > SQL_DEFAULT_LEN ∧
      sprintf_sql sql = Except.error Fault.write_past_block ∧
      (mock_ctx.libc_sprintf_overlap = sprintf_overlap.in_place →
        prepare_query_sql mock_ctx fresh_world false none (some language_249) =
          Except.error Fault.write_past_block) :=
  have hlen : (composed_sql false none (some language_249)).length = SQL_DEFAULT_LEN := by
    decide!
  ⟨hlen, rfl,
    prepare_query_sql_in_place_overrun mock_ctx fresh_world false none (some language_249) rfl
      (by rw [hlen]; decide),
    prepare_query_sql_accepts_full_buffer mock_ctx fresh_world false none (some language_249)
      hlen rfl⟩

/-! ### The scraper against the reference iteration -/

theorem advance_zero (html : String) : advance html 0 = html := rfl

theorem advance_advance (head : String) (a b : Nat) :
    advance (advance head a) b = advance head (a + b) := by
  simp [advance, List.drop_drop, Nat.add_comm]

theorem matched_eq_capture_group (head : String) (pmatch : Nat → regmatch_t) (j : Nat) :
    matched head pmatch j = capture_group head pmatch j := rfl

theorem digit_not_space (c : Char) (h : c.isDigit = true) : isspace c = false := by
  simp only [Char.isDigit, Bool.and_eq_true, decide_eq_true_eq] at h
  have h1 : 48 ≤ c.toNat := by
    have := h.1
    simpa [Char.toNat, UInt32.le_def, Fin.le_def] using this
  simp only [isspace, Bool.or_eq_false_iff, decide_eq_false_iff_not, Bool.and_eq_false_iff]
  omega

/-- On a string of decimal digits whose value fits in an `int`, `atoi` returns the
value. -/
theorem atoi_digits (s : String) (hd : ∀ c ∈ s.toList, c.isDigit = true)
    (hv : decimal_value s < 2147483648) : atoi s = (decimal_value s : Int) := by
  have hcs : s.toList.dropWhile isspace = s.toList := by
    cases hl : s.toList with
    | nil => rfl
    | cons c t =>
      have hc : c.isDigit = true := hd c (by rw [hl]; exact List.mem_cons_self _ _)
      simp [List.dropWhile_cons, digit_not_space c hc]
  have hminus : (s.toList.head? = some (Char.ofNat 45)) = False := by
    apply eq_false
    intro h
    cases hl : s.toList with
    | nil => rw [hl] at h; cases h
    | cons c t =>
      rw [hl] at h
      simp only [List.head?_cons, Option.some.injEq] at h
      have hc : c.isDigit = true := hd c (by rw [hl]; exact List.mem_cons_self _ _)
      rw [h] at hc
      exact absurd hc (by decide)
  have hplus : (s.toList.head? = some (Char.ofNat 43)) = False := by
    apply eq_false
    intro h
    cases hl : s.toList with
    | nil => rw [hl] at h; cases h
    | cons c t =>
      rw [hl] at h
      simp only [List.head?_cons, Option.some.injEq] at h
      have hc : c.isDigit = true := hd c (by rw [hl]; exact List.mem_cons_self _ _)
      rw [h] at hc
      exact absurd hc (by decide)
  have htake : s.toList.takeWhile Char.isDigit = s.toList :=
    List.takeWhile_eq_self_iff.mpr hd
  unfold atoi strtol
  simp only [hcs, hminus, hplus, decide_False, Bool.false_eq_true, or_self, if_false, htake]
  have hval : (List.foldl (fun acc c => 10 * acc + (c.toNat - 48)) 0 s.toList) =
      decimal_value s := rfl
  rw [hval]
  unfold int_wrap
  omega

/-! A match of `RE` ends its star count group after the start of the text. -/

theorem re_lit_preserves (P : (Nat → regmatch_t) → Prop) (lit : String) (k : Cont)
    (hk : ∀ cs pos caps r, k cs pos caps = some r → P r) :
    ∀ cs pos caps r, re_lit lit k cs pos caps = some r → P r := by
  intro cs pos caps r h
  unfold re_lit at h
  split at h
  · exact hk _ _ _ _ h
  · cases h

theorem re_open_preserves (P : (Nat → regmatch_t) → Prop) (j : Nat) (k : Cont)
    (hk : ∀ cs pos caps r, k cs pos caps = some r → P r) :
    ∀ cs pos caps r, re_open j k cs pos caps = some r → P r :=
  fun _ _ _ _ h => hk _ _ _ _ h

theorem re_close_preserves (P : (Nat → regmatch_t) → Prop) (j : Nat) (k : Cont)
    (hk : ∀ cs pos caps r, k cs pos caps = some r → P r) :
    ∀ cs pos caps r, re_close j k cs pos caps = some r → P r :=
  fun _ _ _ _ h => hk _ _ _ _ h

theorem re_greedy_preserves (P : (Nat → regmatch_t) → Prop) (p : Char → Bool) (k : Cont)
    (hk : ∀ cs pos caps r, k cs pos caps = some r → P r) :
    ∀ cs pos caps r, re_greedy p k cs pos caps = some r → P r := by
  intro cs
  induction cs with
  | nil =>
    intro pos caps r h
    simp only [re_greedy] at h
    exact hk _ _ _ _ h
  | cons c cs ih =>
    intro pos caps r h
    simp only [re_greedy] at h
    split at h
    · split at h
      · rename_i r' hr'
        cases h
        exact ih _ _ _ hr'
      · exact hk _ _ _ _ h
    · exact hk _ _ _ _ h

theorem re_plus_preserves (P : (Nat → regmatch_t) → Prop) (p : Char → Bool) (k : Cont)
    (hk : ∀ cs pos caps r, k cs pos caps = some r → P r) :
    ∀ cs pos caps r, re_plus p k cs pos caps = some r → P r := by
  intro cs pos caps r h
  cases cs with
  | nil => simp [re_plus] at h
  | cons c cs =>
    simp only [re_plus] at h
    split at h
    · exact re_greedy_preserves P p k hk _ _ _ _ h
    · cases h

theorem re_lazy_any_preserves (P : (Nat → regmatch_t) → Prop) (k : Cont)
    (hk : ∀ cs pos caps r, k cs pos caps = some r → P r) :
    ∀ cs pos caps r, re_lazy_any k cs pos caps = some r → P r := by
  intro cs
  induction cs with
  | nil =>
    intro pos caps r h
    simp only [re_lazy_any] at h
    exact hk _ _ _ _ h
  | cons c cs ih =>
    intro pos caps r h
    simp only [re_lazy_any] at h
    split at h
    · rename_i r' hr'
      cases h
      exact hk _ _ _ _ hr'
    · exact ih _ _ _ h

/-- After the end of group 3 the rest of the pattern leaves the group as it is. -/
theorem re_tail_keeps_group_3 (cs : List Char) (pos : Nat) (caps r : Nat → regmatch_t)
    (h : re_lit " stars this" (re_close 0 (fun _ _ caps => some caps)) cs pos caps = some r) :
    (r 3).rm_eo = (caps 3).rm_eo := by
  unfold re_lit at h
  split at h
  · simp only [re_close, Option.some.injEq] at h
    rw [← h]
    simp
  · cases h

/-- The digits of group 3 end at or after the offset at which they are tried. -/
theorem re_digits_end (cs : List Char) :
    ∀ (pos : Nat) (caps r : Nat → regmatch_t),
      re_greedy Char.isDigit
        (re_close 3 (re_lit " stars this" (re_close 0 (fun _ _ caps => some caps))))
        cs pos caps = some r → pos ≤ (r 3).rm_eo := by
  have hbase : ∀ (cs : List Char) (pos : Nat) (caps r : Nat → regmatch_t),
      re_close 3 (re_lit " stars this" (re_close 0 (fun _ _ caps => some caps)))
        cs pos caps = some r → pos ≤ (r 3).rm_eo := by
    intro cs pos caps r h
    have := re_tail_keeps_group_3 cs pos _ r h
    rw [this]
    simp
  induction cs with
  | nil =>
    intro pos caps r h
    simp only [re_greedy] at h
    exact hbase _ _ _ _ h
  | cons c cs ih =>
    intro pos caps r h
    simp only [re_greedy] at h
    split at h
    · split at h
      · rename_i r' hr'
        cases h
        have := ih _ _ _ hr'
        omega
      · exact hbase _ _ _ _ h
    · exact hbase _ _ _ _ h

theorem re_group_3_end_pos (cs : List Char) (pos : Nat) (caps r : Nat → regmatch_t)
    (h : re_open 3 (re_plus Char.isDigit
      (re_close 3 (re_lit " stars this" (re_close 0 (fun _ _ caps => some caps)))))
      cs pos caps = some r) : 0 < (r 3).rm_eo := by
  unfold re_open at h
  cases cs with
  | nil => simp [re_plus] at h
  | cons c cs =>
    simp only [re_plus] at h
    split at h
    · have := re_digits_end _ _ _ _ h
      omega
    · cases h

theorem re_trending_end_pos (cs : List Char) (pos : Nat) (caps r : Nat → regmatch_t)
    (h : re_trending cs pos caps = some r) : 0 < (r 3).rm_eo := by
  unfold re_trending at h
  refine re_open_preserves (fun r => 0 < (r 3).rm_eo) _ _ ?_ _ _ _ _ h
  refine re_lit_preserves _ _ _ ?_
  refine re_open_preserves _ _ _ ?_
  refine re_plus_preserves _ _ _ ?_
  refine re_close_preserves _ _ _ ?_
  refine re_lit_preserves _ _ _ ?_
  refine re_lazy_any_preserves _ _ ?_
  refine re_lit_preserves _ _ _ ?_
  refine re_open_preserves _ _ _ ?_
  refine re_plus_preserves _ _ _ ?_
  refine re_lit_preserves _ _ _ ?_
  refine re_plus_preserves _ _ _ ?_
  refine re_close_preserves _ _ _ ?_
  refine re_lit_preserves _ _ _ ?_
  refine re_lazy_any_preserves _ _ ?_
  exact re_group_3_end_pos

/-- A match of `RE` ends its star count group at a positive offset. -/
theorem pcre2_regexec_RE_end_pos (text : String) (pmatch : Nat → regmatch_t)
    (h : pcre2_regexec_RE text = some pmatch) : 0 < (pmatch 3).rm_eo := by
  unfold pcre2_regexec_RE at h
  have hs : ∀ (cs : List Char) (pos : Nat), re_search cs pos = some pmatch →
      0 < (pmatch 3).rm_eo := by
    intro cs
    induction cs with
    | nil =>
      intro pos h
      simp only [re_search] at h
      exact re_trending_end_pos _ _ _ _ h
    | cons c cs ih =>
      intro pos h
      simp only [re_search] at h
      split at h
      · rename_i r hr
        cases h
        exact re_trending_end_pos _ _ _ _ hr
      · exact ih _ h
  exact hs _ _ h

theorem omg_parse_trending_loop_reference (ctx : omg_context) (html : String) (n : Nat) :
    ∀ cursor : Nat,
      (∀ s ∈ trending_star_texts ctx html n cursor,
        (∀ c ∈ s.toList, c.isDigit = true) ∧ decimal_value s < 2147483648) →
      omg_parse_trending_loop ctx n (advance html cursor) =
        trending_reference ctx html n cursor := by
  induction n with
  | zero => intro cursor _; rfl
  | succ n ih =>
    intro cursor h
    simp only [omg_parse_trending_loop, trending_reference]
    simp only [trending_star_texts] at h
    cases hm : ctx.trending_re (advance html cursor) with
    | none => rfl
    | some pmatch =>
      rw [hm] at h
      simp only [List.mem_cons, forall_eq_or_imp] at h
      simp only [advance_advance, matched_eq_capture_group]
      rw [ih _ h.2, atoi_digits _ h.1.1 h.1.2]

theorem trending_reference_fields (ctx : omg_context) (html : String) (n : Nat) :
    ∀ cursor : Nat, ∀ e ∈ trending_reference ctx html n cursor,
      0 ≤ e.stargazers_count ∧
      e = { omg_new_repo with
            lang := e.lang, full_name := e.full_name,
            stargazers_count := e.stargazers_count } := by
  induction n with
  | zero => intro cursor e he; cases he
  | succ n ih =>
    intro cursor e he
    simp only [trending_reference] at he
    split at he
    · cases he
    · rcases List.mem_cons.mp he with h | h
      · subst h
        exact ⟨Int.natCast_nonneg _, rfl⟩
      · exact ih _ e h

theorem trending_cursors_chain (ctx : omg_context) (html : String)
    (hre : ctx.trending_re = pcre2_regexec_RE) (n : Nat) :
    ∀ (cursor before : Nat), before < cursor →
      List.Chain (fun a b => a < b) before (trending_cursors ctx html n cursor) := by
  induction n with
  | zero => intro cursor before _; exact List.Chain.nil
  | succ n ih =>
    intro cursor before hlt
    simp only [trending_cursors]
    cases hm : ctx.trending_re (advance html cursor) with
    | none => exact List.Chain.nil
    | some pmatch =>
      rw [hre] at hm
      have hpos := pcre2_regexec_RE_end_pos _ _ hm
      exact List.Chain.cons hlt (ih _ _ (by omega))

theorem trending_cursors_increase (ctx : omg_context) (html : String)
    (hre : ctx.trending_re = pcre2_regexec_RE) (n cursor : Nat) :
    List.Pairwise (fun a b => a < b) (trending_cursors ctx html n cursor) := by
  cases n with
  | zero => exact List.Pairwise.nil
  | succ n =>
    simp only [trending_cursors]
    cases hm : ctx.trending_re (advance html cursor) with
    | none => exact List.Pairwise.nil
    | some pmatch =>
      rw [hre] at hm
      have hpos := pcre2_regexec_RE_end_pos _ _ hm
      exact List.chain_iff_pairwise.mp
        (trending_cursors_chain ctx html hre n _ cursor (by omega))

theorem trending_cursors_length (ctx : omg_context) (html : String) (n : Nat) :
    ∀ cursor : Nat, (trending_cursors ctx html n cursor).length =
      (trending_reference ctx html n cursor).length := by
  induction n with
  | zero => intro cursor; rfl
  | succ n ih =>
    intro cursor
    simp only [trending_cursors, trending_reference]
    cases ctx.trending_re (advance html cursor) with
    | none => rfl
    | some pmatch => simp [ih]

set_option maxRecDepth 100000 in
/-- Counterexample of C19: on a block whose star count text is `3000000000` the
scraper stores the star count -1294967296, the reference iteration the integer value
3000000000 of the digit string. -/
theorem omg_parse_trending_wraps_star_count :
    (omg_parse_trending mock_ctx trending_big_block).2.map (fun e => e.stargazers_count) =
      [-1294967296] ∧
    (trending_reference mock_ctx trending_big_block TRENDING_LIST_LENGTH 0).map
      (fun e => e.stargazers_count) = [3000000000] ∧
    trending_star_texts mock_ctx trending_big_block TRENDING_LIST_LENGTH 0 = ["3000000000"] ∧
    (omg_parse_trending mock_ctx trending_big_block).2 ≠
      trending_reference mock_ctx trending_big_block TRENDING_LIST_LENGTH 0 := by
  have h1 : (omg_parse_trending mock_ctx trending_big_block).2.map
      (fun e => e.stargazers_count) = [-1294967296] := by decide!
  have h2 : (trending_reference mock_ctx trending_big_block TRENDING_LIST_LENGTH 0).map
      (fun e => e.stargazers_count) = [3000000000] := by decide!
  refine ⟨h1, h2, by decide!, ?_⟩
  intro h
  rw [h, h2] at h1
  exact absurd h1 (by decide)

/-- C19 (amended). For every HTML text in which the star count texts that the
iteration captures are strings of decimal digits of a value below 2^31, the list
returned by `omg_parse_trending` equals the reference iteration: at most 25 entries,
entry `i` having as language, full name and star count the capture groups 1, 2 and 3
of the match found in the text that starts at the cursor, the cursor starting at the
beginning of the text and advancing to the end of group 3 of each match; the star
count is the non-negative integer value of the digit string, every other field of an
entry is absent or zero, and with the pattern `RE` the cursors strictly increase. -/
theorem omg_parse_trending_reference (ctx : omg_context) (html : String)
    (hstars : ∀ s ∈ trending_star_texts ctx html TRENDING_LIST_LENGTH 0,
      (∀ c ∈ s.toList, c.isDigit = true) ∧ decimal_value s < 2147483648) :
    omg_parse_trending ctx html =
      (NO_ERROR, trending_reference ctx html TRENDING_LIST_LENGTH 0) ∧
    (omg_parse_trending ctx html).2.length ≤ 25 ∧
    (∀ e ∈ (omg_parse_trending ctx html).2,
      0 ≤ e.stargazers_count ∧
      e = { omg_new_repo with
            lang := e.lang, full_name := e.full_name,
            stargazers_count := e.stargazers_count }) ∧
    (trending_cursors ctx html TRENDING_LIST_LENGTH 0).length =
      (omg_parse_trending ctx html).2.length ∧
    (ctx.trending_re = pcre2_regexec_RE →
      List.Pairwise (fun a b => a < b) (trending_cursors ctx html TRENDING_LIST_LENGTH 0)) := by
  have heq : omg_parse_trending ctx html =
      (NO_ERROR, trending_reference ctx html TRENDING_LIST_LENGTH 0) := by
    unfold omg_parse_trending
    have := omg_parse_trending_loop_reference ctx html TRENDING_LIST_LENGTH 0 hstars
    rw [advance_zero] at this
    rw [this]
  refine ⟨heq, ?_, ?_, ?_, ?_⟩
  · exact (omg_parse_trending_loop_length ctx TRENDING_LIST_LENGTH html).1
  · rw [heq]
    exact trending_reference_fields ctx html TRENDING_LIST_LENGTH 0
  · rw [heq]
    exact trending_cursors_length ctx html TRENDING_LIST_LENGTH 0
  · intro hre
    exact trending_cursors_increase ctx html hre TRENDING_LIST_LENGTH 0

set_option maxRecDepth 100000 in
/-- Witness of C19: a page of two well-formed blocks with 42 stars each. -/
theorem omg_parse_trending_reference_witness :
    (∀ s ∈ trending_star_texts mock_ctx (trending_page 2) TRENDING_LIST_LENGTH 0,
      (∀ c ∈ s.toList, c.isDigit = true) ∧ decimal_value s < 2147483648) ∧
    omg_parse_trending mock_ctx (trending_page 2) =
      (NO_ERROR, trending_reference mock_ctx (trending_page 2) TRENDING_LIST_LENGTH 0) ∧
    (omg_parse_trending mock_ctx (trending_page 2)).2 =
      [{ omg_new_repo with
          lang := some "Rust", full_name := some "rust-lang/rust", stargazers_count := 42 },
       { omg_new_repo with
          lang := some "Rust", full_name := some "rust-lang/rust", stargazers_count := 42 }] ∧
    trending_cursors mock_ctx (trending_page 2) TRENDING_LIST_LENGTH 0 = [0, 97] ∧
    List.Pairwise (fun a b => a < b)
      (trending_cursors mock_ctx (trending_page 2) TRENDING_LIST_LENGTH 0) :=
  have htexts : trending_star_texts mock_ctx (trending_page 2) TRENDING_LIST_LENGTH 0 =
      ["42", "42"] := by decide!
  have hst : ∀ s ∈ trending_star_texts mock_ctx (trending_page 2) TRENDING_LIST_LENGTH 0,
      (∀ c ∈ s.toList, c.isDigit = true) ∧ decimal_value s < 2147483648 := by
    rw [htexts]
    intro s hs
    simp only [List.mem_cons, List.mem_singleton, List.not_mem_nil, or_false, or_self] at hs
    subst hs
    decide
  ⟨hst, (omg_parse_trending_reference mock_ctx (trending_page 2) hst).1, by decide!, by decide!,
    (omg_parse_trending_reference mock_ctx (trending_page 2) hst).2.2.2.2 rfl⟩

/-! ### The URL buffers -/

theorem toString_size_t_length (n : Nat) (h : n < SIZE_MAX_PLUS_ONE) :
    (toString n).length ≤ 20 := by
  show (Nat.repr n).length ≤ 20
  have h' : n < 18446744073709551616 := h
  exact Nat.repr_length n 20 (by decide) (by omega)

set_option maxRecDepth 100000 in
/-- C20. The page URLs of `fetch_repos_by_page` and `fetch_stars_by_page` fit in the
128-byte buffer for every page number, but the URLs that carry a caller's text do
not: the URL of `omg_unstar` for a full name of 92 characters or more, the URL of
`omg_whoami` for a username of 99 characters or more, and the URLs of
`omg_query_commits` and `omg_query_releases` for a full name of 81 characters or more
are longer than 127 characters, and `omg_whoami`, `omg_query_commits` and
`omg_query_releases` store them past the array. For the repository row with a full name
of 140 characters `omg_unstar` formats a URL of 176 characters and stores it past the
array. -/
theorem url_longer_than_buffer :
    (∀ (t : Bool) (page_num : Nat), page_num < SIZE_MAX_PLUS_ONE →
      (repos_page_url t page_num).length ≤ 127 ∧ (stars_page_url t page_num).length ≤ 127) ∧
    (∀ full_name : String, 92 ≤ full_name.length →
      127 < (unstar_url (some full_name)).length) ∧
    (∀ username : String, 99 ≤ username.length →
      127 < (whoami_url (some username)).length) ∧
    (∀ (full_name : String) (limit : Int), 81 ≤ full_name.length →
      127 < (commits_url (some full_name) limit).length ∧
      127 < (releases_url (some full_name) limit).length) ∧
    long_full_name.length = 140 ∧
    (unstar_url (some long_full_name)).length = 176 ∧
    omg_unstar no_content_ctx long_name_world 7 = Except.error Fault.write_past_array ∧
    (∀ (ctx : omg_context) (w : World) (username : String), 99 ≤ username.length →
      omg_whoami ctx w (some username) = Except.error Fault.write_past_array) ∧
    (∀ (ctx : omg_context) (w : World) (full_name : String) (limit : Int),
      81 ≤ full_name.length →
      omg_query_commits ctx w (some full_name) limit =
        Except.error Fault.write_past_array ∧
      omg_query_releases ctx w (some full_name) limit =
        Except.error Fault.write_past_array) := by
  have hapi : API_ROOT.length = 22 := by decide
  have hwho : ∀ username : String, 99 ≤ username.length →
      127 < (whoami_url (some username)).length := by
    intro username h
    have l1 : "/users/".length = 7 := by decide
    have he : empty_string (some username) = false := by
      simp only [empty_string, decide_eq_false_iff_not]
      omega
    simp only [whoami_url, he, Bool.false_eq_true, if_false, Option.getD_some,
      String.length_append, hapi, l1]
    omega
  have hrepo : ∀ (full_name : String) (limit : Int), 81 ≤ full_name.length →
      127 < (commits_url (some full_name) limit).length ∧
      127 < (releases_url (some full_name) limit).length := by
    intro full_name limit h
    have l1 : "/repos/".length = 7 := by decide
    have l2 : "/commits?per_page=".length = 18 := by decide
    have l3 : "/releases?per_page=".length = 19 := by decide
    simp only [commits_url, releases_url, Option.getD_some, String.length_append, hapi, l1,
      l2, l3]
    omega
  refine ⟨?_, ?_, hwho, hrepo, by decide!, by decide!, rfl, ?_, ?_⟩
  · intro t page_num h
    have hn := toString_size_t_length page_num h
    have h10 : (toString (10 : Nat)).length = 2 := by decide
    have h100 : (toString (100 : Nat)).length = 3 := by decide
    have l1 : "/user/repos?type=all&per_page=".length = 30 := by decide
    have l2 : "&page=".length = 6 := by decide
    have l3 : "&sort=created".length = 13 := by decide
    have l4 : "/user/starred?type=all&per_page=".length = 32 := by decide
    cases t <;>
      simp only [repos_page_url, stars_page_url, PER_PAGE, String.length_append, hapi, h10,
        h100, l1, l2, l3, l4, if_true, if_false, Bool.false_eq_true] <;>
      omega
  · intro full_name h
    have l1 : "/user/starred/".length = 14 := by decide
    simp only [unstar_url, Option.getD_some, String.length_append, hapi, l1]
    omega
  · intro ctx w username h
    have hover := sprintf_url_overrun (whoami_url (some username))
      (by have := hwho username h; show 128 < _; omega)
    unfold omg_whoami
    simp only [bind, Except.bind, hover]
  · intro ctx w full_name limit h
    have hc := sprintf_url_overrun (commits_url (some full_name) limit)
      (by have := (hrepo full_name limit h).1; show 128 < _; omega)
    have hr := sprintf_url_overrun (releases_url (some full_name) limit)
      (by have := (hrepo full_name limit h).2; show 128 < _; omega)
    refine ⟨?_, ?_⟩
    · unfold omg_query_commits
      simp only [bind, Except.bind, hc]
    · unfold omg_query_releases
      simp only [bind, Except.bind, hr]

end Omg
